import Mathlib

/-!
Veloera transcription pipeline: quota ledger, engine selection, task orchestration.

A shallow embedding of the transcription core of the repository
(`service/transcription_service.go`, `model/transcription.go`,
`controller/transcription.go`) together with the properties checked against it.

Conventions of the embedding

* Go `int` / `int64` values are integers; every arithmetic result that Go stores
  in a 64-bit word goes through `wrapInt64`.
* Go integer division truncates toward zero: `Int.tdiv`.
* `float64` arithmetic is modelled exactly (round to nearest, ties to even, 53
  significant bits) on scaled naturals, see `roundFloat64`.
* Calls that leave the program (database, file system, recognition back-end)
  take their outcome from an explicit environment record.
-/

namespace Veloera

/-! ## Machine arithmetic -/

/-- Two's-complement wrap-around of a 64-bit signed word. -/
def wrapInt64 (x : Int) : Int :=
  (x + 2 ^ 63) % 2 ^ 64 - 2 ^ 63

/-- Number of low bits a natural number loses when it is stored with a 53-bit
significand: the least `s` with `n / 2 ^ s < 2 ^ 53` (the first argument bounds
the search and is always taken to be `n` itself). -/
def f64Shift : Nat → Nat → Nat
  | 0, _ => 0
  | fuel + 1, n => if n < 2 ^ 53 then 0 else f64Shift fuel (n / 2) + 1

/-- Rounding of a natural number to the nearest value with a 53-bit significand,
ties to even: the IEEE-754 binary64 rounding of a positive quantity, up to a
power-of-two scale. -/
def roundFloat64 (n : Nat) : Nat :=
  let s := f64Shift n n
  let q := n / 2 ^ s
  let r := n % 2 ^ s
  if 2 * r < 2 ^ s then q * 2 ^ s
  else if 2 ^ s < 2 * r then (q + 1) * 2 ^ s
  else if q % 2 = 0 then q * 2 ^ s
  else (q + 1) * 2 ^ s

/-- The constant `1.2` as Go stores it in a `float64`, scaled by `2 ^ 52`
(`1.2 = 0x3FF3333333333333`). -/
def float64OnePointTwo : Nat := 5404319552844595

/-- Go expression `int(float64(cost) * 1.2)`: conversion of `cost` to `float64`,
one rounded multiplication by the stored constant, truncation toward zero.  A
product outside the `int64` range converts to `-2 ^ 63` (amd64). -/
def mulOnePointTwo (cost : Int) : Int :=
  let a := roundFloat64 cost.natAbs
  let p := roundFloat64 (a * float64OnePointTwo)
  let t : Nat := p / 2 ^ 52
  if 2 ^ 63 ≤ t then -(2 ^ 63)
  else if cost < 0 then -(t : Int)
  else (t : Int)

/-! ## QuotaLedger: cost estimation (`service/transcription_service.go`) -/

/-- Source `estimateTranscriptionCost(fileSize int64, duration *int, language string) int`. -/
def estimateTranscriptionCost (fileSize : Int) (duration : Option Int) (language : String) : Int :=
  let baseCostPerMinute : Int := 100
  let estimatedDuration : Int :=
    match duration with
    | some d => d
    | none =>
      let e := Int.tdiv fileSize (1024 * 1024)
      if e < 60 then 60 else e
  let minutes := Int.tdiv (wrapInt64 (estimatedDuration + 59)) 60
  let cost := wrapInt64 (minutes * baseCostPerMinute)
  if language != "zh" && language != "en" then mulOnePointTwo cost else cost

/-! ## Constants (`constant/transcription.go`) -/

def TaskStatusPending : String := "pending"
def TaskStatusUploading : String := "uploading"
def TaskStatusProcessing : String := "processing"
def TaskStatusCompleted : String := "completed"
def TaskStatusFailed : String := "failed"
def TaskStatusCancelled : String := "cancelled"

def FileTypeOriginal : String := "original"
def FileTypeResult : String := "result"

def OutputFormatJSON : String := "json"
def OutputFormatSRT : String := "srt"
def OutputFormatTXT : String := "txt"
def OutputFormatVTT : String := "vtt"

def BillingTypeDuration : String := "duration"

/-- Source `MimeTypeMap`. -/
def MimeTypeMap : List (String × String) :=
  [("mp3", "audio/mpeg"), ("mp4", "video/mp4"), ("wav", "audio/wav"), ("m4a", "audio/mp4"),
   ("flac", "audio/flac"), ("aac", "audio/aac"), ("ogg", "audio/ogg"),
   ("wma", "audio/x-ms-wma"), ("amr", "audio/amr"), ("avi", "video/x-msvideo"),
   ("mov", "video/quicktime"), ("mkv", "video/x-matroska"), ("wmv", "video/x-ms-wmv"),
   ("flv", "video/x-flv"), ("webm", "video/webm")]

/-- Source `GetMimeType`. -/
def GetMimeType (ext : String) : String :=
  match MimeTypeMap.lookup ext with
  | some mimeType => mimeType
  | none => "application/octet-stream"

/-! ## Strings and paths (Go standard library, as used by the sources) -/

/-- Go `unicode.IsSpace`. -/
def isSpace (c : Char) : Bool :=
  let n := c.toNat
  (0x09 ≤ n && n ≤ 0x0D) || n == 0x20 || n == 0x85 || n == 0xA0 || n == 0x1680 ||
  (0x2000 ≤ n && n ≤ 0x200A) || n == 0x2028 || n == 0x2029 || n == 0x202F ||
  n == 0x205F || n == 0x3000

/-- Go `strings.TrimSpace`: the string without leading and trailing white space. -/
def TrimSpace (s : String) : String :=
  String.mk ((s.data.dropWhile isSpace).reverse.dropWhile isSpace).reverse

/-- Pieces of a character sequence between occurrences of `sep`. -/
def splitChars (sep : Char) : List Char → List (List Char)
  | [] => [[]]
  | c :: cs =>
    if c = sep then [] :: splitChars sep cs
    else
      match splitChars sep cs with
      | [] => [[c]]
      | piece :: pieces => (c :: piece) :: pieces

/-- Go `strings.Split(s, sep)` for a one-character separator (the sources only
split on ","): all pieces between separators, the empty string giving one empty
piece. -/
def Split (s : String) (sep : Char) : List String :=
  (splitChars sep s.data).map String.mk

/-- Go `filepath.Join` of a directory and a file name, for a directory that is
already clean (no `.` or `..` element, no doubled or trailing separator): the
two joined by one separator.  `Join` also cleans its result, so for a directory
such as `./data` it returns `data/...`; that cleaning is not modelled, and only
the directory part of a path depends on it. -/
def joinPath (dir name : String) : String :=
  dir ++ "/" ++ name

/-- Suffix of a reversed path starting at the last dot of its last element. -/
def extRev : List Char → List Char → List Char
  | [], _ => []
  | c :: rest, acc =>
    if c = '/' then []
    else if c = '.' then c :: acc
    else extRev rest (c :: acc)

/-- Go `filepath.Ext`: the suffix beginning at the final dot in the final element
of the path, empty if there is no dot. -/
def Ext (path : String) : String :=
  String.mk (extRev path.data.reverse [])

/-- Go `filepath.Base`: the last element of the path, trailing slashes removed. -/
def Base (path : String) : String :=
  if path.data = [] then "."
  else
    let stripped := (path.data.reverse.dropWhile (fun c => c = '/'))
    if stripped = [] then "/"
    else String.mk (stripped.takeWhile (fun c => c ≠ '/')).reverse

/-! ## Data model (`model/transcription.go`) -/

/-- Source `TranscriptionTask`, without the preloaded associations.  Times are
clock readings; finite `float64` values are the rationals they denote. -/
structure TranscriptionTask where
  ID : Int
  UserID : Int
  TokenID : Option Int
  ChannelID : Int
  OriginalFilename : String
  FilePath : String
  FileSize : Int
  FileType : String
  Duration : Option Int
  Language : String
  ModelName : String
  EnableTimestamps : Bool
  EnableSpeaker : Bool
  OutputFormat : String
  Quality : String
  Priority : Int
  Status : String
  Progress : Int
  ErrorMessage : String
  ErrorCode : String
  ResultText : String
  ResultFilePath : String
  ConfidenceScore : Option ℚ
  DetectedLanguage : String
  QuotaCost : Int
  BillingDuration : Option Int
  BillingType : String
  CreatedAt : Nat
  StartedAt : Option Nat
  CompletedAt : Option Nat
  UpdatedAt : Nat
  deriving DecidableEq

/-- Source `FileStorage`, without the preloaded associations. -/
structure FileStorage where
  ID : Int
  UserID : Int
  TaskID : Option Int
  FileType : String
  OriginalName : String
  StoredName : String
  FilePath : String
  FileSize : Int
  MimeType : String
  StorageType : String
  ExpiresAt : Option Nat
  CreatedAt : Nat
  deriving DecidableEq

/-- Source `TranscriptionSegment`. -/
structure TranscriptionSegment where
  ID : Int
  Start : ℚ
  End : ℚ
  Text : String
  Speaker : String
  Confidence : ℚ
  deriving DecidableEq

/-- Source `TranscriptionWord`. -/
structure TranscriptionWord where
  Word : String
  Start : ℚ
  End : ℚ
  Confidence : ℚ
  deriving DecidableEq

/-- Source `TranscriptionSpeaker`. -/
structure TranscriptionSpeaker where
  ID : String
  Name : String
  Gender : String
  Language : String
  deriving DecidableEq

/-- Source `TranscriptionResult`. -/
structure TranscriptionResult where
  Text : String
  Language : String
  Duration : ℚ
  ConfidenceScore : ℚ
  Segments : List TranscriptionSegment
  Words : List TranscriptionWord
  Speakers : List TranscriptionSpeaker
  deriving DecidableEq

/-- Fields of `model.Channel` that the transcription sources read (the type is
declared outside the sources at hand). -/
structure Channel where
  Id : Int
  EngineType : Int
  Key : String
  BaseURL : String
  SupportedFormats : String
  SupportedLanguages : String
  Weight : Int
  Status : Int
  deriving DecidableEq

/-- Source `TranscriptionRequest` (`service/transcription_service.go`). -/
structure TranscriptionRequest where
  Filename : String
  FileSize : Int
  FileType : String
  Duration : Option Int
  Language : String
  ModelName : String
  EnableTimestamps : Bool
  EnableSpeaker : Bool
  OutputFormat : String
  Quality : String
  Priority : Int
  deriving DecidableEq

/-- Source `StorageConfig`. -/
structure StorageConfig where
  Type_ : String
  LocalPath : String
  MaxSize : Int
  RetentionDays : Nat
  deriving DecidableEq

/-- Source `TranscriptionError` (`service/transcription/adaptor.go`). -/
structure TranscriptionError where
  Code : String
  Message : String
  deriving DecidableEq

/-- Operations of the interface `TranscriptionAdaptor` that the orchestrator
calls.  `SubmitTask` works on the task value it is handed and returns it
together with its error, if any. -/
structure TranscriptionAdaptor where
  SubmitTask : TranscriptionTask → TranscriptionTask × Option TranscriptionError
  GetResult : TranscriptionTask → Except TranscriptionError TranscriptionResult

/-! ## The store: database tables, result files and the quota ledger -/

/-- One accepted call of the quota ledger. -/
inductive QuotaCall where
  | decrease (userID amount : Int)
  | increase (userID amount : Int)
  deriving DecidableEq

/-- Persistent state the orchestrator works on: the rows of the task table, the
rows of the stored-file table, the files on disk (path and content), the quota
balance of every user and the log of ledger calls, oldest first. -/
structure Store where
  tasks : List TranscriptionTask
  files : List FileStorage
  disk : List (String × String)
  quota : Int → Int
  ledger : List QuotaCall

/-- Quota debited from a user according to the ledger log. -/
def totalDebited (userID : Int) : List QuotaCall → Int
  | [] => 0
  | QuotaCall.decrease u a :: rest =>
    (if u = userID then a else 0) + totalDebited userID rest
  | QuotaCall.increase _ _ :: rest => totalDebited userID rest

/-- Quota credited to a user according to the ledger log. -/
def totalRefunded (userID : Int) : List QuotaCall → Int
  | [] => 0
  | QuotaCall.decrease _ _ :: rest => totalRefunded userID rest
  | QuotaCall.increase u a :: rest =>
    (if u = userID then a else 0) + totalRefunded userID rest

/-- Modelled from the spec: `model.DecreaseUserQuota` (file `model/user.go` is
not among the sources).  The spec: "debits the balance synchronously before
dispatching to a backend".  `ok` tells whether the ledger accepted the call; a
refused call changes nothing and returns an error. -/
def DecreaseUserQuota (db : Store) (ok : Bool) (userID amount : Int) : Store × Option String :=
  if ok then
    ({ db with
        quota := fun u => if u = userID then db.quota u - amount else db.quota u
        ledger := db.ledger ++ [QuotaCall.decrease userID amount] }, none)
  else (db, some "quota update failed")

/-- Modelled from the spec: `model.IncreaseUserQuota` (file `model/user.go` is
not among the sources).  The spec: "credits the balance back". -/
def IncreaseUserQuota (db : Store) (userID amount : Int) : Store :=
  { db with
      quota := fun u => if u = userID then db.quota u + amount else db.quota u
      ledger := db.ledger ++ [QuotaCall.increase userID amount] }

/-- Source `preDeductQuota`. -/
def preDeductQuota (db : Store) (ok : Bool) (userID amount : Int) : Store × Option String :=
  DecreaseUserQuota db ok userID amount

/-- Source `refundQuota`; the reason is not passed on. -/
def refundQuota (db : Store) (userID amount : Int) (_reason : String) : Store :=
  IncreaseUserQuota db userID amount

/-! ## Task persistence (`model/transcription.go`) -/

/-- One entry of the `updates` map handed to gorm: a column and its new value. -/
inductive Column where
  | status (v : String)
  | progress (v : Int)
  | updated_at (v : Nat)
  | error_message (v : String)
  | started_at (v : Nat)
  | completed_at (v : Nat)
  | result_text (v : String)
  | result_file_path (v : String)
  | confidence_score (v : ℚ)
  | detected_language (v : String)
  | duration (v : Int)
  | billing_duration (v : Int)
  deriving DecidableEq

/-- Assignment of one column. -/
def Column.assign (t : TranscriptionTask) : Column → TranscriptionTask
  | Column.status v => { t with Status := v }
  | Column.progress v => { t with Progress := v }
  | Column.updated_at v => { t with UpdatedAt := v }
  | Column.error_message v => { t with ErrorMessage := v }
  | Column.started_at v => { t with StartedAt := some v }
  | Column.completed_at v => { t with CompletedAt := some v }
  | Column.result_text v => { t with ResultText := v }
  | Column.result_file_path v => { t with ResultFilePath := v }
  | Column.confidence_score v => { t with ConfidenceScore := some v }
  | Column.detected_language v => { t with DetectedLanguage := v }
  | Column.duration v => { t with Duration := some v }
  | Column.billing_duration v => { t with BillingDuration := some v }

/-- Assignment of a list of columns, in order. -/
def assignColumns (t : TranscriptionTask) (updates : List Column) : TranscriptionTask :=
  updates.foldl Column.assign t

/-- Call `DB.Model(task).Updates(updates)`: the columns are written to every row
whose primary key is `task.ID`, whatever that row holds.  gorm assigns the map to
the value `task` itself while it builds the statement, so the value carries the
new columns whether or not the statement goes through.  `ok` is the outcome of
the statement; on failure no row is written. -/
def dbUpdates (db : Store) (ok : Bool) (task : TranscriptionTask) (updates : List Column) :
    Store × TranscriptionTask × Option String :=
  if ok then
    let rows := db.tasks.map
      (fun row => if row.ID = task.ID then assignColumns row updates else row)
    ({ db with tasks := rows }, assignColumns task updates, none)
  else (db, assignColumns task updates, some "database error")

/-- The `updates` map built by `UpdateStatus`. -/
def statusUpdates (task : TranscriptionTask) (status : String) (progress : Int)
    (errorMsg : String) (now : Nat) : List Column :=
  [Column.status status, Column.progress progress, Column.updated_at now]
  ++ (if errorMsg != "" then [Column.error_message errorMsg] else [])
  ++ (if status == TaskStatusProcessing && task.StartedAt.isNone
      then [Column.started_at now] else [])
  ++ (if status == TaskStatusCompleted || status == TaskStatusFailed
      then [Column.completed_at now] else [])

/-- Source `(*TranscriptionTask).UpdateStatus`. -/
def UpdateStatus (db : Store) (ok : Bool) (task : TranscriptionTask) (status : String)
    (progress : Int) (errorMsg : String) (now : Nat) :
    Store × TranscriptionTask × Option String :=
  dbUpdates db ok task (statusUpdates task status progress errorMsg now)

/-- Go conversion `int(f)` of a finite `float64`: truncation toward zero, and
`-2 ^ 63` outside the `int64` range (amd64). -/
def floatToInt (f : ℚ) : Int :=
  let t := Int.tdiv f.num f.den
  if t < -(2 ^ 63) ∨ 2 ^ 63 ≤ t then -(2 ^ 63) else t

/-- The `updates` map built by `SetResult`. -/
def resultUpdates (task : TranscriptionTask) (result : TranscriptionResult)
    (resultFilePath : String) (now : Nat) : List Column :=
  [Column.result_text result.Text, Column.result_file_path resultFilePath,
   Column.confidence_score result.ConfidenceScore, Column.detected_language result.Language,
   Column.status TaskStatusCompleted, Column.progress 100, Column.updated_at now]
  ++ (if task.Duration.isNone && decide (result.Duration > 0)
      then [Column.duration (floatToInt result.Duration),
            Column.billing_duration (floatToInt result.Duration)]
      else [])
  ++ [Column.completed_at now]

/-- Source `(*TranscriptionTask).SetResult`. -/
def SetResult (db : Store) (ok : Bool) (task : TranscriptionTask) (result : TranscriptionResult)
    (resultFilePath : String) (now : Nat) : Store × TranscriptionTask × Option String :=
  dbUpdates db ok task (resultUpdates task result resultFilePath now)

/-- The `default` tags of `TranscriptionTask`: on `DB.Create` a field that
holds its zero value takes the default of its tag (`Language` 'auto',
`EnableTimestamps` true, `OutputFormat` 'json', `Quality` 'medium', `Priority` 2,
`Status` 'pending', `BillingType` 'duration'; the defaults of `EnableSpeaker`,
`Progress` and `QuotaCost` are their zero values), in the row and in the value. -/
def TranscriptionTask.withDefaults (task : TranscriptionTask) : TranscriptionTask :=
  { task with
    Language := if task.Language = "" then "auto" else task.Language
    EnableTimestamps := if task.EnableTimestamps = false then true else task.EnableTimestamps
    OutputFormat := if task.OutputFormat = "" then "json" else task.OutputFormat
    Quality := if task.Quality = "" then "medium" else task.Quality
    Priority := if task.Priority = 0 then 2 else task.Priority
    Status := if task.Status = "" then "pending" else task.Status
    BillingType := if task.BillingType = "" then "duration" else task.BillingType }

/-- Source `(*TranscriptionTask).Insert`: `DB.Create` fills the defaults of the
tags and the row is appended with the primary key the database assigned. -/
def TranscriptionTask.Insert (db : Store) (ok : Bool) (newID : Int) (now : Nat)
    (task : TranscriptionTask) : Store × TranscriptionTask × Option String :=
  let task := { task with CreatedAt := now, UpdatedAt := now }
  let task := task.withDefaults
  if ok then
    let task := { task with ID := newID }
    ({ db with tasks := db.tasks ++ [task] }, task, none)
  else (db, task, some "database error")

/-- Source `(*TranscriptionTask).Update`: `DB.Save` writes every field of the
value to the rows with its primary key, and inserts the value as a new row when
no row has that key. -/
def TranscriptionTask.Update (db : Store) (ok : Bool) (now : Nat) (task : TranscriptionTask) :
    Store × TranscriptionTask × Option String :=
  let task := { task with UpdatedAt := now }
  if ok then
    if db.tasks.any (fun row => row.ID = task.ID) then
      let rows := db.tasks.map (fun row => if row.ID = task.ID then task else row)
      ({ db with tasks := rows }, task, none)
    else ({ db with tasks := db.tasks ++ [task] }, task, none)
  else (db, task, some "database error")

/-- Source `GetTranscriptionTask`: the first row with the given key and owner. -/
def GetTranscriptionTask (db : Store) (id userID : Int) : Option TranscriptionTask :=
  db.tasks.find? (fun row => row.ID == id && row.UserID == userID)

/-- Source `(*FileStorage).Insert`. -/
def FileStorage.Insert (db : Store) (ok : Bool) (now : Nat) (fs : FileStorage) :
    Store × Option String :=
  if ok then ({ db with files := db.files ++ [{ fs with CreatedAt := now }] }, none)
  else (db, some "database error")

/-! ## EngineSelector (`service/transcription_service.go`) -/

/-- Source `contains` of package `service`: some entry equals `item` once its
surrounding white space is trimmed. -/
def contains : List String → String → Bool
  | [], _ => false
  | s :: rest, item => if TrimSpace s == item then true else contains rest item

/-- Error of `selectTranscriptionEngine`: the channel list could not be read
("获取渠道列表失败: %w"), or no channel supports the language and the format
("没有可用的转录引擎支持语言 %s 和格式 %s"). -/
inductive SelectError where
  | listFailed (cause : String)
  | noEngine (language fileType : String)
  deriving DecidableEq

/-- First loop of `selectTranscriptionEngine`: the enabled channels that support
the language (or "auto") and the format, in list order. -/
def availableChannels (channels : List Channel) (language fileType : String) : List Channel :=
  channels.foldl (fun acc channel =>
    if channel.Status = 1 then
      let supportedLangs := Split channel.SupportedLanguages ','
      if contains supportedLangs language || contains supportedLangs "auto" then
        let supportedFormats := Split channel.SupportedFormats ','
        if contains supportedFormats fileType then acc ++ [channel] else acc
      else acc
    else acc) []

/-- Second loop of `selectTranscriptionEngine`: a later channel replaces the best
one only when its weight is strictly greater. -/
def bestChannel (first : Channel) (rest : List Channel) : Channel :=
  rest.foldl (fun best c => if c.Weight > best.Weight then c else best) first

/-- Source `selectTranscriptionEngine`; `channels` is the outcome of
`model.GetChannelsByType(0)`. -/
def selectTranscriptionEngine (channels : Except String (List Channel))
    (language fileType : String) : Except SelectError Channel :=
  match channels with
  | Except.error e => Except.error (SelectError.listFailed e)
  | Except.ok channels =>
    match availableChannels channels language fileType with
    | [] => Except.error (SelectError.noEngine language fileType)
    | first :: rest => Except.ok (bestChannel first rest)

/-- Candidate channel in the words of the specification: the channel is enabled
(status 1), its comma-separated language list contains the requested language or
"auto", and its comma-separated format list contains the file type, entries
being compared after trimming surrounding white space. -/
def IsCandidate (language fileType : String) (c : Channel) : Prop :=
  c.Status = 1 ∧
  ((∃ e ∈ Split c.SupportedLanguages ',', TrimSpace e = language) ∨
    (∃ e ∈ Split c.SupportedLanguages ',', TrimSpace e = "auto")) ∧
  (∃ e ∈ Split c.SupportedFormats ',', TrimSpace e = fileType)

instance instDecidableIsCandidate (language fileType : String) (c : Channel) :
    Decidable (IsCandidate language fileType c) := by
  unfold IsCandidate
  infer_instance

/-- Sample channel: enabled, language "zh" only. -/
def sampleChannelZh : Channel :=
  { Id := 1, EngineType := 1, Key := "k1", BaseURL := "", SupportedFormats := "mp3, wav",
    SupportedLanguages := "zh", Weight := 50, Status := 1 }

/-- Sample channel: enabled, languages and formats listed with blanks around them. -/
def sampleChannelEn : Channel :=
  { Id := 2, EngineType := 1, Key := "k2", BaseURL := "", SupportedFormats := "wav ,mp3",
    SupportedLanguages := " en ,fr", Weight := 5, Status := 1 }

/-- Sample channel: every language, but disabled. -/
def sampleChannelOff : Channel :=
  { Id := 3, EngineType := 1, Key := "k3", BaseURL := "", SupportedFormats := "mp3",
    SupportedLanguages := "auto", Weight := 20, Status := 2 }

/-! ## TaskOrchestrator: create (`service/transcription_service.go`) -/

/-- Outcome of the calls `CreateTranscriptionTask` makes outside the program. -/
structure CreateEnv where
  now : Nat
  userErr : Option String
  channels : Except String (List Channel)
  insertOk : Bool
  newID : Int

/-- Error of `CreateTranscriptionTask`, one constructor per `fmt.Errorf`:
"获取用户信息失败: %w", "配额不足，需要 %d，当前 %d", "选择转录引擎失败: %w",
"创建任务失败: %w". -/
inductive CreateError where
  | userLookup (cause : String)
  | insufficientQuota (estimatedCost quota : Int)
  | engineSelection (cause : SelectError)
  | insertFailed (cause : String)
  deriving DecidableEq

/-- Source `CreateTranscriptionTask`.  `model.GetUserById` fails as the
environment says and otherwise yields the user whose `Quota` is the balance held
by the store. -/
def CreateTranscriptionTask (env : CreateEnv) (db : Store) (userID : Int) (tokenID : Option Int)
    (req : TranscriptionRequest) : Store × Except CreateError TranscriptionTask :=
  match env.userErr with
  | some e => (db, Except.error (CreateError.userLookup e))
  | none =>
    let userQuota := db.quota userID
    let estimatedCost := estimateTranscriptionCost req.FileSize req.Duration req.Language
    if userQuota < estimatedCost then
      (db, Except.error (CreateError.insufficientQuota estimatedCost userQuota))
    else
      match selectTranscriptionEngine env.channels req.Language req.FileType with
      | Except.error e => (db, Except.error (CreateError.engineSelection e))
      | Except.ok channel =>
        let task : TranscriptionTask :=
          { ID := 0
            UserID := userID
            TokenID := tokenID
            ChannelID := channel.Id
            OriginalFilename := req.Filename
            FilePath := ""
            FileSize := req.FileSize
            FileType := req.FileType
            Duration := req.Duration
            Language := req.Language
            ModelName := req.ModelName
            EnableTimestamps := req.EnableTimestamps
            EnableSpeaker := req.EnableSpeaker
            OutputFormat := req.OutputFormat
            Quality := req.Quality
            Priority := req.Priority
            Status := TaskStatusPending
            Progress := 0
            ErrorMessage := ""
            ErrorCode := ""
            ResultText := ""
            ResultFilePath := ""
            ConfidenceScore := none
            DetectedLanguage := ""
            QuotaCost := estimatedCost
            BillingDuration := none
            BillingType := BillingTypeDuration
            CreatedAt := 0
            StartedAt := none
            CompletedAt := none
            UpdatedAt := 0 }
        match TranscriptionTask.Insert db env.insertOk env.newID env.now task with
        | (db, _, some e) => (db, Except.error (CreateError.insertFailed e))
        | (db, task, none) => (db, Except.ok task)

/-- Sample request: a five-byte mp3 in language "en" without explicit duration
(estimate 100). -/
def sampleRequest : TranscriptionRequest :=
  { Filename := "talk.mp3", FileSize := 5, FileType := "mp3", Duration := none,
    Language := "en", ModelName := "", EnableTimestamps := true, EnableSpeaker := false,
    OutputFormat := "srt", Quality := "medium", Priority := 2 }

/-- Sample store: no rows, no files, every user holding the given balance. -/
def sampleStore (balance : Int) : Store :=
  { tasks := [], files := [], disk := [], quota := fun _ => balance, ledger := [] }

/-- Sample environment of a creation: the user is found, the channel list is
empty. -/
def sampleCreateEnv : CreateEnv :=
  { now := 1000, userErr := none, channels := Except.ok [], insertOk := true, newID := 1 }

/-! ## TaskOrchestrator: process -/

/-- Outcome of the calls `ProcessTranscriptionTask` makes outside the program:
the clock, the database statements in program order, and the file system calls
of `saveUploadedFile` (`payload` is what `io.Copy` read, or its error). -/
structure ProcessEnv where
  now : Nat
  storageConfig : StorageConfig
  uploadingOk : Bool
  mkdirOk : Bool
  createOk : Bool
  uuid : String
  payload : Except String String
  markFailedOk : Bool
  updateOk : Bool
  insertFileOk : Bool
  processingOk : Bool

/-- Source `saveUploadedFile`: the stored path, or the error message (without the
cause that `%w` appends for the directory and the file creation).  A file that
was created and then rejected is removed again, so only a success leaves a file
behind. -/
def saveUploadedFile (env : ProcessEnv) (db : Store) (task : TranscriptionTask) :
    Store × Except String String :=
  if !env.mkdirOk then (db, Except.error "创建存储目录失败")
  else
    let ext := Ext task.OriginalFilename
    let filename := toString task.ID ++ "_" ++ env.uuid ++ ext
    let filePath := joinPath env.storageConfig.LocalPath filename
    if !env.createOk then (db, Except.error "创建文件失败")
    else
      match env.payload with
      | Except.error e => (db, Except.error ("写入文件失败: " ++ e))
      | Except.ok content =>
        let written : Int := content.utf8ByteSize
        if written ≠ task.FileSize then
          (db, Except.error ("文件大小不匹配，期望 " ++ toString task.FileSize ++ "，实际 "
            ++ toString written))
        else ({ db with disk := db.disk ++ [(filePath, content)] }, Except.ok filePath)

/-- Error of `ProcessTranscriptionTask`, one constructor per `fmt.Errorf`:
"更新任务状态失败: %w", "保存文件失败: %w", "创建文件存储记录失败: %w". -/
inductive ProcessError where
  | statusUpdate (cause : String)
  | saveFile (cause : String)
  | fileRecord (cause : String)
  deriving DecidableEq

/-- Source `ProcessTranscriptionTask`.  The result is the store, the task value
the caller holds, and the error; on `none` the background execution
`processTranscriptionAsync` has been started on that task value. -/
def ProcessTranscriptionTask (env : ProcessEnv) (db : Store) (task : TranscriptionTask) :
    Store × TranscriptionTask × Option ProcessError :=
  match UpdateStatus db env.uploadingOk task TaskStatusUploading 10 "" env.now with
  | (db, task, some e) => (db, task, some (ProcessError.statusUpdate e))
  | (db, task, none) =>
    match saveUploadedFile env db task with
    | (db, Except.error e) =>
      match UpdateStatus db env.markFailedOk task TaskStatusFailed 0
        ("文件保存失败: " ++ e) env.now with
      | (db, task, _) => (db, task, some (ProcessError.saveFile e))
    | (db, Except.ok filePath) =>
      let task := { task with FilePath := filePath }
      match TranscriptionTask.Update db env.updateOk env.now task with
      | (db, task, _) =>
        let fileStorage : FileStorage :=
          { ID := 0
            UserID := task.UserID
            TaskID := some task.ID
            FileType := FileTypeOriginal
            OriginalName := task.OriginalFilename
            StoredName := Base filePath
            FilePath := filePath
            FileSize := task.FileSize
            MimeType := GetMimeType task.FileType
            StorageType := env.storageConfig.Type_
            ExpiresAt := some (env.now + env.storageConfig.RetentionDays * 86400)
            CreatedAt := 0 }
        match FileStorage.Insert db env.insertFileOk env.now fileStorage with
        | (db, some e) => (db, task, some (ProcessError.fileRecord e))
        | (db, none) =>
          match UpdateStatus db env.processingOk task TaskStatusProcessing 20 "" env.now with
          | (db, task, some e) => (db, task, some (ProcessError.statusUpdate e))
          | (db, task, none) => (db, task, none)

/-! ## TaskOrchestrator: background execution -/

/-- Renderings of a result (`ToJSON`, `ToSRT`, `ToVTT` of `model/transcription.go`),
as handed to the orchestrator. -/
structure ResultCodec where
  ToJSON : TranscriptionResult → Except String String
  ToSRT : TranscriptionResult → String
  ToVTT : TranscriptionResult → String

/-- Outcome of the calls `processTranscriptionAsync` makes outside the program:
the adaptor resolved by `GetTranscriptionAdaptor`, the error of `os.Open`, the
ledger, the file system and the database statements.  `concurrent` is what other
requests do to the store while the call to the recognition back-end is in
flight (the identity when nothing else runs). -/
structure AsyncEnv where
  now : Nat
  storageConfig : StorageConfig
  codec : ResultCodec
  adaptor : Except String TranscriptionAdaptor
  openErr : Option String
  deductOk : Bool
  concurrent : Store → Store
  mkdirOk : Bool
  writeOk : String → Bool
  recordOk : String → Bool
  setResultOk : Bool
  markFailedOk : Bool

/-- Source `getResultMimeType`. -/
def getResultMimeType (format : String) : String :=
  if format = OutputFormatJSON then "application/json"
  else if format = OutputFormatSRT then "application/x-subrip"
  else if format = OutputFormatTXT then "text/plain"
  else if format = OutputFormatVTT then "text/vtt"
  else "application/octet-stream"

/-- Content of one rendering, the `switch` of `saveTranscriptionResult`. -/
def renderFormat (codec : ResultCodec) (result : TranscriptionResult) (format : String) :
    Except String String :=
  if format = OutputFormatJSON then codec.ToJSON result
  else if format = OutputFormatSRT then Except.ok (codec.ToSRT result)
  else if format = OutputFormatTXT then Except.ok result.Text
  else if format = OutputFormatVTT then Except.ok (codec.ToVTT result)
  else Except.ok ""

/-- Loop of `saveTranscriptionResult` over the remaining formats: render, write
the file, remember the path of the requested format, record the stored file
(the outcome of that insertion is not looked at). -/
def saveFormats (env : AsyncEnv) (resultDir : String) (result : TranscriptionResult) :
    List String → Store → TranscriptionTask → Store × TranscriptionTask × Option String
  | [], db, task => (db, task, none)
  | format :: rest, db, task =>
    let filename := toString task.ID ++ "_result." ++ format
    let filePath := joinPath resultDir filename
    match renderFormat env.codec result format with
    | Except.error e => (db, task, some ("转换JSON格式失败: " ++ e))
    | Except.ok content =>
      if !env.writeOk filePath then (db, task, some ("保存" ++ format ++ "格式结果失败"))
      else
        let db := { db with disk := db.disk.filter (fun f => f.1 ≠ filePath) ++ [(filePath, content)] }
        let task := if format = task.OutputFormat then { task with ResultFilePath := filePath }
                    else task
        let fileStorage : FileStorage :=
          { ID := 0
            UserID := task.UserID
            TaskID := some task.ID
            FileType := FileTypeResult
            OriginalName := filename
            StoredName := filename
            FilePath := filePath
            FileSize := content.utf8ByteSize
            MimeType := getResultMimeType format
            StorageType := env.storageConfig.Type_
            ExpiresAt := some (env.now + env.storageConfig.RetentionDays * 86400)
            CreatedAt := 0 }
        saveFormats env resultDir result rest
          (FileStorage.Insert db (env.recordOk format) env.now fileStorage).1 task

/-- Source `saveTranscriptionResult`. -/
def saveTranscriptionResult (env : AsyncEnv) (db : Store) (task : TranscriptionTask)
    (result : TranscriptionResult) : Store × TranscriptionTask × Option String :=
  let resultDir := joinPath env.storageConfig.LocalPath "results"
  if !env.mkdirOk then (db, task, some "创建结果目录失败")
  else
    saveFormats env resultDir result
      [OutputFormatJSON, OutputFormatSRT, OutputFormatTXT, OutputFormatVTT] db task

/-- Failure exit of `processTranscriptionAsync`: the task is marked failed (the
outcome of that statement is not looked at). -/
def markFailed (env : AsyncEnv) (db : Store) (task : TranscriptionTask) (message : String) :
    Store × TranscriptionTask :=
  match UpdateStatus db env.markFailedOk task TaskStatusFailed 0 message env.now with
  | (db, task, _) => (db, task)

/-- Source `processTranscriptionAsync`: the store and the task value it leaves.
Log lines and the completion notice go to the log table and to standard output,
which the store does not carry. -/
def processTranscriptionAsync (env : AsyncEnv) (db : Store) (task : TranscriptionTask) :
    Store × TranscriptionTask :=
  match env.adaptor with
  | Except.error e => markFailed env db task ("获取转录引擎失败: " ++ e)
  | Except.ok adaptor =>
    match env.openErr with
    | some e => markFailed env db task ("打开文件失败: " ++ e)
    | none =>
      match preDeductQuota db env.deductOk task.UserID task.QuotaCost with
      | (db, some e) => markFailed env db task ("配额扣除失败: " ++ e)
      | (db, none) =>
        match adaptor.SubmitTask task, env.concurrent db with
        | (task, some err), db =>
          match markFailed env db task ("转录失败: " ++ err.Message) with
          | (db, task) => (refundQuota db task.UserID task.QuotaCost "转录失败退款", task)
        | (task, none), db =>
          match adaptor.GetResult task with
          | Except.error err =>
            match markFailed env db task ("获取结果失败: " ++ err.Message) with
            | (db, task) => (refundQuota db task.UserID task.QuotaCost "获取结果失败退款", task)
          | Except.ok result =>
            match saveTranscriptionResult env db task result with
            | (db, task, some e) => markFailed env db task ("保存结果失败: " ++ e)
            | (db, task, none) =>
              match SetResult db env.setResultOk task result task.ResultFilePath env.now with
              | (db, task, some e) => markFailed env db task ("更新任务状态失败: " ++ e)
              | (db, task, none) => (db, task)

/-! ## TaskOrchestrator: user cancel (`controller/transcription.go`) -/

/-- Responses of the handler `CancelTranscriptionTask` once the task id is
parsed: 404 "任务不存在", 400 "任务已完成，无法取消", 500 "取消任务失败: ...",
200 "任务已取消". -/
inductive CancelResponse where
  | notFound
  | alreadyFinished
  | updateFailed (cause : String)
  | cancelled
  deriving DecidableEq

/-- Source handler `CancelTranscriptionTask`, from the task lookup on, run with no
other request between its lookup and its status update; `updateOk` is the outcome
of the status update. -/
def CancelTranscriptionTask (now : Nat) (updateOk : Bool) (db : Store) (taskID userID : Int) :
    Store × CancelResponse :=
  match GetTranscriptionTask db taskID userID with
  | none => (db, CancelResponse.notFound)
  | some task =>
    if task.Status = TaskStatusCompleted ∨ task.Status = TaskStatusFailed then
      (db, CancelResponse.alreadyFinished)
    else
      match UpdateStatus db updateOk task TaskStatusCancelled task.Progress "用户取消" now with
      | (db, _, some e) => (db, CancelResponse.updateFailed e)
      | (db, task, none) =>
        if task.QuotaCost > 0 then
          (IncreaseUserQuota db userID task.QuotaCost, CancelResponse.cancelled)
        else (db, CancelResponse.cancelled)

/-! ## Sample data for the concrete runs -/

/-- Sample task of user 7: a five-byte mp3 in "en" with requested format "srt",
created with the estimate 100 as quota cost, in the given status. -/
def sampleTask (status : String) (progress : Int) : TranscriptionTask :=
  { ID := 1, UserID := 7, TokenID := none, ChannelID := 2, OriginalFilename := "talk.mp3",
    FilePath := "", FileSize := 5, FileType := "mp3", Duration := none,
    Language := "en", ModelName := "", EnableTimestamps := true, EnableSpeaker := false,
    OutputFormat := "srt", Quality := "medium", Priority := 2, Status := status,
    Progress := progress, ErrorMessage := "", ErrorCode := "", ResultText := "",
    ResultFilePath := "", ConfidenceScore := none, DetectedLanguage := "", QuotaCost := 100,
    BillingDuration := none, BillingType := "duration", CreatedAt := 1000, StartedAt := none,
    CompletedAt := none, UpdatedAt := 1000 }

/-- Sample store holding one task row, every user holding the given balance, the
ledger empty. -/
def storeWith (task : TranscriptionTask) (balance : Int) : Store :=
  { tasks := [task], files := [], disk := [], quota := fun _ => balance, ledger := [] }

/-- Sample storage configuration. -/
def sampleStorage : StorageConfig :=
  { Type_ := "local", LocalPath := "data", MaxSize := 100 * 1024 * 1024, RetentionDays := 30 }

/-- Sample synchronous adaptor: the back-end answers "hello" at once; the
result is read back from the task, as the Whisper adaptor does. -/
def sampleAdaptor : TranscriptionAdaptor :=
  { SubmitTask := fun task =>
      ({ task with Status := TaskStatusCompleted, Progress := 100, ResultText := "hello",
                   DetectedLanguage := "en", ConfidenceScore := some 1 }, none)
    GetResult := fun task =>
      if task.Status ≠ TaskStatusCompleted then
        Except.error { Code := "TASK_NOT_FOUND", Message := "任务未完成" }
      else
        Except.ok { Text := task.ResultText, Language := task.DetectedLanguage, Duration := 0,
                    ConfidenceScore := 1, Segments := [], Words := [], Speakers := [] } }

/-- Sample adaptor whose back-end call fails. -/
def failingAdaptor : TranscriptionAdaptor :=
  { SubmitTask := fun task =>
      (task, some { Code := "NETWORK_ERROR", Message := "网络请求失败" })
    GetResult := fun _ => Except.error { Code := "TASK_NOT_FOUND", Message := "任务未完成" } }

/-- Sample renderings: every format is rendered as the bare text. -/
def sampleCodec : ResultCodec :=
  { ToJSON := fun r => Except.ok r.Text, ToSRT := fun r => r.Text, ToVTT := fun r => r.Text }

/-- Sample environment of a background execution in which every outside call
succeeds; the parameters are the adaptor, whether the result directory can be
created, and what other requests do during the back-end call. -/
def sampleAsyncEnv (adaptor : TranscriptionAdaptor) (mkdirOk : Bool)
    (concurrent : Store → Store) : AsyncEnv :=
  { now := 3000, storageConfig := sampleStorage, codec := sampleCodec,
    adaptor := Except.ok adaptor, openErr := none, deductOk := true,
    concurrent := concurrent, mkdirOk := mkdirOk, writeOk := fun _ => true,
    recordOk := fun _ => true, setResultOk := true, markFailedOk := true }

/-- Sample environment of `ProcessTranscriptionTask`: the upload is the five
bytes "hello"; the parameter is the outcome of the stored-file insertion. -/
def sampleProcessEnv (insertFileOk : Bool) : ProcessEnv :=
  { now := 1500, storageConfig := sampleStorage, uploadingOk := true, mkdirOk := true,
    createOk := true, uuid := "u-1", payload := Except.ok "hello", markFailedOk := true,
    updateOk := true, insertFileOk := insertFileOk, processingOk := true }

/-- Status of the stored task with the given key and owner. -/
def storedStatus (db : Store) (id userID : Int) : Option String :=
  (GetTranscriptionTask db id userID).map (fun t => t.Status)

/-- Run: background execution of the processing sample task (quota cost 100,
balance 500) in which the result directory cannot be created. -/
def runSaveFailure : Store × TranscriptionTask :=
  processTranscriptionAsync (sampleAsyncEnv sampleAdaptor false id)
    (storeWith (sampleTask "processing" 20) 500) (sampleTask "processing" 20)

/-- Run: the same background execution in which everything succeeds up to the
completion update `SetResult`, which the database refuses. -/
def runSetResultFailure : Store × TranscriptionTask :=
  processTranscriptionAsync { sampleAsyncEnv sampleAdaptor true id with setResultOk := false }
    (storeWith (sampleTask "processing" 20) 500) (sampleTask "processing" 20)

/-- Run: the same background execution with a back-end call that fails. -/
def runSubmitFailure : Store × TranscriptionTask :=
  processTranscriptionAsync (sampleAsyncEnv failingAdaptor true id)
    (storeWith (sampleTask "processing" 20) 500) (sampleTask "processing" 20)

/-- Store after the pre-deduction of the background execution of the sample
task: the moment the back-end call starts. -/
def storeInFlight : Store :=
  (preDeductQuota (storeWith (sampleTask "processing" 20) 500) true 7 100).1

/-- Run: the same background execution, all calls succeeding, while the owner
cancels the task during the back-end call. -/
def runCancelledInFlight : Store × TranscriptionTask :=
  processTranscriptionAsync
    (sampleAsyncEnv sampleAdaptor true (fun db => (CancelTranscriptionTask 2500 true db 1 7).1))
    (storeWith (sampleTask "processing" 20) 500) (sampleTask "processing" 20)

/-- Run: user 7 with balance 500 creates a task from the sample request (one
matching channel) and cancels it right away, before it is processed. -/
def runCreateThenCancel : Store × CancelResponse :=
  CancelTranscriptionTask 2000 true
    (CreateTranscriptionTask { sampleCreateEnv with channels := Except.ok [sampleChannelEn] }
      (sampleStore 500) 7 none sampleRequest).1 1 7

/-- Run: `ProcessTranscriptionTask` on the pending sample task when the insertion
of the stored-file record fails. -/
def runFileRecordFailure : Store × TranscriptionTask × Option ProcessError :=
  ProcessTranscriptionTask (sampleProcessEnv false) (storeWith (sampleTask "pending" 0) 500)
    (sampleTask "pending" 0)

/-- Run: `ProcessTranscriptionTask` on the pending sample task when the second
status update (to processing) fails. -/
def runProcessingUpdateFailure : Store × TranscriptionTask × Option ProcessError :=
  ProcessTranscriptionTask { sampleProcessEnv true with processingOk := false }
    (storeWith (sampleTask "pending" 0) 500) (sampleTask "pending" 0)

/-- Run: `ProcessTranscriptionTask` on the pending sample task when the upload
cannot be written. -/
def runUploadFailure : Store × TranscriptionTask × Option ProcessError :=
  ProcessTranscriptionTask { sampleProcessEnv true with createOk := false }
    (storeWith (sampleTask "pending" 0) 500) (sampleTask "pending" 0)

/-! ## Arithmetic on `float64` values

A finite `float64` is the rational number it denotes.  Sums, differences and
products of such values are binary fractions and are rounded by `roundBinary`;
quotients are rounded by `roundQuotient`.  Exponent overflow and subnormal
results are outside the model. -/

/-- A rational number that a `float64` can hold: a significand below `2 ^ 53`
times a power of two, with either sign. -/
def IsFloat64 (q : ℚ) : Prop :=
  ∃ (m : Nat) (e : Int), m < 2 ^ 53 ∧ |q| = (m : ℚ) * (2 : ℚ) ^ e

/-- Rounding of a binary fraction (denominator a power of two) to the nearest
`float64`, ties to even: the numerator keeps 53 significant bits. -/
def roundBinary (q : ℚ) : ℚ :=
  if q < 0 then -(mkRat (roundFloat64 q.num.natAbs) q.den)
  else mkRat (roundFloat64 q.num.natAbs) q.den

/-- Go `a + b` on `float64`. -/
def float64Add (a b : ℚ) : ℚ := roundBinary (a + b)

/-- Go `a - b` on `float64`. -/
def float64Sub (a b : ℚ) : ℚ := roundBinary (a - b)

/-- Go `a * b` on `float64`. -/
def float64Mul (a b : ℚ) : ℚ := roundBinary (a * b)

/-- Go `float64(n)` of an integer. -/
def intToFloat (n : Int) : ℚ := roundBinary n

/-- Number of doublings after which `n / d` has at least 55 significant bits
before the binary point (the first argument bounds the search). -/
def f64Scale : Nat → Nat → Nat → Nat
  | 0, _, _ => 0
  | fuel + 1, n, d => if d * 2 ^ 54 ≤ n then 0 else f64Scale fuel (2 * n) d + 1

/-- Rounding of an arbitrary rational to the nearest `float64`, ties to even:
the quotient is developed to at least 55 bits, a sticky bit records a non-zero
remainder, and the result is rounded as a binary fraction. -/
def roundQuotient (q : ℚ) : ℚ :=
  let n := q.num.natAbs
  let d := q.den
  if n = 0 then 0
  else
    let k := f64Scale (d + 55) n d
    let x := 2 * (n * 2 ^ k / d) + (if n * 2 ^ k % d = 0 then 0 else 1)
    let r := mkRat (roundFloat64 x) (2 ^ (k + 1))
    if q < 0 then -r else r

/-- Go `a / b` on `float64`, for a divisor other than zero. -/
def float64Div (a b : ℚ) : ℚ := roundQuotient (a / b)

/-! ## ResultCodec: time stamps, SRT and VTT (`model/transcription.go`) -/

/-- Decimal digits of a natural number, padded with zeros on the left to at
least `width` characters. -/
def zeroPad (width : Nat) (n : Nat) : String :=
  String.mk (List.replicate (width - (toString n).length) '0') ++ toString n

/-- Go `fmt.Sprintf` with the verb `%0wd` for width `w`: zero-padded decimal; the
sign of a negative number counts in the width and precedes the zeros. -/
def sprintfPadded (width : Nat) (n : Int) : String :=
  if n < 0 then "-" ++ zeroPad (width - 1) n.natAbs else zeroPad width n.natAbs

/-- Milliseconds of a time stamp: `int((seconds - float64(int(seconds))) * 1000)`. -/
def millisOf (seconds : ℚ) : Int :=
  floatToInt (float64Mul (float64Sub seconds (intToFloat (floatToInt seconds))) 1000)

/-- Source `formatSRTTime`. -/
def formatSRTTime (seconds : ℚ) : String :=
  let hours := Int.tdiv (floatToInt seconds) 3600
  let minutes := Int.tdiv (Int.tmod (floatToInt seconds) 3600) 60
  let secs := Int.tmod (floatToInt seconds) 60
  let millis := millisOf seconds
  sprintfPadded 2 hours ++ ":" ++ sprintfPadded 2 minutes ++ ":" ++ sprintfPadded 2 secs
    ++ "," ++ sprintfPadded 3 millis

/-- Source `formatVTTTime`. -/
def formatVTTTime (seconds : ℚ) : String :=
  let hours := Int.tdiv (floatToInt seconds) 3600
  let minutes := Int.tdiv (Int.tmod (floatToInt seconds) 3600) 60
  let secs := Int.tmod (floatToInt seconds) 60
  let millis := millisOf seconds
  sprintfPadded 2 hours ++ ":" ++ sprintfPadded 2 minutes ++ ":" ++ sprintfPadded 2 secs
    ++ "." ++ sprintfPadded 3 millis

/-- Loop of `ToSRT`: `i` is the index of the next segment, `srt` the text built
so far. -/
def srtLoop : List TranscriptionSegment → Nat → String → String
  | [], _, srt => srt
  | segment :: rest, i, srt =>
    let startTime := formatSRTTime segment.Start
    let endTime := formatSRTTime segment.End
    srtLoop rest (i + 1)
      (srt ++ (toString (i + 1) ++ "\n" ++ startTime ++ " --> " ++ endTime ++ "\n"
        ++ segment.Text ++ "\n\n"))

/-- Source `(*TranscriptionResult).ToSRT`. -/
def ToSRT (result : TranscriptionResult) : String :=
  if result.Segments.length = 0 then result.Text
  else srtLoop result.Segments 0 ""

/-- Loop of `ToVTT`, `vtt` being the text built so far. -/
def vttLoop : List TranscriptionSegment → String → String
  | [], vtt => vtt
  | segment :: rest, vtt =>
    let startTime := formatVTTTime segment.Start
    let endTime := formatVTTTime segment.End
    vttLoop rest (vtt ++ (startTime ++ " --> " ++ endTime ++ "\n" ++ segment.Text ++ "\n\n"))

/-- Source `(*TranscriptionResult).ToVTT`. -/
def ToVTT (result : TranscriptionResult) : String :=
  let vtt := "WEBVTT\n\n"
  if result.Segments.length = 0 then vtt ++ result.Text
  else vttLoop result.Segments vtt

/-- Cue of an SRT document in the words of the specification: the index line, the
time line with a comma before the milliseconds, the text and a blank line. -/
def srtBlock (k : Nat) (segment : TranscriptionSegment) : String :=
  toString k ++ "\n" ++ formatSRTTime segment.Start ++ " --> " ++ formatSRTTime segment.End
    ++ "\n" ++ segment.Text ++ "\n\n"

/-- Cue of a VTT document in the words of the specification: the time line with a
period before the milliseconds, the text and a blank line; no index line. -/
def vttBlock (segment : TranscriptionSegment) : String :=
  formatVTTTime segment.Start ++ " --> " ++ formatVTTTime segment.End ++ "\n" ++ segment.Text
    ++ "\n\n"

/-- Sample channel: enabled, "en" and "mp3" supported, weight 5. -/
def sampleChannelLight : Channel :=
  { Id := 11, EngineType := 1, Key := "k11", BaseURL := "", SupportedFormats := "mp3,wav",
    SupportedLanguages := "en,zh", Weight := 5, Status := 1 }

/-- Sample channel: enabled, "en" and "mp3" supported, weight 20. -/
def sampleChannelHeavy : Channel :=
  { Id := 12, EngineType := 1, Key := "k12", BaseURL := "", SupportedFormats := "mp3,wav",
    SupportedLanguages := "en,zh", Weight := 20, Status := 1 }

/-- Sample channel: enabled, every language, "mp3" supported, weight 20 as well. -/
def sampleChannelHeavyLater : Channel :=
  { Id := 13, EngineType := 1, Key := "k13", BaseURL := "", SupportedFormats := "mp3",
    SupportedLanguages := "auto", Weight := 20, Status := 1 }

/-! ## AdapterContract: capabilities and validation (`service/transcription/adaptor.go`) -/

/-- Source `DefaultMaxFileSize` (100 MiB). -/
def DefaultMaxFileSize : Int := 100 * 1024 * 1024

/-- Source `DefaultMaxDuration` (one hour). -/
def DefaultMaxDuration : Int := 3600

/-- Source `SupportedAudioFormats`. -/
def SupportedAudioFormats : List String :=
  ["mp3", "mp4", "wav", "m4a", "flac", "aac", "ogg", "wma", "amr"]

/-- Source `SupportedVideoFormats`. -/
def SupportedVideoFormats : List String :=
  ["mp4", "avi", "mov", "mkv", "wmv", "flv", "webm"]

/-- Source `GetAllSupportedFormats`. -/
def GetAllSupportedFormats : List String :=
  SupportedAudioFormats ++ SupportedVideoFormats

/-- Source `SupportedLanguages`, the language codes with their names. -/
def SupportedLanguages : List (String × String) :=
  [("auto", "自动检测"), ("zh", "中文"), ("en", "英语"), ("ja", "日语"), ("ko", "韩语"),
   ("es", "西班牙语"), ("fr", "法语"), ("de", "德语"), ("ru", "俄语"), ("it", "意大利语"),
   ("pt", "葡萄牙语"), ("ar", "阿拉伯语"), ("hi", "印地语"), ("th", "泰语"), ("vi", "越南语")]

/-- Source `GetSupportedLanguageCodes`: the keys of the map (Go leaves their
order open; the order of declaration is taken). -/
def GetSupportedLanguageCodes : List String :=
  SupportedLanguages.map (fun p => p.1)

def ErrorCodeFileTooLarge : String := "FILE_TOO_LARGE"
def ErrorCodeDurationTooLong : String := "DURATION_TOO_LONG"
def ErrorCodeUnsupportedLanguage : String := "UNSUPPORTED_LANGUAGE"
def ErrorCodeUnsupportedFormat : String := "UNSUPPORTED_FORMAT"
def ErrorCodeAPIError : String := "API_ERROR"
def ErrorCodeNetworkError : String := "NETWORK_ERROR"
def ErrorCodeConfigError : String := "CONFIG_ERROR"
def ErrorCodeTaskNotFound : String := "TASK_NOT_FOUND"
def ErrorCodeInvalidResponse : String := "INVALID_RESPONSE"

/-- Source `NewTranscriptionError`. -/
def NewTranscriptionError (code message : String) : TranscriptionError :=
  { Code := code, Message := message }

/-- Source `AdaptorConfig`, without the open-ended `ExtraConfig` map. -/
structure AdaptorConfig where
  APIKey : String
  BaseURL : String
  Region : String
  Timeout : Int
  MaxRetries : Int
  deriving DecidableEq

/-- Source `BaseAdaptor`. -/
structure BaseAdaptor where
  Config : AdaptorConfig
  EngineName : String
  EngineType : Int
  MaxFileSize : Int
  MaxDuration : Int
  SupportedFormats : List String
  SupportedLanguages : List String
  SupportedOutputFormats : List String
  deriving DecidableEq

/-- Source `(*BaseAdaptor).GetSupportedFormats`. -/
def BaseAdaptor.GetSupportedFormats (b : BaseAdaptor) : List String :=
  if b.SupportedFormats.length = 0 then GetAllSupportedFormats else b.SupportedFormats

/-- Source `(*BaseAdaptor).GetSupportedLanguages`. -/
def BaseAdaptor.GetSupportedLanguages (b : BaseAdaptor) : List String :=
  if b.SupportedLanguages.length = 0 then GetSupportedLanguageCodes else b.SupportedLanguages

/-- Source `(*BaseAdaptor).GetMaxFileSize`. -/
def BaseAdaptor.GetMaxFileSize (b : BaseAdaptor) : Int :=
  if b.MaxFileSize = 0 then DefaultMaxFileSize else b.MaxFileSize

/-- Source `(*BaseAdaptor).GetMaxDuration`. -/
def BaseAdaptor.GetMaxDuration (b : BaseAdaptor) : Int :=
  if b.MaxDuration = 0 then DefaultMaxDuration else b.MaxDuration

/-- Source `(*BaseAdaptor).GetSupportedOutputFormats`. -/
def BaseAdaptor.GetSupportedOutputFormats (b : BaseAdaptor) : List String :=
  if b.SupportedOutputFormats.length = 0 then ["json", "srt", "txt", "vtt"]
  else b.SupportedOutputFormats

/-- Source `contains` of package `transcription`: some entry is equal to `item`. -/
def containsExact : List String → String → Bool
  | [], _ => false
  | s :: rest, item => if s = item then true else containsExact rest item

/-- Source `(*BaseAdaptor).ValidateFile`; `none` is the nil error. -/
def BaseAdaptor.ValidateFile (b : BaseAdaptor) (_filePath : String) (fileSize : Int)
    (duration : Int) : Option TranscriptionError :=
  if fileSize > b.GetMaxFileSize then
    some (NewTranscriptionError ErrorCodeFileTooLarge "文件大小超出限制")
  else if duration > b.GetMaxDuration then
    some (NewTranscriptionError ErrorCodeDurationTooLong "音视频时长超出限制")
  else none

/-- Source `(*BaseAdaptor).ValidateConfig`; `none` is the nil error. -/
def BaseAdaptor.ValidateConfig (b : BaseAdaptor) (task : TranscriptionTask) :
    Option TranscriptionError :=
  if !containsExact b.GetSupportedLanguages task.Language then
    some (NewTranscriptionError ErrorCodeUnsupportedLanguage "不支持的语言")
  else if !containsExact b.GetSupportedOutputFormats task.OutputFormat then
    some (NewTranscriptionError ErrorCodeUnsupportedFormat "不支持的输出格式")
  else none

/-! ## The Whisper adaptor (`service/transcription/whisper/adaptor.go`) -/

/-- Source `WhisperAdaptor`: the embedded `*transcription.BaseAdaptor` and the
time-out of its HTTP client, in seconds. -/
structure WhisperAdaptor where
  base : BaseAdaptor
  clientTimeout : Int
  deriving DecidableEq

/-- Source `NewWhisperAdaptor`: only the configuration, the name and the type of
the embedded adaptor are set. -/
def NewWhisperAdaptor (config : AdaptorConfig) : WhisperAdaptor :=
  let config := if config.BaseURL = "" then { config with BaseURL := "https://api.openai.com" }
                else config
  let config := if config.Timeout = 0 then { config with Timeout := 300 } else config
  { base :=
      { Config := config, EngineName := "OpenAI Whisper", EngineType := 1,
        MaxFileSize := 0, MaxDuration := 0, SupportedFormats := [], SupportedLanguages := [],
        SupportedOutputFormats := [] }
    clientTimeout := config.Timeout }

/-- Source `(*WhisperAdaptor).GetSupportedFormats`. -/
def WhisperAdaptor.GetSupportedFormats (_w : WhisperAdaptor) : List String :=
  ["mp3", "mp4", "wav", "m4a", "flac", "webm"]

/-- Source `(*WhisperAdaptor).GetSupportedLanguages`. -/
def WhisperAdaptor.GetSupportedLanguages (_w : WhisperAdaptor) : List String :=
  ["auto", "zh", "en", "ja", "ko", "es", "fr", "de", "ru", "it", "pt",
   "ar", "hi", "th", "vi", "nl", "pl", "tr", "sv", "da", "no", "fi"]

/-- Source `(*WhisperAdaptor).GetMaxFileSize` (25 MiB). -/
def WhisperAdaptor.GetMaxFileSize (_w : WhisperAdaptor) : Int :=
  25 * 1024 * 1024

/-- Source `(*WhisperAdaptor).GetMaxDuration` (one hour). -/
def WhisperAdaptor.GetMaxDuration (_w : WhisperAdaptor) : Int :=
  3600

/-- Source `(*WhisperAdaptor).GetSupportedOutputFormats`. -/
def WhisperAdaptor.GetSupportedOutputFormats (_w : WhisperAdaptor) : List String :=
  [OutputFormatJSON, OutputFormatSRT, OutputFormatTXT, OutputFormatVTT]

/-- Method `ValidateFile` of a `WhisperAdaptor`: the type declares none, so the
call goes to the method of the embedded `BaseAdaptor`, whose receiver is the
embedded value and whose capability queries are therefore the `BaseAdaptor` ones. -/
def WhisperAdaptor.ValidateFile (w : WhisperAdaptor) (filePath : String) (fileSize : Int)
    (duration : Int) : Option TranscriptionError :=
  w.base.ValidateFile filePath fileSize duration

/-- Method `ValidateConfig` of a `WhisperAdaptor`: promoted from the embedded
`BaseAdaptor` in the same way. -/
def WhisperAdaptor.ValidateConfig (w : WhisperAdaptor) (task : TranscriptionTask) :
    Option TranscriptionError :=
  w.base.ValidateConfig task

/-- Sample adaptor configuration, as `GetTranscriptionAdaptor` builds it. -/
def sampleConfig : AdaptorConfig :=
  { APIKey := "sk-1", BaseURL := "", Region := "", Timeout := 300, MaxRetries := 0 }

/-- Source `WhisperSegment`. -/
structure WhisperSegment where
  ID : Int
  Seek : Int
  Start : ℚ
  End : ℚ
  Text : String
  Tokens : List Int
  Temperature : ℚ
  AvgLogprob : ℚ
  CompressionRatio : ℚ
  NoSpeechProb : ℚ
  deriving DecidableEq

/-- Source `WhisperWord`. -/
structure WhisperWord where
  Word : String
  Start : ℚ
  End : ℚ
  deriving DecidableEq

/-- Source `WhisperResponse`. -/
structure WhisperResponse where
  Text : String
  Language : String
  Duration : ℚ
  Segments : List WhisperSegment
  Words : List WhisperWord
  deriving DecidableEq

/-- Request that `SubmitTask` sends: the address, the bearer key, the name of the
uploaded file and the form fields in the order they are written. -/
structure WhisperRequest where
  url : String
  apiKey : String
  fileName : String
  fields : List (String × String)
  deriving DecidableEq

/-- Outcome of the HTTP exchange of `SubmitTask`, one constructor per exit of the
source: the form file cannot be created, the upload cannot be copied, the request
cannot be built, the network call fails, the body cannot be read, the status is
not 200 (with the message of the error body when it parses), the body is not a
Whisper response, or the back-end answers. -/
inductive WhisperCall where
  | formFileFailed (cause : String)
  | copyFailed (cause : String)
  | requestFailed (cause : String)
  | networkFailed (cause : String)
  | readFailed (cause : String)
  | httpStatus (code : Int) (apiMessage : Option String)
  | invalidResponse (cause : String)
  | answered (response : WhisperResponse)
  deriving DecidableEq

/-- Confidence from a log probability, `1.0 + logprob/10.0` cut to the interval
from 0 to 1 by the two tests of the source. -/
def confidenceOf (logprob : ℚ) : ℚ :=
  let c := float64Add 1 (float64Div logprob 10)
  let c := if c < 0 then 0 else c
  if c > 1 then 1 else c

/-- Source `convertWhisperResult`. -/
def convertWhisperResult (whisperResult : WhisperResponse) : TranscriptionResult :=
  let confidenceScore : ℚ :=
    if whisperResult.Segments.length > 0 then
      let totalLogprob :=
        whisperResult.Segments.foldl (fun total segment => float64Add total segment.AvgLogprob) 0
      let avgLogprob := float64Div totalLogprob (intToFloat whisperResult.Segments.length)
      confidenceOf avgLogprob
    else 0
  { Text := TrimSpace whisperResult.Text
    Language := whisperResult.Language
    Duration := whisperResult.Duration
    ConfidenceScore := confidenceScore
    Segments := whisperResult.Segments.map (fun segment =>
      { ID := segment.ID, Start := segment.Start, End := segment.End,
        Text := TrimSpace segment.Text, Speaker := "",
        Confidence := confidenceOf segment.AvgLogprob })
    Words := whisperResult.Words.map (fun word =>
      { Word := TrimSpace word.Word, Start := word.Start, End := word.End,
        Confidence := confidenceScore })
    Speakers := [] }

/-- Form fields written by `SubmitTask`. -/
def whisperFields (task : TranscriptionTask) : List (String × String) :=
  [("model", if task.ModelName = "" then "whisper-1" else task.ModelName)]
  ++ (if task.Language ≠ "auto" ∧ task.Language ≠ "" then [("language", task.Language)]
      else [])
  ++ (if task.EnableTimestamps then
        [("timestamp_granularities[]", "segment")]
        ++ (if task.OutputFormat = OutputFormatJSON then [("timestamp_granularities[]", "word")]
            else [])
      else [])
  ++ [("response_format", "verbose_json"), ("temperature", "0")]

/-- Source `(*WhisperAdaptor).SubmitTask`; `http` is the exchange with the
back-end.  The task value is returned with the fields the call has set. -/
def WhisperAdaptor.SubmitTask (w : WhisperAdaptor) (http : WhisperRequest → WhisperCall)
    (task : TranscriptionTask) : TranscriptionTask × Option TranscriptionError :=
  match w.ValidateConfig task with
  | some err => (task, some err)
  | none =>
    let request : WhisperRequest :=
      { url := w.base.Config.BaseURL ++ "/v1/audio/transcriptions"
        apiKey := w.base.Config.APIKey
        fileName := task.OriginalFilename
        fields := whisperFields task }
    match http request with
    | WhisperCall.formFileFailed e =>
      (task, some (NewTranscriptionError ErrorCodeAPIError ("创建表单文件失败: " ++ e)))
    | WhisperCall.copyFailed e =>
      (task, some (NewTranscriptionError ErrorCodeAPIError ("复制文件数据失败: " ++ e)))
    | WhisperCall.requestFailed e =>
      (task, some (NewTranscriptionError ErrorCodeAPIError ("创建请求失败: " ++ e)))
    | WhisperCall.networkFailed e =>
      (task, some (NewTranscriptionError ErrorCodeNetworkError ("网络请求失败: " ++ e)))
    | WhisperCall.readFailed e =>
      (task, some (NewTranscriptionError ErrorCodeAPIError ("读取响应失败: " ++ e)))
    | WhisperCall.httpStatus code (some message) =>
      (task, some (NewTranscriptionError ErrorCodeAPIError
        ("API错误 (" ++ toString code ++ "): " ++ message)))
    | WhisperCall.httpStatus code none =>
      (task, some (NewTranscriptionError ErrorCodeAPIError
        ("API请求失败，状态码: " ++ toString code)))
    | WhisperCall.invalidResponse e =>
      (task, some (NewTranscriptionError ErrorCodeInvalidResponse ("解析响应失败: " ++ e)))
    | WhisperCall.answered response =>
      let transcriptionResult := convertWhisperResult response
      let task := { task with
        Status := TaskStatusCompleted
        Progress := 100
        ResultText := transcriptionResult.Text
        DetectedLanguage := transcriptionResult.Language
        ConfidenceScore := some transcriptionResult.ConfidenceScore }
      if transcriptionResult.Duration > 0 then
        ({ task with
            Duration := some (floatToInt transcriptionResult.Duration)
            BillingDuration := some (floatToInt transcriptionResult.Duration) }, none)
      else (task, none)

/-- Source `(*WhisperAdaptor).GetResult`. -/
def WhisperAdaptor.GetResult (_w : WhisperAdaptor) (task : TranscriptionTask) :
    Except TranscriptionError TranscriptionResult :=
  if task.Status ≠ TaskStatusCompleted then
    Except.error (NewTranscriptionError ErrorCodeTaskNotFound "任务未完成")
  else if task.ResultText = "" then
    Except.error (NewTranscriptionError ErrorCodeTaskNotFound "转录结果为空")
  else
    Except.ok
      { Text := task.ResultText
        Language := task.DetectedLanguage
        Duration := match task.Duration with
          | some d => intToFloat d
          | none => 0
        ConfidenceScore := match task.ConfidenceScore with
          | some c => c
          | none => 0
        Segments := []
        Words := []
        Speakers := [] }

/-- The Whisper adaptor behind the interface `TranscriptionAdaptor`. -/
def WhisperAdaptor.toAdaptor (w : WhisperAdaptor) (http : WhisperRequest → WhisperCall) :
    TranscriptionAdaptor :=
  { SubmitTask := w.SubmitTask http, GetResult := w.GetResult }

/-- The renderings of `model/transcription.go`; the JSON text, which
`encoding/json` produces, is taken as given. -/
def resultCodec (jsonText : TranscriptionResult → Except String String) : ResultCodec :=
  { ToJSON := jsonText, ToSRT := ToSRT, ToVTT := ToVTT }

/-- Content of the file stored under a path, if there is one. -/
def readFile (db : Store) (path : String) : Option String :=
  db.disk.lookup path

/-- Sample answer of the back-end: 12.75 seconds of English speech in one
segment from 0 to 1.5 seconds. -/
def sampleResponse : WhisperResponse :=
  { Text := " hello world ", Language := "en", Duration := mkRat 51 4,
    Segments := [{ ID := 0, Seek := 0, Start := 0, End := mkRat 3 2, Text := " hello world",
                   Tokens := [1, 2], Temperature := 0, AvgLogprob := mkRat (-1) 4,
                   CompressionRatio := 1, NoSpeechProb := 0 }],
    Words := [] }

/-- Sample environment of a background execution through the Whisper adaptor:
the back-end answers with `sampleResponse`, every other outside call succeeds. -/
def whisperAsyncEnv : AsyncEnv :=
  { now := 3000, storageConfig := sampleStorage,
    codec := resultCodec (fun r => Except.ok r.Text),
    adaptor := Except.ok ((NewWhisperAdaptor sampleConfig).toAdaptor
      (fun _ => WhisperCall.answered sampleResponse)),
    openErr := none, deductOk := true, concurrent := id, mkdirOk := true,
    writeOk := fun _ => true, recordOk := fun _ => true, setResultOk := true,
    markFailedOk := true }

/-- Run: background execution of the processing sample task (requested format
"srt", no duration known) through the Whisper adaptor. -/
def runWhisper : Store × TranscriptionTask :=
  processTranscriptionAsync whisperAsyncEnv (storeWith (sampleTask "processing" 20) 500)
    (sampleTask "processing" 20)

/-- The task value after the Whisper `SubmitTask` of that run. -/
def taskAfterWhisperSubmit : TranscriptionTask :=
  ((NewWhisperAdaptor sampleConfig).SubmitTask (fun _ => WhisperCall.answered sampleResponse)
    (sampleTask "processing" 20)).1

/-- The stored-file record `saveTranscriptionResult` inserts for one rendering:
the literal of the source with the creation time set by the insertion. -/
def resultFileRecord (env : AsyncEnv) (task : TranscriptionTask) (format content : String) :
    FileStorage :=
  { ID := 0
    UserID := task.UserID
    TaskID := some task.ID
    FileType := FileTypeResult
    OriginalName := toString task.ID ++ "_result." ++ format
    StoredName := toString task.ID ++ "_result." ++ format
    FilePath := joinPath (joinPath env.storageConfig.LocalPath "results")
      (toString task.ID ++ "_result." ++ format)
    FileSize := content.utf8ByteSize
    MimeType := getResultMimeType format
    StorageType := env.storageConfig.Type_
    ExpiresAt := some (env.now + env.storageConfig.RetentionDays * 86400)
    CreatedAt := env.now }

/-- Path of the rendering of a task in one format,
`{LocalPath}/results/{taskID}_result.{format}`. -/
def resultPath (env : AsyncEnv) (task : TranscriptionTask) (format : String) : String :=
  joinPath (joinPath env.storageConfig.LocalPath "results")
    (toString task.ID ++ "_result." ++ format)

/-- Sample result: what `convertWhisperResult` makes of `sampleResponse`, the text
"hello world" with one segment from 0 to 1.5 seconds. -/
def sampleResult : TranscriptionResult :=
  convertWhisperResult sampleResponse

/-- Run: `saveTranscriptionResult` of `sampleResult` for the sample task (ID 1,
requested format "srt") with every outside call succeeding. -/
def runSave : Store × TranscriptionTask × Option String :=
  saveTranscriptionResult whisperAsyncEnv (storeWith (sampleTask "processing" 20) 500)
    (sampleTask "processing" 20) sampleResult

/-! ## ResultCodec: JSON (`encoding/json` on the result types)

`ToJSON` is `json.Marshal(result)` and `FromJSON` is `json.Unmarshal` into the
receiver.  Both are followed on JSON documents rather than on their text: which
members are written under which keys and in which order, which are left out, and
how members are stored back into the fields.  A number is held as the exact
value of its literal.  `Marshal` writes a `float64` as the shortest decimal that
reads back as the same `float64`; here the value itself stands for that literal,
and reading a number into a `float64` field rounds it to the nearest `float64`.
Keys are compared exactly (`Unmarshal` also accepts keys that differ in letter
case, which `Marshal` never writes), and text that is not valid UTF-8 is outside
the model. -/

/-- JSON document: members of an object keep their order. -/
inductive JSON where
  | null
  | bool (b : Bool)
  | number (q : ℚ)
  | string (s : String)
  | array (items : List JSON)
  | object (members : List (String × JSON))

/-- Go `*json.UnmarshalTypeError`: the kind of JSON value met and the Go type it
cannot be stored in. -/
structure UnmarshalTypeError where
  Value : String
  Type_ : String
  deriving DecidableEq

/-- Kind of a JSON value as `UnmarshalTypeError.Value` names it. -/
def JSON.kind : JSON → String
  | JSON.null => "null"
  | JSON.bool _ => "bool"
  | JSON.number _ => "number"
  | JSON.string _ => "string"
  | JSON.array _ => "array"
  | JSON.object _ => "object"

/-- Members written for a `TranscriptionSegment`, in field order; the tag of
`Speaker` carries `omitempty`. -/
def TranscriptionSegment.marshal (s : TranscriptionSegment) : JSON :=
  JSON.object
    ([("id", JSON.number s.ID), ("start", JSON.number s.Start), ("end", JSON.number s.End),
      ("text", JSON.string s.Text)]
     ++ (if s.Speaker = "" then [] else [("speaker", JSON.string s.Speaker)])
     ++ [("confidence", JSON.number s.Confidence)])

/-- Members written for a `TranscriptionWord`. -/
def TranscriptionWord.marshal (w : TranscriptionWord) : JSON :=
  JSON.object
    [("word", JSON.string w.Word), ("start", JSON.number w.Start), ("end", JSON.number w.End),
     ("confidence", JSON.number w.Confidence)]

/-- Members written for a `TranscriptionSpeaker`; the tags of `Name`, `Gender`
and `Language` carry `omitempty`. -/
def TranscriptionSpeaker.marshal (s : TranscriptionSpeaker) : JSON :=
  JSON.object
    ([("id", JSON.string s.ID)]
     ++ (if s.Name = "" then [] else [("name", JSON.string s.Name)])
     ++ (if s.Gender = "" then [] else [("gender", JSON.string s.Gender)])
     ++ (if s.Language = "" then [] else [("language", JSON.string s.Language)]))

/-- Source `(*TranscriptionResult).ToJSON`: the document `json.Marshal` writes,
following the tags of `TranscriptionResult`; the three lists carry `omitempty`
and are left out when they have no element. -/
def ToJSON (result : TranscriptionResult) : JSON :=
  JSON.object
    ([("text", JSON.string result.Text), ("language", JSON.string result.Language),
      ("duration", JSON.number result.Duration),
      ("confidence_score", JSON.number result.ConfidenceScore)]
     ++ (if result.Segments.length = 0 then []
         else [("segments", JSON.array (result.Segments.map TranscriptionSegment.marshal))])
     ++ (if result.Words.length = 0 then []
         else [("words", JSON.array (result.Words.map TranscriptionWord.marshal))])
     ++ (if result.Speakers.length = 0 then []
         else [("speakers", JSON.array (result.Speakers.map TranscriptionSpeaker.marshal))]))

/-- Storing a JSON value into a `string` field holding `current`: `null` leaves
the field as it is. -/
def unmarshalString (current : String) : JSON → Except UnmarshalTypeError String
  | JSON.null => Except.ok current
  | JSON.string s => Except.ok s
  | v => Except.error { Value := v.kind, Type_ := "string" }

/-- Storing a JSON value into a `float64` field: a number is rounded to the
nearest `float64`. -/
def unmarshalFloat (current : ℚ) : JSON → Except UnmarshalTypeError ℚ
  | JSON.null => Except.ok current
  | JSON.number q => Except.ok (roundQuotient q)
  | v => Except.error { Value := v.kind, Type_ := "float64" }

/-- Storing a JSON value into an `int` field: the number has to be an integer of
the `int64` range.  A number is held by its value, so a literal written with a
fraction or an exponent, which Go refuses for an `int` field, is not told apart
from the integer it denotes; `Marshal` writes no such literal for an `int`. -/
def unmarshalInt (current : Int) : JSON → Except UnmarshalTypeError Int
  | JSON.null => Except.ok current
  | JSON.number q =>
    if q.den = 1 ∧ -(2 ^ 63) ≤ q.num ∧ q.num < 2 ^ 63 then Except.ok q.num
    else Except.error { Value := "number", Type_ := "int" }
  | v => Except.error { Value := v.kind, Type_ := "int" }

/-- Storing the elements of a JSON array, each by `element`, into a slice. -/
def unmarshalElements {α : Type} (element : JSON → Except UnmarshalTypeError α) :
    List JSON → Except UnmarshalTypeError (List α)
  | [] => Except.ok []
  | item :: rest =>
    match element item with
    | Except.error e => Except.error e
    | Except.ok a =>
      match unmarshalElements element rest with
      | Except.error e => Except.error e
      | Except.ok l => Except.ok (a :: l)

/-- Storing the members of a JSON object one after the other, each by `member`,
starting from the value `current`: a key that comes twice is stored twice, the
later value staying. -/
def unmarshalMembers {α : Type} (member : α → String × JSON → Except UnmarshalTypeError α) :
    List (String × JSON) → α → Except UnmarshalTypeError α
  | [], current => Except.ok current
  | m :: rest, current =>
    match member current m with
    | Except.error e => Except.error e
    | Except.ok next => unmarshalMembers member rest next

/-- Storing one member into a `TranscriptionSegment`; a key that names no field
is skipped. -/
def TranscriptionSegment.unmarshalMember (s : TranscriptionSegment) (m : String × JSON) :
    Except UnmarshalTypeError TranscriptionSegment :=
  if m.1 = "id" then (unmarshalInt s.ID m.2).map (fun v => { s with ID := v })
  else if m.1 = "start" then (unmarshalFloat s.Start m.2).map (fun v => { s with Start := v })
  else if m.1 = "end" then (unmarshalFloat s.End m.2).map (fun v => { s with End := v })
  else if m.1 = "text" then (unmarshalString s.Text m.2).map (fun v => { s with Text := v })
  else if m.1 = "speaker" then
    (unmarshalString s.Speaker m.2).map (fun v => { s with Speaker := v })
  else if m.1 = "confidence" then
    (unmarshalFloat s.Confidence m.2).map (fun v => { s with Confidence := v })
  else Except.ok s

/-- Storing a JSON value into a new `TranscriptionSegment` of a slice. -/
def TranscriptionSegment.unmarshal : JSON → Except UnmarshalTypeError TranscriptionSegment
  | JSON.null => Except.ok { ID := 0, Start := 0, End := 0, Text := "", Speaker := "",
                             Confidence := 0 }
  | JSON.object members =>
    unmarshalMembers TranscriptionSegment.unmarshalMember members
      { ID := 0, Start := 0, End := 0, Text := "", Speaker := "", Confidence := 0 }
  | v => Except.error { Value := v.kind, Type_ := "model.TranscriptionSegment" }

/-- Storing one member into a `TranscriptionWord`. -/
def TranscriptionWord.unmarshalMember (w : TranscriptionWord) (m : String × JSON) :
    Except UnmarshalTypeError TranscriptionWord :=
  if m.1 = "word" then (unmarshalString w.Word m.2).map (fun v => { w with Word := v })
  else if m.1 = "start" then (unmarshalFloat w.Start m.2).map (fun v => { w with Start := v })
  else if m.1 = "end" then (unmarshalFloat w.End m.2).map (fun v => { w with End := v })
  else if m.1 = "confidence" then
    (unmarshalFloat w.Confidence m.2).map (fun v => { w with Confidence := v })
  else Except.ok w

/-- Storing a JSON value into a new `TranscriptionWord` of a slice. -/
def TranscriptionWord.unmarshal : JSON → Except UnmarshalTypeError TranscriptionWord
  | JSON.null => Except.ok { Word := "", Start := 0, End := 0, Confidence := 0 }
  | JSON.object members =>
    unmarshalMembers TranscriptionWord.unmarshalMember members
      { Word := "", Start := 0, End := 0, Confidence := 0 }
  | v => Except.error { Value := v.kind, Type_ := "model.TranscriptionWord" }

/-- Storing one member into a `TranscriptionSpeaker`. -/
def TranscriptionSpeaker.unmarshalMember (s : TranscriptionSpeaker) (m : String × JSON) :
    Except UnmarshalTypeError TranscriptionSpeaker :=
  if m.1 = "id" then (unmarshalString s.ID m.2).map (fun v => { s with ID := v })
  else if m.1 = "name" then (unmarshalString s.Name m.2).map (fun v => { s with Name := v })
  else if m.1 = "gender" then
    (unmarshalString s.Gender m.2).map (fun v => { s with Gender := v })
  else if m.1 = "language" then
    (unmarshalString s.Language m.2).map (fun v => { s with Language := v })
  else Except.ok s

/-- Storing a JSON value into a new `TranscriptionSpeaker` of a slice. -/
def TranscriptionSpeaker.unmarshal : JSON → Except UnmarshalTypeError TranscriptionSpeaker
  | JSON.null => Except.ok { ID := "", Name := "", Gender := "", Language := "" }
  | JSON.object members =>
    unmarshalMembers TranscriptionSpeaker.unmarshalMember members
      { ID := "", Name := "", Gender := "", Language := "" }
  | v => Except.error { Value := v.kind, Type_ := "model.TranscriptionSpeaker" }

/-- Storing a JSON value into a slice field that holds no element yet: `null`
gives the nil slice, an array gives its elements. -/
def unmarshalSlice {α : Type} (typeName : String)
    (element : JSON → Except UnmarshalTypeError α) :
    JSON → Except UnmarshalTypeError (List α)
  | JSON.null => Except.ok []
  | JSON.array items => unmarshalElements element items
  | v => Except.error { Value := v.kind, Type_ := typeName }

/-- Storing one member into a `TranscriptionResult`. -/
def TranscriptionResult.unmarshalMember (r : TranscriptionResult) (m : String × JSON) :
    Except UnmarshalTypeError TranscriptionResult :=
  if m.1 = "text" then (unmarshalString r.Text m.2).map (fun v => { r with Text := v })
  else if m.1 = "language" then
    (unmarshalString r.Language m.2).map (fun v => { r with Language := v })
  else if m.1 = "duration" then
    (unmarshalFloat r.Duration m.2).map (fun v => { r with Duration := v })
  else if m.1 = "confidence_score" then
    (unmarshalFloat r.ConfidenceScore m.2).map (fun v => { r with ConfidenceScore := v })
  else if m.1 = "segments" then
    (unmarshalSlice "[]model.TranscriptionSegment" TranscriptionSegment.unmarshal m.2).map
      (fun v => { r with Segments := v })
  else if m.1 = "words" then
    (unmarshalSlice "[]model.TranscriptionWord" TranscriptionWord.unmarshal m.2).map
      (fun v => { r with Words := v })
  else if m.1 = "speakers" then
    (unmarshalSlice "[]model.TranscriptionSpeaker" TranscriptionSpeaker.unmarshal m.2).map
      (fun v => { r with Speakers := v })
  else Except.ok r

/-- Source `(*TranscriptionResult).FromJSON` on a receiver that is the zero
value: `json.Unmarshal` stores the members of the document into a new
`TranscriptionResult`. -/
def FromJSON : JSON → Except UnmarshalTypeError TranscriptionResult
  | JSON.null => Except.ok { Text := "", Language := "", Duration := 0, ConfidenceScore := 0,
                             Segments := [], Words := [], Speakers := [] }
  | JSON.object members =>
    unmarshalMembers TranscriptionResult.unmarshalMember members
      { Text := "", Language := "", Duration := 0, ConfidenceScore := 0,
        Segments := [], Words := [], Speakers := [] }
  | v => Except.error { Value := v.kind, Type_ := "model.TranscriptionResult" }

/-- The values of `TranscriptionResult` that a Go program can hold: every
`float64` field is a `float64` value and every `int` field is in the `int64`
range. -/
def IsGoResult (r : TranscriptionResult) : Prop :=
  IsFloat64 r.Duration ∧ IsFloat64 r.ConfidenceScore ∧
  (∀ s ∈ r.Segments, -(2 ^ 63) ≤ s.ID ∧ s.ID < 2 ^ 63 ∧ IsFloat64 s.Start ∧ IsFloat64 s.End ∧
    IsFloat64 s.Confidence) ∧
  (∀ w ∈ r.Words, IsFloat64 w.Start ∧ IsFloat64 w.End ∧ IsFloat64 w.Confidence)

/-- Sample result with every kind of entry: two segments, one without speaker,
two words, two speakers, one with an identifier only. -/
def fullResult : TranscriptionResult :=
  { Text := "hello world", Language := "en", Duration := mkRat 51 4,
    ConfidenceScore := mkRat 7 8,
    Segments := [{ ID := 0, Start := 0, End := mkRat 3 2, Text := "hello", Speaker := "",
                   Confidence := mkRat 3 4 },
                 { ID := 1, Start := mkRat 3 2, End := 3, Text := "world", Speaker := "S1",
                   Confidence := 1 }],
    Words := [{ Word := "hello", Start := 0, End := mkRat 1 2, Confidence := mkRat 7 8 },
              { Word := "world", Start := mkRat 3 2, End := 2, Confidence := mkRat 7 8 }],
    Speakers := [{ ID := "S1", Name := "Ann", Gender := "", Language := "en" },
                 { ID := "S2", Name := "", Gender := "", Language := "" }] }

/-- Sample result with nothing but a text. -/
def bareResult : TranscriptionResult :=
  { Text := "hello", Language := "", Duration := 0, ConfidenceScore := 0,
    Segments := [], Words := [], Speakers := [] }

/-! ## The Whisper adaptor: status query and cancel -/

/-- Go `time.Second`, in nanoseconds, the unit of `time.Duration`. -/
def timeSecond : Int := 1000000000

/-- Source `(*WhisperAdaptor).QueryTaskStatus`; `elapsed` is the value of
`time.Since(task.CreatedAt)`, in nanoseconds.  The product
`time.Duration(w.Config.Timeout) * time.Second` is a 64-bit product. -/
def WhisperAdaptor.QueryTaskStatus (w : WhisperAdaptor) (elapsed : Int)
    (task : TranscriptionTask) : TranscriptionTask × Option TranscriptionError :=
  if task.Status = TaskStatusProcessing then
    if elapsed > wrapInt64 (w.base.Config.Timeout * timeSecond) then
      ({ task with Status := TaskStatusFailed, ErrorMessage := "任务超时", ErrorCode := "TIMEOUT" },
        none)
    else (task, none)
  else (task, none)

/-- Source `(*WhisperAdaptor).CancelTask`: the task value it leaves and its error. -/
def WhisperAdaptor.CancelTask (_w : WhisperAdaptor) (task : TranscriptionTask) :
    TranscriptionTask × Option TranscriptionError :=
  if task.Status = TaskStatusCompleted ∨ task.Status = TaskStatusFailed then
    (task, some (NewTranscriptionError ErrorCodeTaskNotFound "任务已完成，无法取消"))
  else ({ task with Status := TaskStatusCancelled, ErrorMessage := "任务已取消" }, none)

/-- Sample task asking for Dutch with JSON output. -/
def dutchTask : TranscriptionTask :=
  { sampleTask "processing" 20 with Language := "nl", OutputFormat := "json" }

/-! ## AdapterRegistry (`service/transcription/adaptor.go`) -/

/-- Source `AdaptorFactory`: the map `adaptors` from engine type to creator, as
the partial function it is.  The parameter `α` is the type of the adaptors the
creators return (the interface `TranscriptionAdaptor` in the source). -/
structure AdaptorFactory (α : Type) where
  adaptors : Int → Option (AdaptorConfig → α)

/-- Source `NewAdaptorFactory`: the empty map. -/
def NewAdaptorFactory (α : Type) : AdaptorFactory α :=
  { adaptors := fun _ => none }

/-- Source `(*AdaptorFactory).RegisterAdaptor`: `f.adaptors[engineType] = creator`. -/
def AdaptorFactory.RegisterAdaptor {α : Type} (f : AdaptorFactory α) (engineType : Int)
    (creator : AdaptorConfig → α) : AdaptorFactory α :=
  { adaptors := fun t => if t = engineType then some creator else f.adaptors t }

/-- Source `(*AdaptorFactory).CreateAdaptor`. -/
def AdaptorFactory.CreateAdaptor {α : Type} (f : AdaptorFactory α) (engineType : Int)
    (config : AdaptorConfig) : Except TranscriptionError α :=
  match f.adaptors engineType with
  | none => Except.error (NewTranscriptionError ErrorCodeConfigError "不支持的转录引擎类型")
  | some creator => Except.ok (creator config)

def EngineTypeWhisper : Int := 1
def EngineTypeAliCloud : Int := 2
def EngineTypeTencent : Int := 3
def EngineTypeBaidu : Int := 4
def EngineTypeXunfei : Int := 5
def EngineTypeAzure : Int := 6
def EngineTypeAWS : Int := 7
def EngineTypeGoogle : Int := 8
def EngineTypeLocal : Int := 9

/-- Source `EngineNames`. -/
def EngineNames : List (Int × String) :=
  [(EngineTypeWhisper, "OpenAI Whisper"), (EngineTypeAliCloud, "阿里云语音识别"),
   (EngineTypeTencent, "腾讯云语音识别"), (EngineTypeBaidu, "百度语音识别"),
   (EngineTypeXunfei, "讯飞语音识别"), (EngineTypeAzure, "Azure Speech Services"),
   (EngineTypeAWS, "AWS Transcribe"), (EngineTypeGoogle, "Google Speech-to-Text"),
   (EngineTypeLocal, "本地部署引擎")]

/-- Engine-type test of the administrative handler `CreateTranscriptionEngine`
(`controller/transcription_admin.go`): the type is a key of `EngineNames`. -/
def engineTypeAccepted (engineType : Int) : Bool :=
  (EngineNames.lookup engineType).isSome

/-- Source `GlobalAdaptorFactory` once every package is initialised: the `init`
of package `whisper` is the one registration the repository makes
(`RegisterAllAdaptors` has an empty body). -/
def GlobalAdaptorFactory : AdaptorFactory WhisperAdaptor :=
  (NewAdaptorFactory WhisperAdaptor).RegisterAdaptor EngineTypeWhisper
    (fun config => NewWhisperAdaptor config)

/-- Source `GetTranscriptionAdaptor`; `channel` is the outcome of
`model.GetChannelById`. -/
def GetTranscriptionAdaptor {α : Type} (factory : AdaptorFactory α)
    (channel : Except String Channel) : Except String α :=
  match channel with
  | Except.error e => Except.error ("获取渠道信息失败: " ++ e)
  | Except.ok channel =>
    match factory.CreateAdaptor channel.EngineType
        { APIKey := channel.Key, BaseURL := channel.BaseURL, Region := "", Timeout := 300,
          MaxRetries := 0 } with
    | Except.error e => Except.error ("创建适配器失败: " ++ e.Message)
    | Except.ok adaptor => Except.ok adaptor

/-- Sample channel of engine type 2 (AliCloud), as the administrative handler
stores it: enabled, "en" and "mp3" supported. -/
def sampleChannelAli : Channel :=
  { Id := 21, EngineType := 2, Key := "k21", BaseURL := "", SupportedFormats := "mp3",
    SupportedLanguages := "en", Weight := 10, Status := 1 }

/-- Run: the owner cancels the sample task once while its back-end call is in
flight (balance 500, 100 debited). -/
def runCancelOnce : Store × CancelResponse :=
  CancelTranscriptionTask 2500 true storeInFlight 1 7

/-- Run: the owner sends the same cancel a second time. -/
def runCancelTwice : Store × CancelResponse :=
  CancelTranscriptionTask 2600 true runCancelOnce.1 1 7

/-- Source handler `CancelTranscriptionTask` with other requests running between
its lookup, whose row the status test reads, and its status update: `concurrent`
is what they do to the store in that interval.  The handler does not read the
row again; `CancelTranscriptionTask` is the case in which nothing runs in
between. -/
def CancelTranscriptionTaskAmid (now : Nat) (updateOk : Bool) (concurrent : Store → Store)
    (db : Store) (taskID userID : Int) : Store × CancelResponse :=
  match GetTranscriptionTask db taskID userID with
  | none => (concurrent db, CancelResponse.notFound)
  | some task =>
    if task.Status = TaskStatusCompleted ∨ task.Status = TaskStatusFailed then
      (concurrent db, CancelResponse.alreadyFinished)
    else
      match UpdateStatus (concurrent db) updateOk task TaskStatusCancelled task.Progress
          "用户取消" now with
      | (db, _, some e) => (db, CancelResponse.updateFailed e)
      | (db, task, none) =>
        if task.QuotaCost > 0 then
          (IncreaseUserQuota db userID task.QuotaCost, CancelResponse.cancelled)
        else (db, CancelResponse.cancelled)

/-- Sample result of a back-end call: the text "hello" in "en". -/
def helloResult : TranscriptionResult :=
  { Text := "hello", Language := "en", Duration := 0, ConfidenceScore := 1,
    Segments := [], Words := [], Speakers := [] }

/-- What a background execution does to the store when it completes the sample
task: the completion update of `SetResult`. -/
def completeSampleTask (db : Store) : Store :=
  (SetResult db true (sampleTask "processing" 20) helloResult "data/results/1_result.srt"
    2550).1

/-- Sample environment of a creation with one channel for "en". -/
def sampleCreateEnvEn : CreateEnv :=
  { sampleCreateEnv with channels := Except.ok [sampleChannelEn] }

/-! # Properties -/

/-! ## Lemmas on the arithmetic -/

theorem wrapInt64_of_range (x : Int) (h1 : -(2 ^ 63) ≤ x) (h2 : x < 2 ^ 63) :
    wrapInt64 x = x := by
  unfold wrapInt64
  omega

theorem f64Shift_eq (k : Nat) : ∀ fuel n : Nat, 2 ^ (k + 52) ≤ n → n < 2 ^ (k + 53) →
    k ≤ fuel → f64Shift fuel n = k := by
  induction k with
  | zero =>
    intro fuel n _ h2 _
    cases fuel with
    | zero => rfl
    | succ f =>
      have h2' : n < 2 ^ 53 := by simpa using h2
      rw [f64Shift, if_pos h2']
  | succ k ih =>
    intro fuel n h1 h2 hf
    cases fuel with
    | zero => omega
    | succ f =>
      have e1 : 2 ^ (k + 1 + 52) = 2 * 2 ^ (k + 52) := by ring
      have e2 : 2 ^ (k + 1 + 53) = 2 * 2 ^ (k + 53) := by ring
      have e3 : 2 ^ (k + 52) = 2 ^ k * 2 ^ 52 := by ring
      have hk : 0 < 2 ^ k := Nat.pow_pos (by decide)
      have hn : ¬ n < 2 ^ 53 := by
        have : 2 ^ 52 ≤ 2 ^ k * 2 ^ 52 := Nat.le_mul_of_pos_left _ hk
        omega
      have h3 : f64Shift f (n / 2) = k := by
        apply ih
        · omega
        · omega
        · omega
      rw [f64Shift, if_neg hn, h3]

theorem roundFloat64_small (n : Nat) (h : n < 2 ^ 53) : roundFloat64 n = n := by
  have hs : f64Shift n n = 0 := by
    cases n with
    | zero => rfl
    | succ m => rw [f64Shift, if_pos h]
  simp only [roundFloat64, hs, pow_zero, Nat.mod_one, Nat.div_one, mul_zero, mul_one]
  rw [if_pos (by decide)]


/-- Bracketing of a positive natural number between consecutive powers of two. -/
theorem exists_pow_bracket (n : Nat) (h : 0 < n) : ∃ k, 2 ^ k ≤ n ∧ n < 2 ^ (k + 1) := by
  refine ⟨Nat.size n - 1, ?_, ?_⟩
  · have h1 : Nat.size n - 1 < Nat.size n := by
      have : 0 < Nat.size n := Nat.size_pos.mpr h
      omega
    exact Nat.lt_size.mp h1
  · have : 0 < Nat.size n := Nat.size_pos.mpr h
    have e : Nat.size n - 1 + 1 = Nat.size n := by omega
    rw [e]
    exact Nat.lt_size_self n

/-- The rounded product `float64(100 * m) * 1.2` is exactly `120 * m`: the error
of the stored constant is below half a unit in the last place of the product. -/
theorem roundFloat64_product (m : Nat) (hm : 120 * m < 2 ^ 53) :
    roundFloat64 (100 * m * float64OnePointTwo) = 120 * m * 2 ^ 52 := by
  rcases Nat.eq_zero_or_pos m with h0 | hpos
  · subst h0
    rfl
  obtain ⟨k, hk1, hk2⟩ := exists_pow_bracket (120 * m) (by omega)
  have hk52 : k ≤ 52 := by
    by_contra hc
    have : 2 ^ 53 ≤ 2 ^ k := Nat.pow_le_pow_right (by decide) (by omega)
    omega
  obtain ⟨j, hj⟩ : ∃ j, k + j = 52 := ⟨52 - k, by omega⟩
  have hsplit : (2 : Nat) ^ 52 = 2 ^ k * 2 ^ j := by rw [← pow_add, hj]
  have hk2' : 120 * m < 2 * 2 ^ k := by rw [pow_succ] at hk2; omega
  have hne : 2 ^ k ≠ 120 * m := by
    intro he
    have h3 : 3 ∣ 2 ^ k := by rw [he]; exact ⟨40 * m, by ring⟩
    have := (Nat.Prime.dvd_of_dvd_pow Nat.prime_three h3)
    omega
  set P := 2 ^ k with hP
  set J := 2 ^ j with hJ
  have hJpos : 0 < J := Nat.pow_pos (by decide)
  have hPpos : 0 < P := Nat.pow_pos (by decide)
  -- the exact product
  have hN : 100 * m * float64OnePointTwo + 20 * m = 120 * m * J * P := by
    have : 100 * m * float64OnePointTwo + 20 * m = 120 * m * 2 ^ 52 := by
      unfold float64OnePointTwo
      omega
    rw [this, hsplit]
    ring
  have hQ : 1 ≤ 120 * m * J := by
    have : 1 ≤ J := hJpos
    nlinarith
  have hdecomp : 100 * m * float64OnePointTwo = (120 * m * J - 1) * P + (P - 20 * m) := by
    have h1 : (120 * m * J - 1) * P = 120 * m * J * P - P := by
      rw [Nat.sub_mul, one_mul]
    have h2 : P ≤ 120 * m * J * P := Nat.le_mul_of_pos_left _ (by omega)
    omega
  have hr : P - 20 * m < P := by omega
  -- bounds of the product, hence the shift
  have hlow : 2 ^ (k + 52) ≤ 100 * m * float64OnePointTwo := by
    have e : 2 ^ (k + 52) = P * 2 ^ 52 := by rw [pow_add]
    have h1 : (P + 1) * 2 ^ 52 ≤ 120 * m * 2 ^ 52 := Nat.mul_le_mul_right _ (by omega)
    have h2 : 100 * m * float64OnePointTwo + 20 * m = 120 * m * 2 ^ 52 := by
      unfold float64OnePointTwo
      omega
    rw [e]
    have h3 : (P + 1) * 2 ^ 52 = P * 2 ^ 52 + 2 ^ 52 := by ring
    omega
  have hhigh : 100 * m * float64OnePointTwo < 2 ^ (k + 53) := by
    have e : 2 ^ (k + 53) = 2 * P * 2 ^ 52 := by rw [pow_add, hP]; ring
    have h1 : 120 * m * 2 ^ 52 < 2 * P * 2 ^ 52 := Nat.mul_lt_mul_of_pos_right hk2' (by decide)
    have h2 : 100 * m * float64OnePointTwo + 20 * m = 120 * m * 2 ^ 52 := by
      unfold float64OnePointTwo
      omega
    rw [e]
    omega
  have hfuel : k ≤ 100 * m * float64OnePointTwo := by
    have : k < 2 ^ k := Nat.lt_two_pow k
    have : 2 ^ k ≤ 2 ^ (k + 52) := Nat.pow_le_pow_right (by decide) (by omega)
    omega
  have hs : f64Shift (100 * m * float64OnePointTwo) (100 * m * float64OnePointTwo) = k :=
    f64Shift_eq k _ _ hlow hhigh hfuel
  have hq : 100 * m * float64OnePointTwo / P = 120 * m * J - 1 := by
    rw [hdecomp, Nat.add_comm, Nat.add_mul_div_right _ _ hPpos, Nat.div_eq_of_lt hr, zero_add]
  have hrem : 100 * m * float64OnePointTwo % P = P - 20 * m := by
    rw [hdecomp, Nat.add_comm, Nat.add_mul_mod_self_right, Nat.mod_eq_of_lt hr]
  unfold roundFloat64
  simp only [hs, ← hP, hq, hrem]
  rw [if_neg (by omega), if_pos (by omega)]
  have : 120 * m * J - 1 + 1 = 120 * m * J := by omega
  rw [this, hsplit]
  ring

/-- On a cost of whole minutes at the base rate, `int(float64(cost) * 1.2)` is
the exact product: no unit is lost to the binary representation of `1.2`. -/
theorem mulOnePointTwo_exact (m : Nat) (hm : 120 * m < 2 ^ 53) :
    mulOnePointTwo (100 * (m : Int)) = 120 * (m : Int) := by
  have ha : (100 * (m : Int)).natAbs = 100 * m := by omega
  have hsmall : 100 * m < 2 ^ 53 := by omega
  unfold mulOnePointTwo
  simp only [ha, roundFloat64_small _ hsmall, roundFloat64_product m hm]
  rw [Nat.mul_div_cancel _ (by decide : 0 < 2 ^ 52)]
  rw [if_neg (by omega), if_neg (by omega)]
  push_cast
  ring

theorem ceil_div_sixty (d : Int) : ⌈(d : ℚ) / 60⌉ = (d + 59) / 60 := by
  rw [Int.ceil_eq_iff]
  have h1 : 60 * ((d + 59) / 60) ≤ d + 59 := by omega
  have h2 : d + 59 < 60 * ((d + 59) / 60) + 60 := by omega
  set z := (d + 59) / 60
  have h3 : 60 * z - 59 ≤ d := by omega
  have h3' : (60 : ℚ) * z - 59 ≤ d := by exact_mod_cast h3
  have h4 : d ≤ 60 * z := by omega
  have h4' : (d : ℚ) ≤ 60 * z := by exact_mod_cast h4
  constructor
  · rw [lt_div_iff₀ (by norm_num)]; linarith
  · rw [div_le_iff₀ (by norm_num)]; linarith

theorem floor_div_mebibyte (n : Int) : ⌊(n : ℚ) / 1048576⌋ = n / 1048576 := by
  rw [Int.floor_eq_iff]
  have h1 : 1048576 * (n / 1048576) ≤ n := by omega
  have h2 : n < 1048576 * (n / 1048576) + 1048576 := by omega
  set z := n / 1048576
  have h1' : (1048576 : ℚ) * z ≤ n := by exact_mod_cast h1
  have h2' : (n : ℚ) < 1048576 * z + 1048576 := by exact_mod_cast h2
  constructor
  · rw [le_div_iff₀ (by norm_num)]; linarith
  · rw [div_lt_iff₀ (by norm_num)]; linarith

/-- The language test of the source, as a proposition. -/
theorem language_test (language : String) :
    (language != "zh" && language != "en") = true ↔ ¬ (language = "zh" ∨ language = "en") := by
  simp [not_or]

/-- Cost of an estimated duration `e` (seconds) in the range where neither the
64-bit words nor the `float64` product lose anything. -/
theorem cost_of_estimated_duration (fileSize e : Int) (duration : Option Int) (language : String)
    (hdur : (match duration with
      | some d => d
      | none => if Int.tdiv fileSize (1024 * 1024) < 60 then 60
                else Int.tdiv fileSize (1024 * 1024)) = e)
    (h0 : 0 ≤ e) (h1 : e < 2 ^ 50) :
    estimateTranscriptionCost fileSize duration language =
      if language = "zh" ∨ language = "en" then (e + 59) / 60 * 100 else (e + 59) / 60 * 120 := by
  have hw1 : wrapInt64 (e + 59) = e + 59 := wrapInt64_of_range _ (by omega) (by omega)
  have hm : Int.tdiv (e + 59) 60 = (e + 59) / 60 := Int.tdiv_eq_ediv (by omega) (by omega)
  have hmlo : 0 ≤ (e + 59) / 60 := by omega
  have hmhi : (e + 59) / 60 < 2 ^ 45 := by omega
  have hw2 : wrapInt64 ((e + 59) / 60 * 100) = (e + 59) / 60 * 100 :=
    wrapInt64_of_range _ (by omega) (by omega)
  unfold estimateTranscriptionCost
  simp only [hdur, hw1, hm, hw2]
  by_cases hl : language = "zh" ∨ language = "en"
  · have hb : (language != "zh" && language != "en") = false := by
      rcases hl with h | h <;> simp [h]
    rw [if_pos hl, hb]
    simp
  · have hb : (language != "zh" && language != "en") = true := (language_test language).mpr hl
    rw [if_neg hl, hb]
    simp only [if_true]
    obtain ⟨m, hmn⟩ : ∃ m : Nat, (m : Int) = (e + 59) / 60 := ⟨((e + 59) / 60).toNat, by omega⟩
    rw [← hmn, mul_comm (m : Int) 100, mulOnePointTwo_exact m (by omega)]
    ring

/-- C6, refuted as stated: an explicit duration of 67553994410557500 seconds in
"fr" is estimated at 135107988821114992, while `ceil(d / 60) * 120` is
135107988821115000: the cost before the surcharge, 112589990684262500, has more
than 53 significant bits, so its conversion to `float64` and the product by `1.2`
round. -/
theorem estimateTranscriptionCost_large_duration_rounds :
    estimateTranscriptionCost 5 (some 67553994410557500) "fr" = 135107988821114992 ∧
    ⌈((67553994410557500 : Int) : ℚ) / 60⌉ * 120 = 135107988821115000 ∧
    estimateTranscriptionCost 5 (some 67553994410557500) "en" = 112589990684262500 :=
  ⟨by decide, by rw [ceil_div_sixty]; decide, by decide⟩

/-- C6, as the code has it: with an explicit duration `d ≥ 0` the estimate
ignores the file size and is `ceil(d / 60) * 100` for the languages "zh" and
"en", as long as that product fits the 64-bit `int`, and exactly
`ceil(d / 60) * 120` for every other language, as long as that product is below
`2 ^ 53`, the range in which a `float64` holds every integer; the 64-bit words
and the `float64` product by `1.2` are modelled exactly. -/
theorem estimateTranscriptionCost_known_duration (fileSize d : Int) (language : String)
    (h0 : 0 ≤ d)
    (h1 : if language = "zh" ∨ language = "en" then ⌈(d : ℚ) / 60⌉ * 100 < 2 ^ 63
          else ⌈(d : ℚ) / 60⌉ * 120 < 2 ^ 53) :
    estimateTranscriptionCost fileSize (some d) language =
      if language = "zh" ∨ language = "en" then ⌈(d : ℚ) / 60⌉ * 100
      else ⌈(d : ℚ) / 60⌉ * 120 := by
  rw [ceil_div_sixty] at h1 ⊢
  have hmlo : 0 ≤ (d + 59) / 60 := by omega
  have hrange : (d + 59) / 60 * 100 < 2 ^ 63 := by
    by_cases hl : language = "zh" ∨ language = "en"
    · rw [if_pos hl] at h1
      exact h1
    · rw [if_neg hl] at h1
      omega
  have hw1 : wrapInt64 (d + 59) = d + 59 := wrapInt64_of_range _ (by omega) (by omega)
  have hm : Int.tdiv (d + 59) 60 = (d + 59) / 60 := Int.tdiv_eq_ediv (by omega) (by omega)
  have hw2 : wrapInt64 ((d + 59) / 60 * 100) = (d + 59) / 60 * 100 :=
    wrapInt64_of_range _ (by omega) hrange
  unfold estimateTranscriptionCost
  simp only [hw1, hm, hw2]
  by_cases hl : language = "zh" ∨ language = "en"
  · have hb : (language != "zh" && language != "en") = false := by
      rcases hl with h | h <;> simp [h]
    rw [if_pos hl, hb]
    simp
  · have hb : (language != "zh" && language != "en") = true := (language_test language).mpr hl
    rw [if_neg hl] at h1
    rw [if_neg hl, hb]
    simp only [if_true]
    obtain ⟨m, hmn⟩ : ∃ m : Nat, (m : Int) = (d + 59) / 60 := ⟨((d + 59) / 60).toNat, by omega⟩
    rw [← hmn, mul_comm (m : Int) 100, mulOnePointTwo_exact m (by omega)]
    ring

/-- C6, the stated instance: 120 seconds cost 200 in "en" and 240 in "fr",
whatever the file size (here 7 bytes and 10 MiB). -/
theorem estimateTranscriptionCost_known_duration_witness :
    estimateTranscriptionCost 7 (some 120) "en" = 200 ∧
    estimateTranscriptionCost (10 * 1024 * 1024) (some 120) "fr" = 240 := by
  have hc : ⌈((120 : Int) : ℚ) / 60⌉ = 2 := by
    rw [ceil_div_sixty]; decide
  have e1 := estimateTranscriptionCost_known_duration 7 120 "en" (by decide)
    (by rw [hc]; decide)
  have e2 := estimateTranscriptionCost_known_duration (10 * 1024 * 1024) 120 "fr"
    (by decide) (by rw [hc]; decide)
  rw [hc] at e1 e2
  exact ⟨by rw [e1]; decide, by rw [e2]; decide⟩

/-- C7: a 10 MiB upload without explicit duration in language "en" is billed one
minute (100), not the ten minutes (1000) of "one minute per MiB": the MiB count
is used as a number of seconds. -/
theorem estimateTranscriptionCost_ten_mebibytes :
    estimateTranscriptionCost (10 * 1024 * 1024) none "en" = 100 ∧
    estimateTranscriptionCost (10 * 1024 * 1024) none "en" ≠ 10 * 100 := by
  decide

/-- C8: without explicit duration the estimate is the cost of
`max(60, floor(fileSize / 1 MiB))` seconds rounded up to whole minutes, so every
file of at most 60 MiB is billed exactly one minute (100, or 120 outside
"zh"/"en"); `fileSize` ranges over the whole `int64` type. -/
theorem estimateTranscriptionCost_unknown_duration (fileSize : Int) (language : String)
    (h0 : -(2 ^ 63) ≤ fileSize) (h1 : fileSize < 2 ^ 63) :
    estimateTranscriptionCost fileSize none language =
        ⌈((max 60 ⌊(fileSize : ℚ) / 1048576⌋ : Int) : ℚ) / 60⌉ *
          (if language = "zh" ∨ language = "en" then 100 else 120) ∧
    (fileSize ≤ 60 * 1048576 →
      estimateTranscriptionCost fileSize none language =
        if language = "zh" ∨ language = "en" then 100 else 120) := by
  have hfl := floor_div_mebibyte fileSize
  -- the duration the source computes
  have hdur : (if Int.tdiv fileSize (1024 * 1024) < 60 then 60
      else Int.tdiv fileSize (1024 * 1024)) = max 60 (fileSize / 1048576) := by
    by_cases hneg : 0 ≤ fileSize
    · have ht : Int.tdiv fileSize (1024 * 1024) = fileSize / 1048576 := by
        rw [Int.tdiv_eq_ediv hneg (by decide)]
        rfl
      rw [ht]
      split_ifs with h
      · omega
      · omega
    · have ht : Int.tdiv fileSize (1024 * 1024) ≤ 0 := by
        have hx : fileSize = -(-fileSize) := by omega
        rw [hx, Int.neg_tdiv, Int.tdiv_eq_ediv (by omega) (by decide)]
        have : 0 ≤ -fileSize / (1024 * 1024) := Int.ediv_nonneg (by omega) (by decide)
        omega
      rw [if_pos (by omega)]
      omega
  have hrange0 : 0 ≤ max 60 (fileSize / 1048576) := by omega
  have hrange1 : max 60 (fileSize / 1048576) < 2 ^ 50 := by omega
  have key := cost_of_estimated_duration fileSize (max 60 (fileSize / 1048576)) none language
    hdur hrange0 hrange1
  constructor
  · rw [hfl, ceil_div_sixty, key]
    split_ifs <;> rfl
  · intro hle
    have h60 : max 60 (fileSize / 1048576) = 60 := by omega
    rw [key, h60]
    split_ifs <;> rfl

/-- C8, the stated instance: a 10 MiB file without explicit duration in language
"fr" costs 120. -/
theorem estimateTranscriptionCost_unknown_duration_witness :
    estimateTranscriptionCost (10 * 1024 * 1024) none "fr" = 120 := by
  have h := (estimateTranscriptionCost_unknown_duration (10 * 1024 * 1024) "fr"
    (by decide) (by decide)).2 (by decide)
  rw [h]
  decide

/-! ## EngineSelector -/

theorem contains_iff (l : List String) (item : String) :
    contains l item = true ↔ ∃ e ∈ l, TrimSpace e = item := by
  induction l with
  | nil => simp [contains]
  | cons s rest ih =>
    by_cases h : TrimSpace s = item
    · simp [contains, h]
    · have hb : (TrimSpace s == item) = false := by simpa using h
      simp [contains, hb, ih, h]

/-- The test of the first loop is the candidate predicate. -/
theorem candidate_test (language fileType : String) (c : Channel) :
    (if c.Status = 1 then
      if (contains (Split c.SupportedLanguages ',') language ||
          contains (Split c.SupportedLanguages ',') "auto") = true then
        if contains (Split c.SupportedFormats ',') fileType = true then true else false
      else false
    else false) = decide (IsCandidate language fileType c) := by
  rw [Bool.eq_iff_iff, decide_eq_true_iff]
  unfold IsCandidate
  rw [← contains_iff, ← contains_iff, ← contains_iff]
  by_cases h1 : c.Status = 1
  · by_cases h2 : contains (Split c.SupportedLanguages ',') language = true
    · by_cases h3 : contains (Split c.SupportedFormats ',') fileType = true
      · simp [h1, h2, h3]
      · simp [h1, h2, h3]
    · by_cases h2a : contains (Split c.SupportedLanguages ',') "auto" = true
      · by_cases h3 : contains (Split c.SupportedFormats ',') fileType = true
        · simp [h1, h2a, h3]
        · simp [h1, h2a, h3]
      · simp [h1, h2, h2a]
  · simp [h1]

theorem availableChannels_foldl (language fileType : String) (channels acc : List Channel) :
    channels.foldl (fun acc channel =>
      if channel.Status = 1 then
        let supportedLangs := Split channel.SupportedLanguages ','
        if contains supportedLangs language || contains supportedLangs "auto" then
          let supportedFormats := Split channel.SupportedFormats ','
          if contains supportedFormats fileType then acc ++ [channel] else acc
        else acc
      else acc) acc =
    acc ++ channels.filter (fun c => decide (IsCandidate language fileType c)) := by
  induction channels generalizing acc with
  | nil => simp
  | cons c rest ih =>
    rw [List.foldl_cons, ih, List.filter_cons, ← candidate_test language fileType c]
    by_cases h1 : c.Status = 1
    · by_cases h2 : (contains (Split c.SupportedLanguages ',') language ||
          contains (Split c.SupportedLanguages ',') "auto") = true
      · by_cases h3 : contains (Split c.SupportedFormats ',') fileType = true
        · simp [h1, h2, h3]
        · simp [h1, h2, h3]
      · simp [h1, h2]
    · simp [h1]

/-- The channels kept by the first loop are the candidates, in list order. -/
theorem availableChannels_eq_filter (channels : List Channel) (language fileType : String) :
    availableChannels channels language fileType =
      channels.filter (fun c => decide (IsCandidate language fileType c)) := by
  unfold availableChannels
  rw [availableChannels_foldl]
  simp

theorem bestChannel_mem (first : Channel) (rest : List Channel) :
    bestChannel first rest ∈ first :: rest := by
  unfold bestChannel
  induction rest generalizing first with
  | nil => simp
  | cons c rest ih =>
    rw [List.foldl_cons]
    by_cases h : c.Weight > first.Weight
    · rw [if_pos h]
      have := ih c
      simp only [List.mem_cons] at this ⊢
      rcases this with h1 | h1
      · exact Or.inr (Or.inl h1)
      · exact Or.inr (Or.inr h1)
    · rw [if_neg h]
      have := ih first
      simp only [List.mem_cons] at this ⊢
      rcases this with h1 | h1
      · exact Or.inl h1
      · exact Or.inr (Or.inr h1)

/-- C10: `selectTranscriptionEngine` succeeds exactly when the channel list was
read and holds a candidate (enabled, language or "auto" listed, format listed,
entries trimmed and compared case-sensitively); the channel it returns is a
listed candidate; without candidate it fails with the no-engine error. -/
theorem selectTranscriptionEngine_candidates (channels : Except String (List Channel))
    (language fileType : String) :
    ((∃ c, selectTranscriptionEngine channels language fileType = Except.ok c) ↔
      ∃ l, channels = Except.ok l ∧ ∃ c ∈ l, IsCandidate language fileType c) ∧
    (∀ l c, channels = Except.ok l →
      selectTranscriptionEngine channels language fileType = Except.ok c →
      c ∈ l ∧ IsCandidate language fileType c) ∧
    (∀ l, channels = Except.ok l → (∀ c ∈ l, ¬ IsCandidate language fileType c) →
      selectTranscriptionEngine channels language fileType =
        Except.error (SelectError.noEngine language fileType)) := by
  have key : ∀ l c, selectTranscriptionEngine (Except.ok l) language fileType = Except.ok c →
      c ∈ l ∧ IsCandidate language fileType c := by
    intro l c h
    unfold selectTranscriptionEngine at h
    simp only [availableChannels_eq_filter] at h
    cases hf : l.filter (fun c => decide (IsCandidate language fileType c)) with
    | nil => rw [hf] at h; cases h
    | cons first rest =>
      rw [hf] at h
      simp only [Except.ok.injEq] at h
      have hm : c ∈ l.filter (fun c => decide (IsCandidate language fileType c)) := by
        rw [hf, ← h]
        exact bestChannel_mem first rest
      rw [List.mem_filter] at hm
      exact ⟨hm.1, of_decide_eq_true hm.2⟩
  have none_key : ∀ l, (∀ c ∈ l, ¬ IsCandidate language fileType c) →
      selectTranscriptionEngine (Except.ok l) language fileType =
        Except.error (SelectError.noEngine language fileType) := by
    intro l h
    have hf : l.filter (fun c => decide (IsCandidate language fileType c)) = [] := by
      rw [List.filter_eq_nil_iff]
      intro c hc
      simpa using h c hc
    unfold selectTranscriptionEngine
    simp only [availableChannels_eq_filter, hf]
  refine ⟨⟨?_, ?_⟩, ?_, ?_⟩
  · rintro ⟨c, hc⟩
    cases channels with
    | error e => cases hc
    | ok l => exact ⟨l, rfl, c, key l c hc⟩
  · rintro ⟨l, rfl, c, hc, hcand⟩
    by_contra hno
    have hall : ∀ c ∈ l, ¬ IsCandidate language fileType c := by
      intro c' hc' hcand'
      have hm : c' ∈ l.filter (fun c => decide (IsCandidate language fileType c)) :=
        List.mem_filter.mpr ⟨hc', decide_eq_true hcand'⟩
      apply hno
      unfold selectTranscriptionEngine
      simp only [availableChannels_eq_filter]
      cases hf : l.filter (fun c => decide (IsCandidate language fileType c)) with
      | nil => rw [hf] at hm; cases hm
      | cons first rest => exact ⟨_, rfl⟩
    exact hall c hc hcand
  · rintro l c rfl h
    exact key l c h
  · rintro l rfl h
    exact none_key l h

/-- C10 on a concrete list: of three channels only the second is a candidate for
language "en" and format "mp3" (its entries carry blanks; the first lists another
language, the third is disabled), and it is the one returned. -/
theorem selectTranscriptionEngine_candidates_witness :
    selectTranscriptionEngine (Except.ok [sampleChannelZh, sampleChannelEn, sampleChannelOff])
      "en" "mp3" = Except.ok sampleChannelEn ∧
    sampleChannelEn ∈ [sampleChannelZh, sampleChannelEn, sampleChannelOff] ∧
    IsCandidate "en" "mp3" sampleChannelEn :=
  ⟨rfl, (selectTranscriptionEngine_candidates _ "en" "mp3").2.1 _ _ rfl rfl⟩

/-! ## TaskOrchestrator: create -/

/-- C9: once the user is found, `CreateTranscriptionTask` rejects for
insufficient quota exactly when the balance is strictly below the estimate, and
it does so before the engine is selected (whatever the channel list holds); a
rejected request, for any reason, leaves the store as it was; an accepted
request appends exactly the returned task, which is pending and carries the
estimate as its quota cost.  A request is accepted exactly when the user is
found, the balance is at least the estimate, the selector returns a channel and
the insertion goes through; the task then has the key the database assigned, the
user as owner and the selected channel. -/
theorem CreateTranscriptionTask_quota_check (env : CreateEnv) (db : Store) (userID : Int)
    (tokenID : Option Int) (req : TranscriptionRequest) :
    ((∃ c q, (CreateTranscriptionTask env db userID tokenID req).2 =
        Except.error (CreateError.insufficientQuota c q)) ↔
      (env.userErr = none ∧
        db.quota userID < estimateTranscriptionCost req.FileSize req.Duration req.Language)) ∧
    (env.userErr = none →
      db.quota userID < estimateTranscriptionCost req.FileSize req.Duration req.Language →
      CreateTranscriptionTask env db userID tokenID req =
        (db, Except.error (CreateError.insufficientQuota
          (estimateTranscriptionCost req.FileSize req.Duration req.Language)
          (db.quota userID)))) ∧
    (∀ e, (CreateTranscriptionTask env db userID tokenID req).2 = Except.error e →
      (CreateTranscriptionTask env db userID tokenID req).1.tasks = db.tasks) ∧
    (∀ task, (CreateTranscriptionTask env db userID tokenID req).2 = Except.ok task →
      task.Status = TaskStatusPending ∧
      task.QuotaCost = estimateTranscriptionCost req.FileSize req.Duration req.Language ∧
      estimateTranscriptionCost req.FileSize req.Duration req.Language ≤ db.quota userID ∧
      (CreateTranscriptionTask env db userID tokenID req).1.tasks = db.tasks ++ [task]) ∧
    ((∃ task, (CreateTranscriptionTask env db userID tokenID req).2 = Except.ok task) ↔
      (env.userErr = none ∧
        estimateTranscriptionCost req.FileSize req.Duration req.Language ≤ db.quota userID ∧
        (∃ channel, selectTranscriptionEngine env.channels req.Language req.FileType
          = Except.ok channel) ∧
        env.insertOk = true)) ∧
    (∀ task channel, (CreateTranscriptionTask env db userID tokenID req).2 = Except.ok task →
      selectTranscriptionEngine env.channels req.Language req.FileType = Except.ok channel →
      task.ID = env.newID ∧ task.UserID = userID ∧ task.ChannelID = channel.Id) := by
  unfold CreateTranscriptionTask
  cases hu : env.userErr with
  | some e => simp
  | none =>
    by_cases hq : db.quota userID <
        estimateTranscriptionCost req.FileSize req.Duration req.Language
    · simp [hq]
    · have hle := not_lt.mp hq
      cases hs : selectTranscriptionEngine env.channels req.Language req.FileType with
      | error e => simp [hq]
      | ok channel =>
        cases hi : env.insertOk with
        | false => simp [hq, TranscriptionTask.Insert, hi]
        | true =>
          simp only [hq, TranscriptionTask.Insert, hi, if_true, if_false]
          refine ⟨by simp, by simp, by simp, ?_, ?_, ?_⟩
          · intro task ht
            simp only [Except.ok.injEq] at ht
            subst ht
            exact ⟨rfl, rfl, hle, rfl⟩
          · exact ⟨fun _ => ⟨trivial, hle, ⟨channel, rfl⟩, trivial⟩, fun _ => ⟨_, rfl⟩⟩
          · intro task ch ht hch
            simp only [Except.ok.injEq] at ht hch
            subst ht
            subst hch
            exact ⟨rfl, rfl, rfl⟩

/-- C9 on concrete requests with estimate 100: a balance of 99 is rejected for
insufficient quota although no channel is configured at all, and the store is
unchanged; a balance of exactly 100 is not rejected for quota; and with a channel
for "en" configured the request of a user holding exactly 100 is accepted: the
task table then holds one task, with key 1, pending, with quota cost 100. -/
theorem CreateTranscriptionTask_quota_check_witness :
    CreateTranscriptionTask sampleCreateEnv (sampleStore 99) 7 none sampleRequest =
      (sampleStore 99, Except.error (CreateError.insufficientQuota
        (estimateTranscriptionCost sampleRequest.FileSize sampleRequest.Duration
          sampleRequest.Language)
        ((sampleStore 99).quota 7))) ∧
    estimateTranscriptionCost sampleRequest.FileSize sampleRequest.Duration
      sampleRequest.Language = 100 ∧
    ¬ (∃ c q, (CreateTranscriptionTask sampleCreateEnv (sampleStore 100) 7 none
        sampleRequest).2 = Except.error (CreateError.insufficientQuota c q)) ∧
    (∃ task, (CreateTranscriptionTask sampleCreateEnvEn (sampleStore 100) 7 none
        sampleRequest).2 = Except.ok task) ∧
    (CreateTranscriptionTask sampleCreateEnvEn (sampleStore 100) 7 none
        sampleRequest).1.tasks.map (fun t => (t.ID, t.UserID, t.ChannelID, t.Status, t.QuotaCost))
      = [(1, 7, 2, "pending", 100)] :=
  ⟨(CreateTranscriptionTask_quota_check sampleCreateEnv (sampleStore 99) 7 none
      sampleRequest).2.1 rfl (by decide),
    by decide,
    fun h => absurd ((CreateTranscriptionTask_quota_check sampleCreateEnv (sampleStore 100) 7
      none sampleRequest).1.mp h).2 (by decide),
    (CreateTranscriptionTask_quota_check sampleCreateEnvEn (sampleStore 100) 7 none
      sampleRequest).2.2.2.2.1.mpr ⟨rfl, by decide, ⟨sampleChannelEn, rfl⟩, rfl⟩,
    rfl⟩

/-! ## Task persistence -/

theorem Column_assign_keys (t : TranscriptionTask) (c : Column) :
    (c.assign t).ID = t.ID ∧ (c.assign t).UserID = t.UserID ∧
      (c.assign t).QuotaCost = t.QuotaCost := by
  cases c <;> exact ⟨rfl, rfl, rfl⟩

/-- No column update touches the key, the owner or the quota cost of a row. -/
theorem assignColumns_keys (updates : List Column) (t : TranscriptionTask) :
    (assignColumns t updates).ID = t.ID ∧ (assignColumns t updates).UserID = t.UserID ∧
      (assignColumns t updates).QuotaCost = t.QuotaCost := by
  unfold assignColumns
  induction updates generalizing t with
  | nil => exact ⟨rfl, rfl, rfl⟩
  | cons c rest ih =>
    rw [List.foldl_cons]
    obtain ⟨h1, h2, h3⟩ := ih (c.assign t)
    obtain ⟨k1, k2, k3⟩ := Column_assign_keys t c
    exact ⟨h1.trans k1, h2.trans k2, h3.trans k3⟩

/-- The updates of `UpdateStatus` set status and progress to the arguments,
whatever the row held and whatever value the caller holds. -/
theorem statusUpdates_status (row task : TranscriptionTask) (status : String) (progress : Int)
    (errorMsg : String) (now : Nat) :
    (assignColumns row (statusUpdates task status progress errorMsg now)).Status = status ∧
    (assignColumns row (statusUpdates task status progress errorMsg now)).Progress
      = progress := by
  unfold statusUpdates assignColumns
  split_ifs <;> exact ⟨rfl, rfl⟩

/-- The updates of `SetResult` set the status to completed, whatever the row
held. -/
theorem resultUpdates_status (row task : TranscriptionTask) (result : TranscriptionResult)
    (path : String) (now : Nat) :
    (assignColumns row (resultUpdates task result path now)).Status = TaskStatusCompleted := by
  unfold resultUpdates assignColumns
  split_ifs <;> rfl

/-- Looking a task up after a column update of the rows with key `key`. -/
theorem GetTranscriptionTask_after_updates (db : Store) (key id userID : Int)
    (updates : List Column) (rows : List TranscriptionTask)
    (hrows : rows = db.tasks.map
      (fun row => if row.ID = key then assignColumns row updates else row)) :
    GetTranscriptionTask { db with tasks := rows } id userID =
      (GetTranscriptionTask db id userID).map
        (fun row => if row.ID = key then assignColumns row updates else row) := by
  subst hrows
  have hfun : ((fun row : TranscriptionTask => row.ID == id && row.UserID == userID) ∘
      (fun row => if row.ID = key then assignColumns row updates else row)) =
      (fun row : TranscriptionTask => row.ID == id && row.UserID == userID) := by
    funext row
    by_cases h : row.ID = key
    · simp [h, (assignColumns_keys updates row).1, (assignColumns_keys updates row).2.1]
    · simp [h]
  unfold GetTranscriptionTask
  rw [List.find?_map, hfun]

theorem GetTranscriptionTask_keys (db : Store) (id userID : Int) (task : TranscriptionTask)
    (h : GetTranscriptionTask db id userID = some task) :
    task.ID = id ∧ task.UserID = userID := by
  unfold GetTranscriptionTask at h
  have := List.find?_some h
  simpa using this

/-! ## TaskOrchestrator: user cancel -/

/-- C3: user cancel of a task the lookup finds.  If the task is completed or
failed the handler answers "already finished" and the store is untouched (no
status change, no refund).  Otherwise (in particular for a processing task), when
the status update goes through, the handler answers success, the stored task is
cancelled with its progress kept, and the quota cost is credited by exactly one
ledger call when it is positive and by none when it is zero; when the status
update fails nothing changes. -/
theorem CancelTranscriptionTask_spec (now : Nat) (updateOk : Bool) (db : Store)
    (taskID userID : Int) (task : TranscriptionTask)
    (hfind : GetTranscriptionTask db taskID userID = some task) :
    ((task.Status = TaskStatusCompleted ∨ task.Status = TaskStatusFailed) →
      CancelTranscriptionTask now updateOk db taskID userID =
        (db, CancelResponse.alreadyFinished)) ∧
    (¬ (task.Status = TaskStatusCompleted ∨ task.Status = TaskStatusFailed) →
      updateOk = true →
      (CancelTranscriptionTask now updateOk db taskID userID).2 = CancelResponse.cancelled ∧
      (∃ stored, GetTranscriptionTask (CancelTranscriptionTask now updateOk db taskID userID).1
          taskID userID = some stored ∧
        stored.Status = TaskStatusCancelled ∧ stored.Progress = task.Progress) ∧
      (0 < task.QuotaCost →
        (CancelTranscriptionTask now updateOk db taskID userID).1.ledger =
          db.ledger ++ [QuotaCall.increase userID task.QuotaCost] ∧
        (CancelTranscriptionTask now updateOk db taskID userID).1.quota userID =
          db.quota userID + task.QuotaCost) ∧
      (task.QuotaCost = 0 →
        (CancelTranscriptionTask now updateOk db taskID userID).1.ledger = db.ledger ∧
        (CancelTranscriptionTask now updateOk db taskID userID).1.quota = db.quota)) ∧
    (¬ (task.Status = TaskStatusCompleted ∨ task.Status = TaskStatusFailed) →
      updateOk = false →
      ∃ e, CancelTranscriptionTask now updateOk db taskID userID =
        (db, CancelResponse.updateFailed e)) := by
  obtain ⟨hid, _⟩ := GetTranscriptionTask_keys db taskID userID task hfind
  subst hid
  refine ⟨?_, ?_, ?_⟩
  · intro hfin
    unfold CancelTranscriptionTask
    rw [hfind]
    simp only [if_pos hfin]
  · intro hact hok
    subst hok
    have hq := (assignColumns_keys
      (statusUpdates task TaskStatusCancelled task.Progress "用户取消" now) task).2.2
    have hlook := GetTranscriptionTask_after_updates db task.ID task.ID userID
      (statusUpdates task TaskStatusCancelled task.Progress "用户取消" now) _ rfl
    rw [hfind] at hlook
    simp only [Option.map_some', if_true] at hlook
    have hst := statusUpdates_status task task TaskStatusCancelled task.Progress "用户取消" now
    by_cases hpos : 0 < task.QuotaCost
    · have hne : task.QuotaCost ≠ 0 := by omega
      have hval : CancelTranscriptionTask now true db task.ID userID =
          (IncreaseUserQuota { db with tasks := db.tasks.map (fun row =>
              if row.ID = task.ID then assignColumns row
                (statusUpdates task TaskStatusCancelled task.Progress "用户取消" now)
              else row) } userID task.QuotaCost, CancelResponse.cancelled) := by
        unfold CancelTranscriptionTask
        rw [hfind]
        simp only [if_neg hact, UpdateStatus, dbUpdates, if_true, hq, gt_iff_lt, hpos]
      rw [hval]
      refine ⟨rfl, ⟨_, hlook, hst⟩, fun _ => ⟨rfl, ?_⟩, fun h0 => absurd h0 hne⟩
      simp [IncreaseUserQuota]
    · have hval : CancelTranscriptionTask now true db task.ID userID =
          ({ db with tasks := db.tasks.map (fun row =>
              if row.ID = task.ID then assignColumns row
                (statusUpdates task TaskStatusCancelled task.Progress "用户取消" now)
              else row) }, CancelResponse.cancelled) := by
        unfold CancelTranscriptionTask
        rw [hfind]
        simp only [if_neg hact, UpdateStatus, dbUpdates, if_true, hq, gt_iff_lt, hpos,
          if_false]
      rw [hval]
      exact ⟨rfl, ⟨_, hlook, hst⟩, fun h => absurd h hpos, fun _ => ⟨rfl, rfl⟩⟩
  · intro hact hok
    subst hok
    unfold CancelTranscriptionTask
    rw [hfind]
    simp only [if_neg hact, UpdateStatus, dbUpdates]
    exact ⟨_, rfl⟩

/-- C3 on concrete tasks of quota cost 100 and balance 500: cancelling the
completed task is refused and changes nothing; cancelling the processing task
(progress 20) succeeds and credits 100 by one ledger call. -/
theorem CancelTranscriptionTask_spec_witness :
    CancelTranscriptionTask 2000 true (storeWith (sampleTask "completed" 100) 500) 1 7 =
      (storeWith (sampleTask "completed" 100) 500, CancelResponse.alreadyFinished) ∧
    (CancelTranscriptionTask 2000 true (storeWith (sampleTask "processing" 20) 500) 1 7).2 =
      CancelResponse.cancelled ∧
    (CancelTranscriptionTask 2000 true (storeWith (sampleTask "processing" 20) 500) 1 7).1.ledger
      = [QuotaCall.increase 7 100] ∧
    (CancelTranscriptionTask 2000 true (storeWith (sampleTask "processing" 20) 500) 1 7).1.quota 7
      = 600 :=
  ⟨(CancelTranscriptionTask_spec 2000 true (storeWith (sampleTask "completed" 100) 500) 1 7
      (sampleTask "completed" 100) rfl).1 (Or.inl rfl),
    ((CancelTranscriptionTask_spec 2000 true (storeWith (sampleTask "processing" 20) 500) 1 7
      (sampleTask "processing" 20) rfl).2.1 (by decide) rfl).1,
    (((CancelTranscriptionTask_spec 2000 true (storeWith (sampleTask "processing" 20) 500) 1 7
      (sampleTask "processing" 20) rfl).2.1 (by decide) rfl).2.2.1 (by decide)).1,
    (((CancelTranscriptionTask_spec 2000 true (storeWith (sampleTask "processing" 20) 500) 1 7
      (sampleTask "processing" 20) rfl).2.1 (by decide) rfl).2.2.1 (by decide)).2⟩

/-! ## TaskOrchestrator: background execution and the ledger -/

/-- C1: a background execution that fails after the pre-deduction while saving
the result, or in the completion update, marks the task failed and makes no
refund: the ledger holds the debit of 100 only and the balance stays at 400
instead of returning to 500.  The failure of the back-end call, in contrast, is
refunded by exactly one credit of 100. -/
theorem processTranscriptionAsync_failure_without_refund :
    storedStatus runSaveFailure.1 1 7 = some TaskStatusFailed ∧
    runSaveFailure.1.ledger = [QuotaCall.decrease 7 100] ∧
    runSaveFailure.1.quota 7 = 400 ∧
    storedStatus runSetResultFailure.1 1 7 = some TaskStatusFailed ∧
    runSetResultFailure.1.ledger = [QuotaCall.decrease 7 100] ∧
    runSetResultFailure.1.quota 7 = 400 ∧
    storedStatus runSubmitFailure.1 1 7 = some TaskStatusFailed ∧
    runSubmitFailure.1.ledger = [QuotaCall.decrease 7 100, QuotaCall.increase 7 100] ∧
    runSubmitFailure.1.quota 7 = 500 :=
  ⟨rfl, rfl, rfl, rfl, rfl, rfl, rfl, rfl, rfl⟩

/-- C2: a task created with the estimate 100 as quota cost and cancelled while
still pending is credited 100 although nothing was debited: the balance rises
from 500 to 600, the ledger holds one credit and no debit. -/
theorem cancel_refunds_without_debit :
    runCreateThenCancel.2 = CancelResponse.cancelled ∧
    storedStatus runCreateThenCancel.1 1 7 = some TaskStatusCancelled ∧
    runCreateThenCancel.1.ledger = [QuotaCall.increase 7 100] ∧
    totalDebited 7 runCreateThenCancel.1.ledger = 0 ∧
    totalRefunded 7 runCreateThenCancel.1.ledger = 100 ∧
    runCreateThenCancel.1.quota 7 = 600 :=
  ⟨rfl, rfl, rfl, rfl, rfl, rfl⟩

/-- C5: `ProcessTranscriptionTask` returns an error and leaves the task in an
active status when the stored-file record cannot be inserted (status uploading)
and when the update to processing fails (status uploading); only the failure to
save the upload marks the task failed. -/
theorem ProcessTranscriptionTask_error_leaves_active :
    runFileRecordFailure.2.2 = some (ProcessError.fileRecord "database error") ∧
    storedStatus runFileRecordFailure.1 1 7 = some TaskStatusUploading ∧
    runProcessingUpdateFailure.2.2 = some (ProcessError.statusUpdate "database error") ∧
    storedStatus runProcessingUpdateFailure.1 1 7 = some TaskStatusUploading ∧
    runUploadFailure.2.2 = some (ProcessError.saveFile "创建文件失败") ∧
    storedStatus runUploadFailure.1 1 7 = some TaskStatusFailed :=
  ⟨rfl, rfl, rfl, rfl, rfl, rfl⟩

/-! ## TaskOrchestrator: terminal states -/

/-- C4, refuted as stated: the sample task is cancelled by its owner while the
back-end call of its background execution is in flight (the stored status is
then cancelled), and the execution afterwards writes it completed; likewise a
status update on a stored cancelled task writes failed. -/
theorem terminal_status_overwritten :
    storedStatus (CancelTranscriptionTask 2500 true storeInFlight 1 7).1 1 7 =
      some TaskStatusCancelled ∧
    storedStatus runCancelledInFlight.1 1 7 = some TaskStatusCompleted ∧
    storedStatus (UpdateStatus (storeWith (sampleTask "cancelled" 20) 500) true
      (sampleTask "processing" 20) TaskStatusFailed 0 "转录失败" 3000).1 1 7 =
      some TaskStatusFailed :=
  ⟨rfl, rfl, rfl⟩

/-- C4, as the code has it: no write looks at the stored status.  `UpdateStatus`
and `SetResult`, the writes used by `ProcessTranscriptionTask`, by the background
execution and by the cancel handler itself, store their status whatever the
stored task holds.  The only guard is the test of the cancel handler on the row
it has read: a task read as completed or failed is refused and the handler writes
nothing; a task read in any other status is written cancelled, whatever the row
holds by the time of the write, a status completed in the meantime included.
With no other request between the handler's read and its write, a user cancel
leaves a stored completed, failed or cancelled status as it is. -/
theorem terminal_status_writes (now : Nat) (updateOk : Bool) (db : Store) (userID : Int)
    (task stored : TranscriptionTask) (status : String) (progress : Int) (errorMsg : String)
    (result : TranscriptionResult) (resultFilePath : String)
    (hfind : GetTranscriptionTask db task.ID userID = some stored) :
    ((stored.Status = TaskStatusCompleted ∨ stored.Status = TaskStatusFailed ∨
        stored.Status = TaskStatusCancelled) →
      storedStatus (CancelTranscriptionTask now updateOk db task.ID userID).1 task.ID userID =
        some stored.Status) ∧
    storedStatus (UpdateStatus db true task status progress errorMsg now).1 task.ID userID =
      some status ∧
    storedStatus (SetResult db true task result resultFilePath now).1 task.ID userID =
      some TaskStatusCompleted ∧
    CancelTranscriptionTaskAmid now updateOk id db task.ID userID =
      CancelTranscriptionTask now updateOk db task.ID userID ∧
    (∀ concurrent : Store → Store,
      ¬ (stored.Status = TaskStatusCompleted ∨ stored.Status = TaskStatusFailed) →
      (GetTranscriptionTask (concurrent db) task.ID userID).isSome = true →
      (CancelTranscriptionTaskAmid now true concurrent db task.ID userID).2 =
        CancelResponse.cancelled ∧
      storedStatus (CancelTranscriptionTaskAmid now true concurrent db task.ID userID).1
        task.ID userID = some TaskStatusCancelled) ∧
    (∀ concurrent : Store → Store,
      (stored.Status = TaskStatusCompleted ∨ stored.Status = TaskStatusFailed) →
      CancelTranscriptionTaskAmid now updateOk concurrent db task.ID userID =
        (concurrent db, CancelResponse.alreadyFinished)) := by
  obtain ⟨hid, _⟩ := GetTranscriptionTask_keys db task.ID userID stored hfind
  refine ⟨?_, ?_, ?_, rfl, ?_, ?_⟩
  · intro hterm
    by_cases hfin : stored.Status = TaskStatusCompleted ∨ stored.Status = TaskStatusFailed
    · have hval : CancelTranscriptionTask now updateOk db task.ID userID =
          (db, CancelResponse.alreadyFinished) := by
        unfold CancelTranscriptionTask
        rw [hfind]
        simp only [if_pos hfin]
      rw [hval]
      unfold storedStatus
      rw [hfind]
      rfl
    · have hcan : stored.Status = TaskStatusCancelled := by
        rcases hterm with h | h | h
        · exact absurd (Or.inl h) hfin
        · exact absurd (Or.inr h) hfin
        · exact h
      cases updateOk with
      | false =>
        have hval : CancelTranscriptionTask now false db task.ID userID =
            (db, CancelResponse.updateFailed "database error") := by
          unfold CancelTranscriptionTask
          rw [hfind]
          simp only [if_neg hfin, UpdateStatus, dbUpdates]
          rfl
        rw [hval]
        unfold storedStatus
        rw [hfind]
        rfl
      | true =>
        have hlook := GetTranscriptionTask_after_updates db stored.ID task.ID userID
          (statusUpdates stored TaskStatusCancelled stored.Progress "用户取消" now) _ rfl
        rw [hfind] at hlook
        simp only [Option.map_some', if_true] at hlook
        have hst := (statusUpdates_status stored stored TaskStatusCancelled stored.Progress
          "用户取消" now).1
        have hq := (assignColumns_keys
          (statusUpdates stored TaskStatusCancelled stored.Progress "用户取消" now) stored).2.2
        have hstat : storedStatus { db with tasks := db.tasks.map (fun row =>
              if row.ID = stored.ID then assignColumns row
                (statusUpdates stored TaskStatusCancelled stored.Progress "用户取消" now)
              else row) } task.ID userID = some stored.Status := by
          unfold storedStatus
          rw [hlook, Option.map_some', hst, hcan]
        by_cases hpos : 0 < stored.QuotaCost
        · have hval : CancelTranscriptionTask now true db task.ID userID =
              (IncreaseUserQuota { db with tasks := db.tasks.map (fun row =>
                  if row.ID = stored.ID then assignColumns row
                    (statusUpdates stored TaskStatusCancelled stored.Progress "用户取消" now)
                  else row) } userID stored.QuotaCost, CancelResponse.cancelled) := by
            unfold CancelTranscriptionTask
            rw [hfind]
            simp only [if_neg hfin, UpdateStatus, dbUpdates, if_true, hq, gt_iff_lt, hpos]
          rw [hval]
          exact hstat
        · have hval : CancelTranscriptionTask now true db task.ID userID =
              ({ db with tasks := db.tasks.map (fun row =>
                  if row.ID = stored.ID then assignColumns row
                    (statusUpdates stored TaskStatusCancelled stored.Progress "用户取消" now)
                  else row) }, CancelResponse.cancelled) := by
            unfold CancelTranscriptionTask
            rw [hfind]
            simp only [if_neg hfin, UpdateStatus, dbUpdates, if_true, hq, gt_iff_lt, hpos,
              if_false]
          rw [hval]
          exact hstat
  · have hlook := GetTranscriptionTask_after_updates db task.ID task.ID userID
      (statusUpdates task status progress errorMsg now) _ rfl
    rw [hfind] at hlook
    simp only [Option.map_some', hid, if_true] at hlook
    unfold storedStatus UpdateStatus dbUpdates
    simp only [if_true]
    rw [hlook, Option.map_some', (statusUpdates_status stored task status progress errorMsg
      now).1]
  · have hlook := GetTranscriptionTask_after_updates db task.ID task.ID userID
      (resultUpdates task result resultFilePath now) _ rfl
    rw [hfind] at hlook
    simp only [Option.map_some', hid, if_true] at hlook
    unfold storedStatus SetResult dbUpdates
    simp only [if_true]
    rw [hlook, Option.map_some', resultUpdates_status stored task result resultFilePath now]
  · intro concurrent hact hsome
    obtain ⟨later, hlater⟩ := Option.isSome_iff_exists.mp hsome
    have hlook := GetTranscriptionTask_after_updates (concurrent db) stored.ID task.ID userID
      (statusUpdates stored TaskStatusCancelled stored.Progress "用户取消" now) _ rfl
    rw [hlater] at hlook
    have hl : later.ID = stored.ID :=
      (GetTranscriptionTask_keys (concurrent db) task.ID userID later hlater).1.trans hid.symm
    simp only [Option.map_some', hl, if_true] at hlook
    have hst := (statusUpdates_status later stored TaskStatusCancelled stored.Progress
      "用户取消" now).1
    have hq := (assignColumns_keys
      (statusUpdates stored TaskStatusCancelled stored.Progress "用户取消" now) stored).2.2
    have hstat : storedStatus { concurrent db with tasks := (concurrent db).tasks.map (fun row =>
          if row.ID = stored.ID then assignColumns row
            (statusUpdates stored TaskStatusCancelled stored.Progress "用户取消" now)
          else row) } task.ID userID = some TaskStatusCancelled := by
      unfold storedStatus
      rw [hlook, Option.map_some', hst]
    by_cases hpos : 0 < stored.QuotaCost
    · have hval : CancelTranscriptionTaskAmid now true concurrent db task.ID userID =
          (IncreaseUserQuota { concurrent db with tasks := (concurrent db).tasks.map (fun row =>
              if row.ID = stored.ID then assignColumns row
                (statusUpdates stored TaskStatusCancelled stored.Progress "用户取消" now)
              else row) } userID stored.QuotaCost, CancelResponse.cancelled) := by
        unfold CancelTranscriptionTaskAmid
        rw [hfind]
        simp only [if_neg hact, UpdateStatus, dbUpdates, if_true, hq, gt_iff_lt, hpos]
      rw [hval]
      exact ⟨rfl, hstat⟩
    · have hval : CancelTranscriptionTaskAmid now true concurrent db task.ID userID =
          ({ concurrent db with tasks := (concurrent db).tasks.map (fun row =>
              if row.ID = stored.ID then assignColumns row
                (statusUpdates stored TaskStatusCancelled stored.Progress "用户取消" now)
              else row) }, CancelResponse.cancelled) := by
        unfold CancelTranscriptionTaskAmid
        rw [hfind]
        simp only [if_neg hact, UpdateStatus, dbUpdates, if_true, hq, gt_iff_lt, hpos,
          if_false]
      rw [hval]
      exact ⟨rfl, hstat⟩
  · intro concurrent hfin
    unfold CancelTranscriptionTaskAmid
    rw [hfind]
    simp only [if_pos hfin]

/-- C4, as the code has it, on the sample store: cancelling the cancelled task
again leaves it cancelled; the completion update writes completed over
cancelled; and a cancel that read the task as processing writes cancelled over
the completed status a background execution stored in the meantime. -/
theorem terminal_status_writes_witness :
    storedStatus (CancelTranscriptionTask 2600 true (storeWith (sampleTask "cancelled" 20) 500)
      1 7).1 1 7 = some "cancelled" ∧
    storedStatus (SetResult (storeWith (sampleTask "cancelled" 20) 500) true
      (sampleTask "processing" 20)
      { Text := "hello", Language := "en", Duration := 0, ConfidenceScore := 1,
        Segments := [], Words := [], Speakers := [] }
      "data/results/1_result.srt" 2600).1 1 7 = some TaskStatusCompleted ∧
    storedStatus (completeSampleTask (storeWith (sampleTask "processing" 20) 500)) 1 7
      = some TaskStatusCompleted ∧
    storedStatus (CancelTranscriptionTaskAmid 2600 true completeSampleTask
      (storeWith (sampleTask "processing" 20) 500) 1 7).1 1 7 = some TaskStatusCancelled :=
  ⟨(terminal_status_writes 2600 true (storeWith (sampleTask "cancelled" 20) 500) 7
      (sampleTask "processing" 20) (sampleTask "cancelled" 20) "failed" 0 ""
      { Text := "hello", Language := "en", Duration := 0, ConfidenceScore := 1,
        Segments := [], Words := [], Speakers := [] }
      "data/results/1_result.srt" rfl).1 (Or.inr (Or.inr rfl)),
    (terminal_status_writes 2600 true (storeWith (sampleTask "cancelled" 20) 500) 7
      (sampleTask "processing" 20) (sampleTask "cancelled" 20) "failed" 0 ""
      { Text := "hello", Language := "en", Duration := 0, ConfidenceScore := 1,
        Segments := [], Words := [], Speakers := [] }
      "data/results/1_result.srt" rfl).2.2.1,
    rfl,
    ((terminal_status_writes 2600 true (storeWith (sampleTask "processing" 20) 500) 7
      (sampleTask "processing" 20) (sampleTask "processing" 20) "failed" 0 "" helloResult
      "data/results/1_result.srt" rfl).2.2.2.2.1 completeSampleTask (by decide) rfl).2⟩

/-! ## Arithmetic on `float64` values -/

/-- Bracketing of a number of at least 54 bits by the shift that `roundFloat64`
applies to it. -/
theorem f64Shift_bracket (n : Nat) (h : 2 ^ 53 ≤ n) :
    ∃ s, f64Shift n n = s ∧ 1 ≤ s ∧ 2 ^ (s + 52) ≤ n ∧ n < 2 ^ (s + 53) := by
  obtain ⟨k, hk1, hk2⟩ := exists_pow_bracket n (by omega)
  have hk : 53 ≤ k := by
    by_contra hc
    have : 2 ^ (k + 1) ≤ 2 ^ 53 := Nat.pow_le_pow_right (by decide) (by omega)
    omega
  obtain ⟨s, hs⟩ : ∃ s, k = s + 52 := ⟨k - 52, by omega⟩
  subst hs
  have hfuel : s ≤ n := by
    have h1 : s < 2 ^ s := Nat.lt_two_pow s
    have h2 : 2 ^ s ≤ 2 ^ (s + 52) := Nat.pow_le_pow_right (by decide) (by omega)
    omega
  exact ⟨s, f64Shift_eq s n n hk1 hk2 hfuel, by omega, hk1, hk2⟩

/-- Rounding to 53 significant bits raises a number by at most the fraction
`2 ^ -53` of itself. -/
theorem roundFloat64_le (n : Nat) : roundFloat64 n * 2 ^ 53 ≤ n * (2 ^ 53 + 1) := by
  by_cases hsmall : n < 2 ^ 53
  · rw [roundFloat64_small n hsmall]
    omega
  obtain ⟨s, hs, hs1, hlo, _⟩ := f64Shift_bracket n (by omega)
  obtain ⟨j, rfl⟩ : ∃ j, s = j + 1 := ⟨s - 1, by omega⟩
  have hP : (2 : Nat) ^ (j + 1) = 2 * 2 ^ j := by ring
  have hlo' : 2 ^ j * 2 ^ 53 ≤ n := by
    have : (2 : Nat) ^ (j + 1 + 52) = 2 ^ j * 2 ^ 53 := by ring
    omega
  have hdm := Nat.div_add_mod n (2 ^ (j + 1))
  have hmod : n % 2 ^ (j + 1) < 2 ^ (j + 1) := Nat.mod_lt _ (Nat.pow_pos (by decide))
  unfold roundFloat64
  simp only [hs]
  set q := n / 2 ^ (j + 1) with hq
  set r := n % 2 ^ (j + 1) with hr
  have hn : n = 2 * 2 ^ j * q + r := by rw [← hP]; omega
  have hup : (q + 1) * 2 ^ (j + 1) * 2 ^ 53 ≤ n * (2 ^ 53 + 1) ∨ 2 * r < 2 ^ (j + 1) := by
    by_cases hc : 2 * r < 2 ^ (j + 1)
    · exact Or.inr hc
    · left
      have e1 : (q + 1) * 2 ^ (j + 1) = 2 * 2 ^ j * q + 2 * 2 ^ j := by rw [hP]; ring
      rw [e1]
      have hr2 : 2 ^ j ≤ r := by omega
      have e2 : (2 * 2 ^ j * q + 2 * 2 ^ j) * 2 ^ 53
          = (2 * 2 ^ j * q) * 2 ^ 53 + 2 * (2 ^ j * 2 ^ 53) := by ring
      have e3 : n * (2 ^ 53 + 1) = (2 * 2 ^ j * q) * 2 ^ 53 + r * 2 ^ 53 + n := by
        rw [hn]; ring
      rw [e2, e3]
      have h4 : 2 ^ j * 2 ^ 53 ≤ r * 2 ^ 53 := Nat.mul_le_mul_right _ hr2
      omega
  have hdown : q * 2 ^ (j + 1) * 2 ^ 53 ≤ n * (2 ^ 53 + 1) := by
    have e1 : q * 2 ^ (j + 1) ≤ n := by rw [hP]; rw [hn]; nlinarith
    calc q * 2 ^ (j + 1) * 2 ^ 53 ≤ n * 2 ^ 53 := Nat.mul_le_mul_right _ e1
      _ ≤ n * (2 ^ 53 + 1) := Nat.mul_le_mul_left _ (by omega)
  split_ifs with h1 h2 h3
  · exact hdown
  · rcases hup with h | h
    · exact h
    · exact absurd h h1
  · exact hdown
  · rcases hup with h | h
    · exact h
    · exact absurd h h1

/-- A significand below `2 ^ 53` times a power of two is kept by the rounding. -/
theorem roundFloat64_scaled (m e : Nat) (hm : m < 2 ^ 53) :
    roundFloat64 (m * 2 ^ e) = m * 2 ^ e := by
  by_cases hsmall : m * 2 ^ e < 2 ^ 53
  · exact roundFloat64_small _ hsmall
  obtain ⟨s, hs, _, hlo, _⟩ := f64Shift_bracket (m * 2 ^ e) (by omega)
  have hse : s ≤ e := by
    by_contra hc
    have h1 : 2 ^ (e + 1 + 52) ≤ 2 ^ (s + 52) := Nat.pow_le_pow_right (by decide) (by omega)
    have h2 : m * 2 ^ e < 2 ^ 53 * 2 ^ e := Nat.mul_lt_mul_of_pos_right hm (Nat.pow_pos (by decide))
    have h3 : (2 : Nat) ^ (e + 1 + 52) = 2 ^ 53 * 2 ^ e := by ring
    omega
  obtain ⟨i, rfl⟩ : ∃ i, e = s + i := ⟨e - s, by omega⟩
  have hdiv : m * 2 ^ (s + i) = (m * 2 ^ i) * 2 ^ s := by ring
  have hpos : 0 < 2 ^ s := Nat.pow_pos (by decide)
  unfold roundFloat64
  simp only [hs]
  rw [hdiv, Nat.mul_mod_left, Nat.mul_div_cancel _ hpos, if_pos (by omega)]

theorem natAbs_cast_of_nonneg (z : ℤ) (h : 0 ≤ z) : ((z.natAbs : ℕ) : ℚ) = (z : ℚ) := by
  lift z to ℕ using h
  simp

theorem roundBinary_of_nonneg (q : ℚ) (h : 0 ≤ q) :
    roundBinary q = (roundFloat64 q.num.natAbs : ℚ) / (q.den : ℚ) := by
  unfold roundBinary
  rw [if_neg (not_lt.mpr h), Rat.mkRat_eq_div]
  push_cast
  rfl

theorem roundBinary_nonneg (q : ℚ) (h : 0 ≤ q) : 0 ≤ roundBinary q := by
  rw [roundBinary_of_nonneg q h]
  positivity

/-- A non-negative value whose numerator is below `2 ^ 53` is not changed by the
rounding. -/
theorem roundBinary_exact (q : ℚ) (h : 0 ≤ q) (hn : q.num.natAbs < 2 ^ 53) :
    roundBinary q = q := by
  rw [roundBinary_of_nonneg q h, roundFloat64_small _ hn]
  have hnum : 0 ≤ q.num := Rat.num_nonneg.mpr h
  have e : ((q.num.natAbs : ℕ) : ℚ) = (q.num : ℚ) := natAbs_cast_of_nonneg _ hnum
  rw [e]
  exact Rat.num_div_den q

/-- Relative error of the rounding of a non-negative value. -/
theorem roundBinary_le (q : ℚ) (h : 0 ≤ q) :
    roundBinary q * 2 ^ 53 ≤ q * (2 ^ 53 + 1) := by
  rw [roundBinary_of_nonneg q h]
  have hnum : 0 ≤ q.num := Rat.num_nonneg.mpr h
  have hden : (0 : ℚ) < q.den := by exact_mod_cast q.den_pos
  have e : ((q.num.natAbs : ℕ) : ℚ) = (q.num : ℚ) := natAbs_cast_of_nonneg _ hnum
  have hq : q = (q.num.natAbs : ℚ) / (q.den : ℚ) := by
    rw [e]; exact (Rat.num_div_den q).symm
  have hb : ((roundFloat64 q.num.natAbs : ℕ) : ℚ) * 2 ^ 53
      ≤ (q.num.natAbs : ℚ) * (2 ^ 53 + 1) := by
    exact_mod_cast roundFloat64_le q.num.natAbs
  calc (roundFloat64 q.num.natAbs : ℚ) / (q.den : ℚ) * 2 ^ 53
      = ((roundFloat64 q.num.natAbs : ℚ) * 2 ^ 53) / (q.den : ℚ) := by ring
    _ ≤ ((q.num.natAbs : ℚ) * (2 ^ 53 + 1)) / (q.den : ℚ) :=
        div_le_div_of_nonneg_right hb hden.le
    _ = (q.num.natAbs : ℚ) / (q.den : ℚ) * (2 ^ 53 + 1) := by ring
    _ = q * (2 ^ 53 + 1) := by rw [← hq]

/-- Truncation of a non-negative `float64` below `2 ^ 63` is its floor. -/
theorem floatToInt_of_nonneg (q : ℚ) (h0 : 0 ≤ q) (h1 : q < 2 ^ 63) : floatToInt q = ⌊q⌋ := by
  have hnum : 0 ≤ q.num := Rat.num_nonneg.mpr h0
  have ht : Int.tdiv q.num q.den = ⌊q⌋ := by
    rw [Int.tdiv_eq_ediv hnum (by exact_mod_cast Nat.zero_le _), Rat.floor_def]
  have hlo : 0 ≤ ⌊q⌋ := Int.floor_nonneg.mpr h0
  have hhi : ⌊q⌋ < 2 ^ 63 := by
    rw [Int.floor_lt]
    exact_mod_cast h1
  unfold floatToInt
  simp only [ht]
  rw [if_neg (by omega)]

/-- Integer part and fractional part of a non-negative `float64`: the integer
part converts back without loss, and the numerator of the fractional part stays
below `2 ^ 53`. -/
theorem float64_parts (t : ℚ) (h0 : 0 ≤ t) (hf : IsFloat64 t) :
    roundFloat64 ⌊t⌋.natAbs = ⌊t⌋.natAbs ∧ (Int.fract t).num.natAbs < 2 ^ 53 ∧
      (Int.fract t) * (2 ^ 53 + 1) < 2 ^ 53 := by
  obtain ⟨m, e, hm, he⟩ := hf
  rw [abs_of_nonneg h0] at he
  rcases Int.le_total 0 e with hpos | hneg
  · -- an integer
    obtain ⟨k, rfl⟩ := Int.eq_ofNat_of_zero_le hpos
    have ht : t = ((m * 2 ^ k : ℕ) : ℚ) := by
      rw [he, zpow_natCast]; push_cast; rfl
    have hfl : ⌊t⌋ = ((m * 2 ^ k : ℕ) : ℤ) := by
      rw [ht]; exact Int.floor_natCast _
    have hfr : Int.fract t = 0 := by
      rw [ht]; exact Int.fract_natCast _
    refine ⟨?_, ?_, ?_⟩
    · rw [hfl, Int.natAbs_ofNat]
      exact roundFloat64_scaled m k hm
    · rw [hfr]; decide
    · rw [hfr]; norm_num
  · -- a binary fraction with a numerator below 2 ^ 53
    obtain ⟨j, hj⟩ : ∃ j : ℕ, e = -(j : ℤ) := ⟨(-e).toNat, by omega⟩
    subst hj
    have hD : (0 : ℚ) < 2 ^ j := by positivity
    have ht : t = (m : ℚ) / 2 ^ j := by
      rw [he, zpow_neg, zpow_natCast]; ring
    have hflo : 0 ≤ ⌊t⌋ := Int.floor_nonneg.mpr h0
    have hfle : (⌊t⌋ : ℚ) ≤ t := Int.floor_le t
    have htm : t ≤ m := by
      rw [ht]
      apply div_le_self (by positivity)
      exact_mod_cast Nat.one_le_two_pow
    have hfl_le : ⌊t⌋ ≤ (m : ℤ) := by
      have : (⌊t⌋ : ℚ) ≤ (m : ℚ) := le_trans hfle htm
      exact_mod_cast this
    have hfl_lt : ⌊t⌋.natAbs < 2 ^ 53 := by omega
    -- the fractional part as a quotient of integers
    set A : ℤ := (m : ℤ) - ⌊t⌋ * 2 ^ j with hA
    have hfr : Int.fract t = (A : ℚ) / 2 ^ j := by
      rw [Int.fract, hA, ht]
      push_cast
      field_simp
      ring
    have hfr0 : 0 ≤ Int.fract t := Int.fract_nonneg t
    have hfr1 : Int.fract t < 1 := Int.fract_lt_one t
    have hA0 : 0 ≤ A := by
      have : (0 : ℚ) ≤ (A : ℚ) / 2 ^ j := by rw [← hfr]; exact hfr0
      have h2 : (0 : ℚ) ≤ (A : ℚ) := by
        by_contra hc
        push_neg at hc
        have := div_neg_of_neg_of_pos hc hD
        linarith
      exact_mod_cast h2
    have hAm : A ≤ m := by
      have : 0 ≤ ⌊t⌋ * 2 ^ j := mul_nonneg hflo (by positivity)
      omega
    have hAD : (A : ℚ) < 2 ^ j := by
      have := hfr1
      rw [hfr, div_lt_one hD] at this
      exact this
    have hnum : (Int.fract t).num.natAbs < 2 ^ 53 := by
      have hdvd : (Int.fract t).num ∣ A := by
        have e1 : Int.fract t = Rat.divInt A ((2 ^ j : ℕ) : ℤ) := by
          rw [hfr, Rat.divInt_eq_div]; push_cast; rfl
        rw [e1]
        exact Rat.num_dvd A (by positivity)
      have hn0 : 0 ≤ (Int.fract t).num := Rat.num_nonneg.mpr hfr0
      rcases eq_or_lt_of_le hA0 with hz | hpos'
      · have : Int.fract t = 0 := by rw [hfr, ← hz]; simp
        rw [this]; decide
      · have hle := Int.le_of_dvd hpos' hdvd
        omega
    refine ⟨roundFloat64_small _ hfl_lt, hnum, ?_⟩
    rw [hfr, div_mul_eq_mul_div, div_lt_iff₀ hD]
    have hAq : (A : ℚ) ≤ (m : ℚ) := by exact_mod_cast hAm
    have hmq : (m : ℚ) ≤ 2 ^ 53 - 1 := by
      have : (m : ℚ) + 1 ≤ 2 ^ 53 := by exact_mod_cast (show m + 1 ≤ 2 ^ 53 by omega)
      linarith
    have hADz : A < 2 ^ j := by exact_mod_cast hAD
    have hAD1 : (A : ℚ) ≤ 2 ^ j - 1 := by
      have : (A : ℚ) + 1 ≤ 2 ^ j := by exact_mod_cast (show A + 1 ≤ 2 ^ j by omega)
      linarith
    rcases le_total ((2 : ℚ) ^ j) (2 ^ 53) with hc | hc
    · nlinarith
    · nlinarith

/-! ## ResultCodec: time stamps -/

theorem intToFloat_of_exact (n : Int) (h0 : 0 ≤ n) (h : roundFloat64 n.natAbs = n.natAbs) :
    intToFloat n = (n : ℚ) := by
  unfold intToFloat
  rw [roundBinary_of_nonneg _ (by exact_mod_cast h0)]
  simp only [Rat.num_intCast, Rat.den_intCast, h, Nat.cast_one, div_one]
  exact natAbs_cast_of_nonneg n h0

/-- Milliseconds of a non-negative `float64` time below `2 ^ 63`: the integer
part is the floor, the subtraction of the integer part is exact, and the product
of the fractional part by 1000, rounded as `float64`, stays below 1000. -/
theorem millisOf_spec (t : ℚ) (h0 : 0 ≤ t) (h1 : t < 2 ^ 63) (hf : IsFloat64 t) :
    floatToInt t = ⌊t⌋ ∧ millisOf t = ⌊float64Mul (Int.fract t) 1000⌋ ∧
      0 ≤ millisOf t ∧ millisOf t < 1000 := by
  obtain ⟨hint, hnum, hfrac⟩ := float64_parts t h0 hf
  have hfl := floatToInt_of_nonneg t h0 h1
  have hflo : 0 ≤ ⌊t⌋ := Int.floor_nonneg.mpr h0
  have hfr0 : 0 ≤ Int.fract t := Int.fract_nonneg t
  have hsub : float64Sub t (intToFloat (floatToInt t)) = Int.fract t := by
    rw [hfl, intToFloat_of_exact _ hflo hint]
    unfold float64Sub
    exact roundBinary_exact (Int.fract t) hfr0 hnum
  have hp0 : 0 ≤ Int.fract t * 1000 := by positivity
  have hv0 : 0 ≤ float64Mul (Int.fract t) 1000 := roundBinary_nonneg _ hp0
  have hv1 : float64Mul (Int.fract t) 1000 < 1000 := by
    have hle := roundBinary_le _ hp0
    unfold float64Mul
    nlinarith
  have hm : millisOf t = ⌊float64Mul (Int.fract t) 1000⌋ := by
    unfold millisOf
    rw [hsub]
    exact floatToInt_of_nonneg _ hv0 (lt_trans hv1 (by norm_num))
  refine ⟨hfl, hm, ?_, ?_⟩
  · rw [hm]; exact Int.floor_nonneg.mpr hv0
  · rw [hm, Int.floor_lt]; exact_mod_cast hv1

theorem zeroPad_length_ge (width n : Nat) : width ≤ (zeroPad width n).length := by
  unfold zeroPad
  rw [String.length_append]
  simp only [String.length, List.length_replicate]
  omega

theorem zeroPad_two_length : ∀ n, n < 60 → (zeroPad 2 n).length = 2 := by
  decide

set_option maxRecDepth 100000 in
theorem zeroPad_three_length : ∀ n, n < 1000 → (zeroPad 3 n).length = 3 := by
  decide

theorem sprintfPadded_of_nonneg (width : Nat) (n : Int) (h : 0 ≤ n) :
    sprintfPadded width n = zeroPad width n.toNat := by
  unfold sprintfPadded
  rw [if_neg (by omega)]
  congr 1
  omega

unseal Rat.add Rat.mul Rat.sub Rat.inv in
/-- C12, refuted as stated.  At `t = 2 ^ 63` seconds the conversion `int(t)` is no
longer the floor and every field is negative.  At the `float64` nearest to 0.009
the milliseconds are printed as 009, the truncation of the `float64` product of
the fractional part by 1000, while the product itself, truncated, is 8. -/
theorem formatTime_beyond_int_and_rounded :
    formatSRTTime (2 ^ 63) = "-2562047788015215:-30:-8,-9223372036854775808" ∧
    formatVTTTime (2 ^ 63) = "-2562047788015215:-30:-8.-9223372036854775808" ∧
    roundQuotient (mkRat 9 1000) = mkRat 5188146770730811 576460752303423488 ∧
    formatSRTTime (mkRat 5188146770730811 576460752303423488) = "00:00:00,009" ∧
    formatVTTTime (mkRat 5188146770730811 576460752303423488) = "00:00:00.009" ∧
    ⌊Int.fract (mkRat 5188146770730811 576460752303423488 : ℚ) * 1000⌋ = 8 := by
  refine ⟨by rfl, by rfl, by rfl, by rfl, by rfl, ?_⟩
  rw [Int.floor_eq_iff, Int.fract]
  have hfl : ⌊(mkRat 5188146770730811 576460752303423488 : ℚ)⌋ = 0 := by
    rw [Int.floor_eq_iff]
    constructor <;> norm_num [Rat.mkRat_eq_div]
  rw [hfl]
  constructor <;> norm_num [Rat.mkRat_eq_div]

/-- C12, as the code has it: for a non-negative `float64` time `t` below
`2 ^ 63` seconds, `formatSRTTime t` is "HH:MM:SS,mmm" and `formatVTTTime t` is the same with a period
before the milliseconds, where HH = floor(t) div 3600 (at least two digits, not
reduced modulo anything), MM = (floor(t) mod 3600) div 60 and SS = floor(t) mod 60
(two digits each, below 60) and mmm is the `float64` product of the fractional
part of `t` by 1000, truncated (three digits, below 1000). -/
theorem formatTime_spec (t : ℚ) (h0 : 0 ≤ t) (h1 : t < 2 ^ 63) (hf : IsFloat64 t) :
    formatSRTTime t =
      zeroPad 2 (⌊t⌋.toNat / 3600) ++ ":" ++ zeroPad 2 (⌊t⌋.toNat % 3600 / 60) ++ ":" ++
        zeroPad 2 (⌊t⌋.toNat % 60) ++ "," ++
        zeroPad 3 ⌊float64Mul (Int.fract t) 1000⌋.toNat ∧
    formatVTTTime t =
      zeroPad 2 (⌊t⌋.toNat / 3600) ++ ":" ++ zeroPad 2 (⌊t⌋.toNat % 3600 / 60) ++ ":" ++
        zeroPad 2 (⌊t⌋.toNat % 60) ++ "." ++
        zeroPad 3 ⌊float64Mul (Int.fract t) 1000⌋.toNat ∧
    2 ≤ (zeroPad 2 (⌊t⌋.toNat / 3600)).length ∧
    ⌊t⌋.toNat % 3600 / 60 < 60 ∧ (zeroPad 2 (⌊t⌋.toNat % 3600 / 60)).length = 2 ∧
    ⌊t⌋.toNat % 60 < 60 ∧ (zeroPad 2 (⌊t⌋.toNat % 60)).length = 2 ∧
    ⌊float64Mul (Int.fract t) 1000⌋.toNat < 1000 ∧
    (zeroPad 3 ⌊float64Mul (Int.fract t) 1000⌋.toNat).length = 3 := by
  obtain ⟨hfl, hm, hm0, hm1⟩ := millisOf_spec t h0 h1 hf
  have hflo : 0 ≤ ⌊t⌋ := Int.floor_nonneg.mpr h0
  obtain ⟨s, hs⟩ : ∃ s : ℕ, ⌊t⌋ = (s : ℤ) := ⟨⌊t⌋.toNat, by omega⟩
  have hh : Int.tdiv ⌊t⌋ 3600 = ((s / 3600 : ℕ) : ℤ) := by
    rw [hs, Int.tdiv_eq_ediv (by omega) (by decide)]; norm_cast
  have hmin : Int.tdiv (Int.tmod ⌊t⌋ 3600) 60 = ((s % 3600 / 60 : ℕ) : ℤ) := by
    rw [hs, Int.tmod_eq_emod (by omega) (by decide),
      Int.tdiv_eq_ediv (by omega) (by decide)]; norm_cast
  have hsec : Int.tmod ⌊t⌋ 60 = ((s % 60 : ℕ) : ℤ) := by
    rw [hs, Int.tmod_eq_emod (by omega) (by decide)]; norm_cast
  have hms : ⌊float64Mul (Int.fract t) 1000⌋.toNat < 1000 := by
    rw [← hm]; omega
  have hsn : ⌊t⌋.toNat = s := by omega
  have hmin60 : s % 3600 / 60 < 60 := by omega
  have hsec60 : s % 60 < 60 := Nat.mod_lt _ (by decide)
  refine ⟨?_, ?_, zeroPad_length_ge _ _, ?_, ?_, ?_, ?_, hms, zeroPad_three_length _ hms⟩
  · unfold formatSRTTime
    simp only [hfl, hh, hmin, hsec, hm]
    rw [sprintfPadded_of_nonneg _ _ (by omega), sprintfPadded_of_nonneg _ _ (by omega),
      sprintfPadded_of_nonneg _ _ (by omega),
      sprintfPadded_of_nonneg _ _ (by rw [← hm]; exact hm0)]
    simp only [Int.toNat_ofNat, hsn]
  · unfold formatVTTTime
    simp only [hfl, hh, hmin, hsec, hm]
    rw [sprintfPadded_of_nonneg _ _ (by omega), sprintfPadded_of_nonneg _ _ (by omega),
      sprintfPadded_of_nonneg _ _ (by omega),
      sprintfPadded_of_nonneg _ _ (by rw [← hm]; exact hm0)]
    simp only [Int.toNat_ofNat, hsn]
  · rw [hsn]; exact hmin60
  · rw [hsn]; exact zeroPad_two_length _ hmin60
  · rw [hsn]; exact hsec60
  · rw [hsn]; exact zeroPad_two_length _ hsec60

unseal Rat.add Rat.mul Rat.sub Rat.inv in
/-- C12 on the stated times: 0 gives 00:00:00,000 and 00:00:00.000; 3661.25 gives
01:01:01,250 and 01:01:01.250; 360000 gives 100:00:00,000, the hour field growing
beyond two digits. -/
theorem formatTime_spec_witness :
    formatSRTTime 0 = "00:00:00,000" ∧ formatVTTTime 0 = "00:00:00.000" ∧
    formatSRTTime (mkRat 14645 4) = "01:01:01,250" ∧
    formatVTTTime (mkRat 14645 4) = "01:01:01.250" ∧
    formatSRTTime 360000 = "100:00:00,000" :=
  ⟨(formatTime_spec 0 (by decide) (by decide) ⟨0, 0, by decide, by decide⟩).1.trans (by rfl),
    (formatTime_spec 0 (by decide) (by decide) ⟨0, 0, by decide, by decide⟩).2.1.trans (by rfl),
    (formatTime_spec (mkRat 14645 4) (by decide) (by decide)
      ⟨14645, -2, by decide, by decide⟩).1.trans (by rfl),
    (formatTime_spec (mkRat 14645 4) (by decide) (by decide)
      ⟨14645, -2, by decide, by decide⟩).2.1.trans (by rfl),
    (formatTime_spec 360000 (by decide) (by decide)
      ⟨360000, 0, by decide, by decide⟩).1.trans (by rfl)⟩

/-! ## ResultCodec: SRT and VTT -/

theorem foldl_append_string (l : List String) (acc : String) :
    l.foldl (fun r s => r ++ s) acc = acc ++ String.join l := by
  unfold String.join
  induction l generalizing acc with
  | nil => simp [String.append_empty]
  | cons a rest ih =>
    rw [List.foldl_cons, List.foldl_cons, ih, ih ("" ++ a), String.empty_append,
      String.append_assoc]

theorem join_cons (a : String) (l : List String) : String.join (a :: l) = a ++ String.join l := by
  have := foldl_append_string (a :: l) ""
  rw [String.empty_append] at this
  rw [← this]
  unfold String.join
  rw [List.foldl_cons, String.empty_append, foldl_append_string]
  rfl

theorem srtLoop_eq (segments : List TranscriptionSegment) (i : Nat) (srt : String) :
    srtLoop segments i srt =
      srt ++ String.join ((segments.enumFrom i).map (fun p => srtBlock (p.1 + 1) p.2)) := by
  induction segments generalizing i srt with
  | nil => simp [srtLoop, String.join, String.append_empty]
  | cons segment rest ih =>
    rw [srtLoop, ih, List.enumFrom_cons, List.map_cons, join_cons, String.append_assoc]
    rfl

theorem vttLoop_eq (segments : List TranscriptionSegment) (vtt : String) :
    vttLoop segments vtt = vtt ++ String.join (segments.map vttBlock) := by
  induction segments generalizing vtt with
  | nil => simp [vttLoop, String.join, String.append_empty]
  | cons segment rest ih =>
    rw [vttLoop, ih, List.map_cons, join_cons, String.append_assoc]
    rfl

theorem enumFrom_positions {α : Type} (l : List α) (i : Nat) :
    (l.enumFrom i).map (fun p => p.1 + 1) = List.range' (i + 1) l.length := by
  induction l generalizing i with
  | nil => rfl
  | cons a rest ih =>
    rw [List.enumFrom_cons, List.map_cons, ih, List.length_cons, List.range'_succ]

/-- C13: `ToSRT` of a result without segments is its text; otherwise it is the
concatenation, in segment order, of the cues "k\nSTART --> END\nTEXT\n\n", k being
the position of the segment counted from 1 (the `ID` of the segment is not read),
START and END being `formatSRTTime` of its bounds; the positions are 1 to n. -/
theorem ToSRT_spec (result : TranscriptionResult) :
    ToSRT result =
      (if result.Segments = [] then result.Text
       else String.join (result.Segments.enum.map (fun p => srtBlock (p.1 + 1) p.2))) ∧
    result.Segments.enum.map (fun p => p.1 + 1) = List.range' 1 result.Segments.length := by
  constructor
  · unfold ToSRT
    by_cases h : result.Segments = []
    · simp [h]
    · have hl : ¬ result.Segments.length = 0 := by
        simpa [List.length_eq_zero] using h
      rw [if_neg hl, if_neg h, srtLoop_eq, String.empty_append]
      rfl
  · exact enumFrom_positions result.Segments 0

/-- C14: `ToVTT` always starts with the header "WEBVTT\n\n"; without segments the
text follows, otherwise the cues "START --> END\nTEXT\n\n" in segment order, the
times being rendered by `formatVTTTime`, without index line. -/
theorem ToVTT_spec (result : TranscriptionResult) :
    ToVTT result =
      "WEBVTT\n\n" ++ (if result.Segments = [] then result.Text
        else String.join (result.Segments.map vttBlock)) := by
  unfold ToVTT
  by_cases h : result.Segments = []
  · simp [h]
  · have hl : ¬ result.Segments.length = 0 := by
      simpa [List.length_eq_zero] using h
    simp only [if_neg hl, if_neg h, vttLoop_eq]

/-! ## EngineSelector: the weighted choice -/

/-- The second loop returns an element of maximal weight, and every element
before it in the list is strictly lighter. -/
theorem bestChannel_first_max (first : Channel) (rest : List Channel) :
    (∀ c ∈ first :: rest, c.Weight ≤ (bestChannel first rest).Weight) ∧
    ∃ pre post, first :: rest = pre ++ bestChannel first rest :: post ∧
      ∀ c ∈ pre, c.Weight < (bestChannel first rest).Weight := by
  induction rest generalizing first with
  | nil =>
    refine ⟨?_, [], [], rfl, ?_⟩
    · intro c hc
      simp only [List.mem_singleton] at hc
      subst hc
      exact le_refl _
    · intro c hc
      cases hc
  | cons c rest ih =>
    by_cases h : c.Weight > first.Weight
    · have hb : bestChannel first (c :: rest) = bestChannel c rest := by
        unfold bestChannel
        rw [List.foldl_cons, if_pos h]
      rw [hb]
      obtain ⟨hmax, pre, post, hsplit, hpre⟩ := ih c
      have hc : c.Weight ≤ (bestChannel c rest).Weight := hmax c (List.mem_cons_self _ _)
      refine ⟨?_, first :: pre, post, ?_, ?_⟩
      · intro x hx
        rcases List.mem_cons.mp hx with rfl | hx'
        · omega
        · exact hmax x hx'
      · rw [hsplit]
        rfl
      · intro x hx
        rcases List.mem_cons.mp hx with rfl | hx'
        · omega
        · exact hpre x hx'
    · have hb : bestChannel first (c :: rest) = bestChannel first rest := by
        unfold bestChannel
        rw [List.foldl_cons, if_neg h]
      rw [hb]
      obtain ⟨hmax, pre, post, hsplit, hpre⟩ := ih first
      have hf : first.Weight ≤ (bestChannel first rest).Weight :=
        hmax first (List.mem_cons_self _ _)
      refine ⟨?_, ?_⟩
      · intro x hx
        rcases List.mem_cons.mp hx with rfl | hx'
        · exact hf
        · rcases List.mem_cons.mp hx' with rfl | hx''
          · omega
          · exact hmax x (List.mem_cons_of_mem _ hx'')
      · cases pre with
        | nil =>
          simp only [List.nil_append, List.cons.injEq] at hsplit
          refine ⟨[], c :: rest, ?_, ?_⟩
          · rw [← hsplit.1]
            rfl
          · intro x hx
            cases hx
        | cons p pre' =>
          simp only [List.cons_append, List.cons.injEq] at hsplit
          obtain ⟨hp, hrest⟩ := hsplit
          subst hp
          have hlt : first.Weight < (bestChannel first rest).Weight :=
            hpre first (List.mem_cons_self _ _)
          refine ⟨first :: c :: pre', post, ?_, ?_⟩
          · exact congrArg (fun l => first :: c :: l) hrest
          · intro x hx
            rcases List.mem_cons.mp hx with rfl | hx'
            · exact hlt
            · rcases List.mem_cons.mp hx' with rfl | hx''
              · omega
              · exact hpre x (List.mem_cons_of_mem _ hx'')

/-- C11: when the list holds a candidate, `selectTranscriptionEngine` returns a
candidate whose weight is the maximum over all candidates, and every candidate
before it in list order is strictly lighter: among candidates of maximal weight it
is the first. -/
theorem selectTranscriptionEngine_heaviest_first (channels : List Channel)
    (language fileType : String)
    (hne : channels.filter (fun c => decide (IsCandidate language fileType c)) ≠ []) :
    ∃ best, selectTranscriptionEngine (Except.ok channels) language fileType = Except.ok best ∧
      best ∈ channels.filter (fun c => decide (IsCandidate language fileType c)) ∧
      (∀ c ∈ channels.filter (fun c => decide (IsCandidate language fileType c)),
        c.Weight ≤ best.Weight) ∧
      ∃ pre post,
        channels.filter (fun c => decide (IsCandidate language fileType c)) =
          pre ++ best :: post ∧
        ∀ c ∈ pre, c.Weight < best.Weight := by
  cases hf : channels.filter (fun c => decide (IsCandidate language fileType c)) with
  | nil => exact absurd hf hne
  | cons first rest =>
    obtain ⟨hmax, pre, post, hsplit, hpre⟩ := bestChannel_first_max first rest
    refine ⟨bestChannel first rest, ?_, ?_, hmax, pre, post, hsplit, hpre⟩
    · unfold selectTranscriptionEngine
      simp only [availableChannels_eq_filter, hf]
    · rw [hsplit]
      exact List.mem_append_right _ (List.mem_cons_self _ _)

/-- C11 on the stated list: three matching channels of weights 5, 20 and 20, in
that order, yield the second channel. -/
theorem selectTranscriptionEngine_heaviest_first_witness :
    selectTranscriptionEngine
        (Except.ok [sampleChannelLight, sampleChannelHeavy, sampleChannelHeavyLater])
        "en" "mp3" = Except.ok sampleChannelHeavy ∧
    ∃ best, selectTranscriptionEngine
        (Except.ok [sampleChannelLight, sampleChannelHeavy, sampleChannelHeavyLater])
        "en" "mp3" = Except.ok best ∧
      best ∈ [sampleChannelLight, sampleChannelHeavy, sampleChannelHeavyLater].filter
        (fun c => decide (IsCandidate "en" "mp3" c)) ∧
      (∀ c ∈ [sampleChannelLight, sampleChannelHeavy, sampleChannelHeavyLater].filter
        (fun c => decide (IsCandidate "en" "mp3" c)), c.Weight ≤ best.Weight) ∧
      ∃ pre post,
        [sampleChannelLight, sampleChannelHeavy, sampleChannelHeavyLater].filter
          (fun c => decide (IsCandidate "en" "mp3" c)) = pre ++ best :: post ∧
        ∀ c ∈ pre, c.Weight < best.Weight :=
  ⟨rfl, selectTranscriptionEngine_heaviest_first
    [sampleChannelLight, sampleChannelHeavy, sampleChannelHeavyLater] "en" "mp3" (by decide)⟩

/-! ## AdapterContract: file validation -/

/-- C19: `BaseAdaptor.ValidateFile` answers FileTooLarge exactly when the size
exceeds `GetMaxFileSize()`, otherwise DurationTooLong exactly when the duration
exceeds `GetMaxDuration()`, otherwise nil; a zero `MaxFileSize` or `MaxDuration`
stands for 100 MiB and 3600 s, any other value is used as it is. -/
theorem ValidateFile_spec (b : BaseAdaptor) (filePath : String) (fileSize duration : Int) :
    (b.ValidateFile filePath fileSize duration =
        some (NewTranscriptionError ErrorCodeFileTooLarge "文件大小超出限制") ↔
      fileSize > b.GetMaxFileSize) ∧
    (b.ValidateFile filePath fileSize duration =
        some (NewTranscriptionError ErrorCodeDurationTooLong "音视频时长超出限制") ↔
      fileSize ≤ b.GetMaxFileSize ∧ duration > b.GetMaxDuration) ∧
    (b.ValidateFile filePath fileSize duration = none ↔
      fileSize ≤ b.GetMaxFileSize ∧ duration ≤ b.GetMaxDuration) ∧
    b.GetMaxFileSize = (if b.MaxFileSize = 0 then 100 * 1024 * 1024 else b.MaxFileSize) ∧
    b.GetMaxDuration = (if b.MaxDuration = 0 then 3600 else b.MaxDuration) := by
  have hne : NewTranscriptionError ErrorCodeFileTooLarge "文件大小超出限制" ≠
      NewTranscriptionError ErrorCodeDurationTooLong "音视频时长超出限制" := by decide
  refine ⟨?_, ?_, ?_, rfl, rfl⟩
  · unfold BaseAdaptor.ValidateFile
    by_cases h1 : fileSize > b.GetMaxFileSize
    · simp [h1]
    · by_cases h2 : duration > b.GetMaxDuration
      · simp only [if_neg h1, if_pos h2, Option.some.injEq]
        exact ⟨fun h => absurd h.symm hne, fun h => absurd h h1⟩
      · simp [h1, h2]
  · unfold BaseAdaptor.ValidateFile
    by_cases h1 : fileSize > b.GetMaxFileSize
    · simp only [if_pos h1, Option.some.injEq]
      exact ⟨fun h => absurd h hne, fun h => absurd h1 (not_lt.mpr h.1)⟩
    · by_cases h2 : duration > b.GetMaxDuration
      · simp only [if_neg h1, if_pos h2, true_iff]
        exact ⟨not_lt.mp h1, h2⟩
      · simp only [if_neg h1, if_neg h2]
        exact ⟨fun h => (by cases h), fun h => absurd h.2 h2⟩
  · unfold BaseAdaptor.ValidateFile
    by_cases h1 : fileSize > b.GetMaxFileSize
    · simp only [if_pos h1]
      exact ⟨fun h => (by cases h), fun h => absurd h1 (not_lt.mpr h.1)⟩
    · by_cases h2 : duration > b.GetMaxDuration
      · simp only [if_neg h1, if_pos h2]
        exact ⟨fun h => (by cases h), fun h => absurd h2 (not_lt.mpr h.2)⟩
      · simp only [if_neg h1, if_neg h2, true_iff]
        exact ⟨not_lt.mp h1, not_lt.mp h2⟩

/-- C20: the Whisper adaptor reports a size limit of 25 MiB, yet its
`ValidateFile` accepts a file of 30 MiB (and any file up to 100 MiB): the check
is the embedded `BaseAdaptor`'s, which asks its own `GetMaxFileSize`, and
`NewWhisperAdaptor` leaves `MaxFileSize` unset.  Only above 100 MiB is the file
refused. -/
theorem WhisperAdaptor_ValidateFile_ignores_own_limit :
    (NewWhisperAdaptor sampleConfig).GetMaxFileSize = 25 * 1024 * 1024 ∧
    (NewWhisperAdaptor sampleConfig).ValidateFile "talk.mp3" (30 * 1024 * 1024) 10 = none ∧
    (NewWhisperAdaptor sampleConfig).ValidateFile "talk.mp3" (100 * 1024 * 1024) 10 = none ∧
    (NewWhisperAdaptor sampleConfig).ValidateFile "talk.mp3" (100 * 1024 * 1024 + 1) 10 =
      some (NewTranscriptionError ErrorCodeFileTooLarge "文件大小超出限制") ∧
    (NewWhisperAdaptor sampleConfig).ValidateFile "talk.mp3" 5 3601 =
      some (NewTranscriptionError ErrorCodeDurationTooLong "音视频时长超出限制") :=
  ⟨rfl, rfl, rfl, rfl, rfl⟩


/-- The columns of `SetResult` for a task whose in-memory duration is already
set: neither `duration` nor `billing_duration` is among them. -/
theorem resultUpdates_of_known_duration (task : TranscriptionTask) (d : Int)
    (hd : task.Duration = some d) (result : TranscriptionResult) (path : String) (now : Nat) :
    resultUpdates task result path now =
      [Column.result_text result.Text, Column.result_file_path path,
       Column.confidence_score result.ConfidenceScore,
       Column.detected_language result.Language,
       Column.status TaskStatusCompleted, Column.progress 100, Column.updated_at now,
       Column.completed_at now] := by
  simp [resultUpdates, hd]

/-- After an answered Whisper `SubmitTask` with a positive duration the task value
carries the truncated duration in `Duration` and `BillingDuration`. -/
theorem WhisperAdaptor_SubmitTask_sets_duration (w : WhisperAdaptor)
    (http : WhisperRequest → WhisperCall) (task : TranscriptionTask)
    (response : WhisperResponse)
    (hcfg : w.ValidateConfig task = none)
    (hcall : ∀ request, http request = WhisperCall.answered response)
    (hpos : 0 < response.Duration) :
    (w.SubmitTask http task).2 = none ∧
    (w.SubmitTask http task).1.Duration = some (floatToInt response.Duration) ∧
    (w.SubmitTask http task).1.BillingDuration = some (floatToInt response.Duration) := by
  have hd : (convertWhisperResult response).Duration = response.Duration := rfl
  simp [WhisperAdaptor.SubmitTask, hcfg, hcall, hd, hpos]

unseal Rat.add Rat.mul Rat.sub Rat.inv in
set_option maxRecDepth 100000 in
/-- C17: the claim fails on the Whisper pipeline.  The back-end answers with one
segment from 0 to 1.5 seconds and every file and database call succeeds; the task
ends completed with `ResultFilePath` the SRT file, and the SRT file stored for it
holds the bare text "hello world" with no cue, because `GetResult` rebuilds the
result from the task without its segments.  Rendering the result that
`convertWhisperResult` built from the same answer would have given the indexed
document starting with cue 1. -/
theorem whisper_pipeline_srt_without_cues :
    storedStatus runWhisper.1 1 7 = some "completed" ∧
    (GetTranscriptionTask runWhisper.1 1 7).map (fun t => t.ResultFilePath)
      = some "data/results/1_result.srt" ∧
    readFile runWhisper.1 "data/results/1_result.srt" = some "hello world" ∧
    ((NewWhisperAdaptor sampleConfig).GetResult taskAfterWhisperSubmit).toOption.map
      (fun r => r.Segments) = some [] ∧
    (convertWhisperResult sampleResponse).Segments.length = 1 ∧
    ToSRT (convertWhisperResult sampleResponse)
      = "1\n00:00:00,000 --> 00:00:01,500\nhello world\n\n" := by
  refine ⟨by rfl, by rfl, by rfl, by rfl, by rfl, by rfl⟩

unseal Rat.add Rat.mul Rat.sub Rat.inv in
set_option maxRecDepth 100000 in
/-- C18: the claim fails on the Whisper pipeline.  The back-end reports a duration
of 12.75 seconds; `SubmitTask` puts 12 into the in-memory `Duration` and
`BillingDuration`, so the test `task.Duration == nil` of `SetResult` fails and the
columns it writes hold neither `duration` nor `billing_duration`, whatever the
result.  After the run the task is completed with progress 100, confidence and
language stored, and its stored `Duration` and `BillingDuration` are still unset. -/
theorem whisper_pipeline_skips_billing_duration :
    0 < sampleResponse.Duration ∧
    taskAfterWhisperSubmit.Duration = some 12 ∧
    taskAfterWhisperSubmit.BillingDuration = some 12 ∧
    (∀ (result : TranscriptionResult) (path : String) (now : Nat) (v : Int),
      Column.billing_duration v ∉ resultUpdates taskAfterWhisperSubmit result path now ∧
      Column.duration v ∉ resultUpdates taskAfterWhisperSubmit result path now) ∧
    (GetTranscriptionTask runWhisper.1 1 7).map
        (fun t => (t.Status, t.Progress, t.DetectedLanguage, t.ConfidenceScore.isSome))
      = some ("completed", 100, "en", true) ∧
    (GetTranscriptionTask runWhisper.1 1 7).map (fun t => (t.Duration, t.BillingDuration))
      = some (none, none) := by
  refine ⟨by decide, by rfl, by rfl, ?_, by rfl, by rfl⟩
  intro result path now v
  have hd : taskAfterWhisperSubmit.Duration = some 12 := by rfl
  rw [resultUpdates_of_known_duration taskAfterWhisperSubmit 12 hd]
  simp

/-- Reading a file back right after it was written. -/
theorem lookup_write_same (l : List (String × String)) (p c : String) :
    List.lookup p (l.filter (fun f => f.1 ≠ p) ++ [(p, c)]) = some c := by
  induction l with
  | nil => simp [List.lookup]
  | cons x rest ih =>
    by_cases h : x.1 = p
    · simpa [List.filter, h] using ih
    · have hne : (p == x.1) = false := by
        simp only [beq_eq_false_iff_ne, ne_eq]
        exact fun e => h e.symm
      simp only [List.filter, ne_eq, h, not_false_eq_true, decide_True, List.cons_append]
      obtain ⟨a, b⟩ := x
      simp only [List.lookup]
      simp only at hne
      rw [hne]
      simpa using ih

/-- Writing a file leaves the content of every other path as it was. -/
theorem lookup_write_other (l : List (String × String)) (p q c : String) (hq : q ≠ p) :
    List.lookup q (l.filter (fun f => f.1 ≠ p) ++ [(p, c)]) = List.lookup q l := by
  have hqp : (q == p) = false := by simpa using hq
  induction l with
  | nil => simp [List.lookup, hqp]
  | cons x rest ih =>
    obtain ⟨a, b⟩ := x
    by_cases h : a = p
    · have hqa : (q == a) = false := by rw [h]; exact hqp
      simp only [List.filter, ne_eq, h, not_true_eq_false, decide_False, List.lookup]
      rw [← h] at hqp ⊢
      simp only [hqa]
      simpa [h] using ih
    · simp only [List.filter, ne_eq, h, not_false_eq_true, decide_True, List.cons_append,
        List.lookup]
      cases hqa : (q == a)
      · simpa using ih
      · rfl

/-- Paths of two renderings with different formats differ. -/
theorem joinPath_format_ne (dir name f g : String) (h : f ≠ g) :
    joinPath dir (name ++ "_result." ++ f) ≠ joinPath dir (name ++ "_result." ++ g) := by
  intro e
  apply h
  have e2 := congrArg String.data e
  simp only [joinPath, String.data_append, List.append_assoc] at e2
  have e3 := List.append_cancel_left (List.append_cancel_left e2)
  have e4 := List.append_cancel_left (List.append_cancel_left e3)
  exact String.ext e4

/-- C16: when the result directory can be created, every file write succeeds and
the JSON encoding succeeds, `saveTranscriptionResult` returns no error for a task
whose requested format is one of json, srt, txt, vtt; afterwards the four files
`{taskID}_result.json`, `.srt`, `.txt`, `.vtt` of the result directory hold the
JSON text, `ToSRT`, the text verbatim and `ToVTT`; one stored-file record of kind
"result" per format has been appended, in that order; the task value differs from
the given one only in `ResultFilePath`, which is the path of the file in the
requested format; and the task table is untouched. -/
theorem saveTranscriptionResult_spec (env : AsyncEnv) (db : Store) (task : TranscriptionTask)
    (result : TranscriptionResult) (jsonText : TranscriptionResult → Except String String)
    (json : String)
    (hcodec : env.codec = resultCodec jsonText)
    (hjson : jsonText result = Except.ok json)
    (hmkdir : env.mkdirOk = true)
    (hwrite : ∀ path, env.writeOk path = true)
    (hrecord : ∀ format, env.recordOk format = true)
    (hformat : task.OutputFormat ∈
      [OutputFormatJSON, OutputFormatSRT, OutputFormatTXT, OutputFormatVTT]) :
    (saveTranscriptionResult env db task result).2.2 = none ∧
    readFile (saveTranscriptionResult env db task result).1 (resultPath env task "json")
      = some json ∧
    readFile (saveTranscriptionResult env db task result).1 (resultPath env task "srt")
      = some (ToSRT result) ∧
    readFile (saveTranscriptionResult env db task result).1 (resultPath env task "txt")
      = some result.Text ∧
    readFile (saveTranscriptionResult env db task result).1 (resultPath env task "vtt")
      = some (ToVTT result) ∧
    (saveTranscriptionResult env db task result).1.files
      = db.files ++ [resultFileRecord env task "json" json,
                     resultFileRecord env task "srt" (ToSRT result),
                     resultFileRecord env task "txt" result.Text,
                     resultFileRecord env task "vtt" (ToVTT result)] ∧
    (∀ record ∈ [resultFileRecord env task "json" json,
                 resultFileRecord env task "srt" (ToSRT result),
                 resultFileRecord env task "txt" result.Text,
                 resultFileRecord env task "vtt" (ToVTT result)],
      record.FileType = "result" ∧ record.TaskID = some task.ID) ∧
    (saveTranscriptionResult env db task result).2.1
      = { task with ResultFilePath := resultPath env task task.OutputFormat } ∧
    (saveTranscriptionResult env db task result).1.tasks = db.tasks := by
  have hjs : joinPath (joinPath env.storageConfig.LocalPath "results")
        (toString task.ID ++ "_result." ++ "json")
      ≠ joinPath (joinPath env.storageConfig.LocalPath "results")
        (toString task.ID ++ "_result." ++ "srt") :=
    joinPath_format_ne _ _ _ _ (by decide)
  have hjt : joinPath (joinPath env.storageConfig.LocalPath "results")
        (toString task.ID ++ "_result." ++ "json")
      ≠ joinPath (joinPath env.storageConfig.LocalPath "results")
        (toString task.ID ++ "_result." ++ "txt") :=
    joinPath_format_ne _ _ _ _ (by decide)
  have hjv : joinPath (joinPath env.storageConfig.LocalPath "results")
        (toString task.ID ++ "_result." ++ "json")
      ≠ joinPath (joinPath env.storageConfig.LocalPath "results")
        (toString task.ID ++ "_result." ++ "vtt") :=
    joinPath_format_ne _ _ _ _ (by decide)
  have hst : joinPath (joinPath env.storageConfig.LocalPath "results")
        (toString task.ID ++ "_result." ++ "srt")
      ≠ joinPath (joinPath env.storageConfig.LocalPath "results")
        (toString task.ID ++ "_result." ++ "txt") :=
    joinPath_format_ne _ _ _ _ (by decide)
  have hsv : joinPath (joinPath env.storageConfig.LocalPath "results")
        (toString task.ID ++ "_result." ++ "srt")
      ≠ joinPath (joinPath env.storageConfig.LocalPath "results")
        (toString task.ID ++ "_result." ++ "vtt") :=
    joinPath_format_ne _ _ _ _ (by decide)
  have htv : joinPath (joinPath env.storageConfig.LocalPath "results")
        (toString task.ID ++ "_result." ++ "txt")
      ≠ joinPath (joinPath env.storageConfig.LocalPath "results")
        (toString task.ID ++ "_result." ++ "vtt") :=
    joinPath_format_ne _ _ _ _ (by decide)
  have hrecords : ∀ record ∈ [resultFileRecord env task "json" json,
                 resultFileRecord env task "srt" (ToSRT result),
                 resultFileRecord env task "txt" result.Text,
                 resultFileRecord env task "vtt" (ToVTT result)],
      record.FileType = "result" ∧ record.TaskID = some task.ID := by
    intro record hmem
    simp only [List.mem_cons, List.mem_singleton, List.not_mem_nil, or_false] at hmem
    rcases hmem with h | h | h | h <;> subst h <;> exact ⟨rfl, rfl⟩
  simp only [List.mem_cons, List.mem_singleton, List.not_mem_nil, or_false, OutputFormatJSON,
    OutputFormatSRT, OutputFormatTXT, OutputFormatVTT] at hformat
  rcases hformat with hf | hf | hf | hf
  all_goals
    simp only [saveTranscriptionResult, saveFormats, renderFormat, hcodec, resultCodec, hjson,
      hmkdir, hwrite, hrecord, hf, FileStorage.Insert, readFile, resultPath, OutputFormatJSON,
      OutputFormatSRT, OutputFormatTXT, OutputFormatVTT, Bool.not_true, Bool.false_eq_true,
      if_false, if_true, reduceCtorEq, String.reduceEq]
    refine ⟨trivial, ?_, ?_, ?_, ?_, ?_, hrecords, ?_, trivial⟩
    · rw [lookup_write_other _ _ _ _ hjv, lookup_write_other _ _ _ _ hjt,
        lookup_write_other _ _ _ _ hjs, lookup_write_same]
    · rw [lookup_write_other _ _ _ _ hsv, lookup_write_other _ _ _ _ hst, lookup_write_same]
    · rw [lookup_write_other _ _ _ _ htv, lookup_write_same]
    · rw [lookup_write_same]
    · simp [resultFileRecord, List.append_assoc]
    · trivial

unseal Rat.add Rat.mul Rat.sub Rat.inv in
set_option maxRecDepth 100000 in
/-- C16 on the sample task (ID 1, format "srt") and the sample result: the four
files under data/results hold the JSON text, the SRT document with its cue, the
text and the VTT document; four records of kind "result" are stored; the task
points at the SRT file. -/
theorem saveTranscriptionResult_spec_witness :
    runSave.2.2 = none ∧
    readFile runSave.1 "data/results/1_result.json" = some "hello world" ∧
    readFile runSave.1 "data/results/1_result.srt"
      = some "1\n00:00:00,000 --> 00:00:01,500\nhello world\n\n" ∧
    readFile runSave.1 "data/results/1_result.txt" = some "hello world" ∧
    readFile runSave.1 "data/results/1_result.vtt"
      = some "WEBVTT\n\n00:00:00.000 --> 00:00:01.500\nhello world\n\n" ∧
    runSave.1.files.map (fun f => (f.FileType, f.StoredName, f.MimeType))
      = [("result", "1_result.json", "application/json"),
         ("result", "1_result.srt", "application/x-subrip"),
         ("result", "1_result.txt", "text/plain"),
         ("result", "1_result.vtt", "text/vtt")] ∧
    runSave.2.1.ResultFilePath = "data/results/1_result.srt" :=
  have h := saveTranscriptionResult_spec whisperAsyncEnv
    (storeWith (sampleTask "processing" 20) 500) (sampleTask "processing" 20) sampleResult
    (fun r => Except.ok r.Text) "hello world" rfl (by rfl) rfl (fun _ => rfl) (fun _ => rfl)
    (by decide)
  ⟨h.1, h.2.1, h.2.2.1, h.2.2.2.1, h.2.2.2.2.1,
    (congrArg (List.map (fun f => (f.FileType, f.StoredName, f.MimeType))) h.2.2.2.2.2.1).trans
      (by rfl),
    (congrArg (fun t => t.ResultFilePath) h.2.2.2.2.2.2.2.1).trans (by rfl)⟩

/-! ## ResultCodec: JSON -/

/-- The search of `f64Scale` stops on its bound or on a quotient of at least 55
bits. -/
theorem f64Scale_spec : ∀ fuel n d : Nat,
    f64Scale fuel n d = fuel ∨ d * 2 ^ 54 ≤ n * 2 ^ (f64Scale fuel n d) := by
  intro fuel
  induction fuel with
  | zero => intro n d; left; rfl
  | succ f ih =>
    intro n d
    by_cases h : d * 2 ^ 54 ≤ n
    · right
      rw [f64Scale, if_pos h]
      simpa using h
    · rw [f64Scale, if_neg h]
      rcases ih (2 * n) d with h1 | h1
      · left; rw [h1]
      · right
        have e : n * 2 ^ (f64Scale f (2 * n) d + 1) = 2 * n * 2 ^ f64Scale f (2 * n) d := by
          ring
        rw [e]
        exact h1

/-- Numerator and denominator of a `float64` value: the denominator is a power
of two, the numerator a significand below `2 ^ 53` times a power of two, and
the numerator itself is below `2 ^ 53` unless the denominator is 1. -/
theorem float64_num_den (q : ℚ) (hf : IsFloat64 q) :
    ∃ j m i : Nat, q.den = 2 ^ j ∧ m < 2 ^ 53 ∧ q.num.natAbs = m * 2 ^ i ∧
      (j = 0 ∨ q.num.natAbs < 2 ^ 53) := by
  obtain ⟨m, e, hm, he⟩ := hf
  have habs : |q| = (q.num.natAbs : ℚ) / (q.den : ℚ) := by
    have h1 : q = (q.num : ℚ) / (q.den : ℚ) := (Rat.num_div_den q).symm
    have hd : (0 : ℚ) < q.den := by exact_mod_cast q.den_pos
    conv_lhs => rw [h1]
    rw [abs_div, abs_of_pos hd, Nat.cast_natAbs]
    push_cast
    rfl
  have hd : (0 : ℚ) < q.den := by exact_mod_cast q.den_pos
  rcases Int.le_total 0 e with hpos | hneg
  · obtain ⟨k, rfl⟩ := Int.eq_ofNat_of_zero_le hpos
    have h1 : (q.num.natAbs : ℚ) = ((m * 2 ^ k * q.den : ℕ) : ℚ) := by
      have := habs.symm.trans he
      rw [div_eq_iff hd.ne', zpow_natCast] at this
      rw [this]; push_cast; ring
    have h2 : q.num.natAbs = m * 2 ^ k * q.den := by exact_mod_cast h1
    have hcop : Nat.Coprime q.num.natAbs q.den := q.reduced
    have hdvd : q.den ∣ q.num.natAbs := ⟨m * 2 ^ k, by rw [h2]; ring⟩
    have hden : q.den = 1 := by
      have := Nat.Coprime.eq_one_of_dvd hcop.symm hdvd
      exact this
    refine ⟨0, m, k, by rw [hden]; rfl, hm, ?_, Or.inl rfl⟩
    rw [h2, hden, Nat.mul_one]
  · obtain ⟨j', hj⟩ : ∃ j : ℕ, e = -(j : ℤ) := ⟨(-e).toNat, by omega⟩
    subst hj
    have hP : (0 : ℚ) < 2 ^ j' := by positivity
    have h1 : (q.num.natAbs : ℚ) * 2 ^ j' = (m : ℚ) * q.den := by
      have := habs.symm.trans he
      rw [zpow_neg, zpow_natCast, div_eq_iff hd.ne'] at this
      rw [this]
      field_simp
    have h2 : q.num.natAbs * 2 ^ j' = m * q.den := by exact_mod_cast h1
    have hcop : Nat.Coprime q.num.natAbs q.den := q.reduced
    have hdvd : q.den ∣ 2 ^ j' := by
      have h3 : q.den ∣ q.num.natAbs * 2 ^ j' := ⟨m, by rw [h2]; ring⟩
      exact (Nat.Coprime.dvd_mul_left hcop.symm).mp h3
    obtain ⟨j, hjle, hden⟩ := (Nat.dvd_prime_pow Nat.prime_two).mp hdvd
    obtain ⟨t, rfl⟩ : ∃ t, j' = j + t := ⟨j' - j, by omega⟩
    have h4 : q.num.natAbs * 2 ^ t = m := by
      have h5 : q.num.natAbs * 2 ^ t * 2 ^ j = m * 2 ^ j := by
        rw [← hden, ← h2, hden]; ring
      exact Nat.eq_of_mul_eq_mul_right (Nat.pow_pos (by decide)) h5
    have hle : q.num.natAbs ≤ m := by
      rw [← h4]
      exact Nat.le_mul_of_pos_right _ (Nat.pow_pos (by decide))
    exact ⟨j, q.num.natAbs, 0, hden, by omega, by simp, Or.inr (by omega)⟩

/-- Rounding to the nearest `float64` keeps a `float64` value. -/
theorem roundQuotient_exact (q : ℚ) (hf : IsFloat64 q) : roundQuotient q = q := by
  obtain ⟨j, m, i, hden, hm, hnum, hsmall⟩ := float64_num_den q hf
  have hd : (0 : ℚ) < q.den := by exact_mod_cast q.den_pos
  have habs : |q| = (q.num.natAbs : ℚ) / (q.den : ℚ) := by
    have h1 : q = (q.num : ℚ) / (q.den : ℚ) := (Rat.num_div_den q).symm
    conv_lhs => rw [h1]
    rw [abs_div, abs_of_pos hd, Nat.cast_natAbs]
    push_cast
    rfl
  unfold roundQuotient
  by_cases h0 : q.num.natAbs = 0
  · simp only [h0, if_true]
    have : q.num = 0 := Int.natAbs_eq_zero.mp h0
    exact (Rat.num_eq_zero.mp this).symm
  simp only [h0, if_false]
  set k := f64Scale (q.den + 55) q.num.natAbs q.den with hk
  have hjk : j ≤ k := by
    rcases f64Scale_spec (q.den + 55) q.num.natAbs q.den with h1 | h1
    · rw [← hk] at h1
      have : j < 2 ^ j := Nat.lt_two_pow j
      omega
    · rw [← hk] at h1
      rcases hsmall with hj0 | hlt
      · omega
      · by_contra hc
        have h2 : 2 ^ k ≤ 2 ^ j := Nat.pow_le_pow_right (by decide) (by omega)
        have h3 : q.num.natAbs * 2 ^ k < 2 ^ 53 * 2 ^ j := by
          calc q.num.natAbs * 2 ^ k ≤ q.num.natAbs * 2 ^ j := Nat.mul_le_mul_left _ h2
            _ < 2 ^ 53 * 2 ^ j := Nat.mul_lt_mul_of_pos_right hlt (Nat.pow_pos (by decide))
        rw [hden] at h1
        have h4 : 2 ^ 53 * 2 ^ j ≤ 2 ^ j * 2 ^ 54 := by
          have : (2 : ℕ) ^ 54 = 2 * 2 ^ 53 := by norm_num
          have hp : 0 < 2 ^ j := Nat.pow_pos (by decide)
          nlinarith
        omega
  obtain ⟨t, ht⟩ : ∃ t, k = j + t := ⟨k - j, by omega⟩
  have hprod : q.num.natAbs * 2 ^ k = (q.num.natAbs * 2 ^ t) * q.den := by
    rw [ht, hden]; ring
  have hdpos : 0 < q.den := q.den_pos
  have hmod : q.num.natAbs * 2 ^ k % q.den = 0 := by
    rw [hprod]; exact Nat.mul_mod_left _ _
  have hdiv : q.num.natAbs * 2 ^ k / q.den = q.num.natAbs * 2 ^ t := by
    rw [hprod]; exact Nat.mul_div_cancel _ hdpos
  have hx : 2 * (q.num.natAbs * 2 ^ k / q.den)
      + (if q.num.natAbs * 2 ^ k % q.den = 0 then 0 else 1) = m * 2 ^ (i + t + 1) := by
    rw [hdiv, if_pos hmod, hnum]; ring
  rw [hx, roundFloat64_scaled m (i + t + 1) hm]
  have hval : mkRat ((m * 2 ^ (i + t + 1) : ℕ) : ℤ) (2 ^ (k + 1)) = |q| := by
    rw [Rat.mkRat_eq_div, habs, hnum, hden, ht]
    push_cast
    have hP : (0 : ℚ) < 2 ^ j := by positivity
    field_simp
    ring
  rw [hval]
  by_cases hneg : q < 0
  · rw [if_pos hneg, abs_of_neg hneg, neg_neg]
  · rw [if_neg hneg, abs_of_nonneg (not_lt.mp hneg)]

/-- Elements that each read back as written give a slice that reads back as
written. -/
theorem unmarshalElements_map {α : Type} (element : JSON → Except UnmarshalTypeError α)
    (marshal : α → JSON) (l : List α) (h : ∀ a ∈ l, element (marshal a) = Except.ok a) :
    unmarshalElements element (l.map marshal) = Except.ok l := by
  induction l with
  | nil => rfl
  | cons a rest ih =>
    have ha := h a (List.mem_cons_self a rest)
    have hrest := ih (fun b hb => h b (List.mem_cons_of_mem a hb))
    simp only [List.map_cons, unmarshalElements, ha, hrest]

/-- An `int` of the `int64` range reads back from the number written for it. -/
theorem unmarshalInt_number (current n : Int) (h1 : -(2 ^ 63) ≤ n) (h2 : n < 2 ^ 63) :
    unmarshalInt current (JSON.number n) = Except.ok n := by
  simp only [unmarshalInt, Rat.den_intCast, Rat.num_intCast, true_and]
  rw [if_pos ⟨h1, h2⟩]

/-- A `float64` reads back from the number written for it. -/
theorem unmarshalFloat_number (current q : ℚ) (h : IsFloat64 q) :
    unmarshalFloat current (JSON.number q) = Except.ok q := by
  simp only [unmarshalFloat, roundQuotient_exact q h]

/-- A segment reads back from the object written for it, with or without
speaker. -/
theorem TranscriptionSegment_roundtrip (s : TranscriptionSegment)
    (h1 : -(2 ^ 63) ≤ s.ID) (h2 : s.ID < 2 ^ 63) (hs : IsFloat64 s.Start)
    (he : IsFloat64 s.End) (hc : IsFloat64 s.Confidence) :
    TranscriptionSegment.unmarshal s.marshal = Except.ok s := by
  obtain ⟨id, start, end_, text, speaker, confidence⟩ := s
  simp only at h1 h2 hs he hc
  by_cases hsp : speaker = ""
  · subst hsp
    simp [TranscriptionSegment.marshal, TranscriptionSegment.unmarshal, unmarshalMembers,
      TranscriptionSegment.unmarshalMember, unmarshalInt_number _ _ h1 h2,
      unmarshalFloat_number _ _ hs, unmarshalFloat_number _ _ he, unmarshalFloat_number _ _ hc,
      unmarshalString, Except.map]
  · simp [TranscriptionSegment.marshal, TranscriptionSegment.unmarshal, unmarshalMembers,
      TranscriptionSegment.unmarshalMember, unmarshalInt_number _ _ h1 h2,
      unmarshalFloat_number _ _ hs, unmarshalFloat_number _ _ he, unmarshalFloat_number _ _ hc,
      unmarshalString, Except.map, hsp]

/-- A word reads back from the object written for it. -/
theorem TranscriptionWord_roundtrip (w : TranscriptionWord) (hs : IsFloat64 w.Start)
    (he : IsFloat64 w.End) (hc : IsFloat64 w.Confidence) :
    TranscriptionWord.unmarshal w.marshal = Except.ok w := by
  obtain ⟨word, start, end_, confidence⟩ := w
  simp only at hs he hc
  simp [TranscriptionWord.marshal, TranscriptionWord.unmarshal, unmarshalMembers,
    TranscriptionWord.unmarshalMember, unmarshalFloat_number _ _ hs,
    unmarshalFloat_number _ _ he, unmarshalFloat_number _ _ hc, unmarshalString, Except.map]

/-- A speaker reads back from the object written for it, whichever of its
optional fields are empty. -/
theorem TranscriptionSpeaker_roundtrip (s : TranscriptionSpeaker) :
    TranscriptionSpeaker.unmarshal s.marshal = Except.ok s := by
  obtain ⟨id, name, gender, language⟩ := s
  by_cases hn : name = "" <;> by_cases hg : gender = "" <;> by_cases hl : language = ""
  all_goals
    simp [TranscriptionSpeaker.marshal, TranscriptionSpeaker.unmarshal, unmarshalMembers,
      TranscriptionSpeaker.unmarshalMember, unmarshalString, Except.map, hn, hg, hl]

/-- C15: JSON round trip.  For every result a Go program can hold (finite
`float64` fields, segment identifiers in the `int` range), `FromJSON` on a new
value reads the document written by `ToJSON` back as the same result, field by
field and element by element, whether or not a segment has a speaker, a speaker
has its optional fields, or the three lists have elements; writing the result
read back gives the same document again. -/
theorem FromJSON_ToJSON_roundtrip (r : TranscriptionResult) (h : IsGoResult r) :
    FromJSON (ToJSON r) = Except.ok r ∧
    (FromJSON (ToJSON r)).map ToJSON = Except.ok (ToJSON r) := by
  have key : FromJSON (ToJSON r) = Except.ok r := by
    obtain ⟨text, language, duration, confidence, segments, words, speakers⟩ := r
    obtain ⟨hd, hc, hsegs, hwords⟩ := h
    simp only at hd hc hsegs hwords
    have hS : unmarshalElements TranscriptionSegment.unmarshal
        (segments.map TranscriptionSegment.marshal) = Except.ok segments :=
      unmarshalElements_map _ _ _ (fun s hs =>
        TranscriptionSegment_roundtrip s (hsegs s hs).1 (hsegs s hs).2.1 (hsegs s hs).2.2.1
          (hsegs s hs).2.2.2.1 (hsegs s hs).2.2.2.2)
    have hW : unmarshalElements TranscriptionWord.unmarshal
        (words.map TranscriptionWord.marshal) = Except.ok words :=
      unmarshalElements_map _ _ _ (fun w hw =>
        TranscriptionWord_roundtrip w (hwords w hw).1 (hwords w hw).2.1 (hwords w hw).2.2)
    have hP : unmarshalElements TranscriptionSpeaker.unmarshal
        (speakers.map TranscriptionSpeaker.marshal) = Except.ok speakers :=
      unmarshalElements_map _ _ _ (fun s _ => TranscriptionSpeaker_roundtrip s)
    by_cases h1 : segments = [] <;> by_cases h2 : words = [] <;> by_cases h3 : speakers = []
    all_goals
      simp [ToJSON, FromJSON, unmarshalMembers, TranscriptionResult.unmarshalMember,
        unmarshalString, unmarshalFloat_number _ _ hd, unmarshalFloat_number _ _ hc,
        unmarshalSlice, hS, hW, hP, Except.map, h1, h2, h3]
  exact ⟨key, by rw [key]; rfl⟩

unseal Rat.add Rat.mul Rat.sub Rat.inv in
/-- The sample result with every kind of entry is a value a Go program can hold. -/
theorem fullResult_isGoResult : IsGoResult fullResult := by
  refine ⟨⟨51, -2, by decide, by decide⟩, ⟨7, -3, by decide, by decide⟩, ?_, ?_⟩
  · intro s hs
    simp only [fullResult, List.mem_cons, List.mem_singleton, List.not_mem_nil, or_false] at hs
    rcases hs with rfl | rfl
    · exact ⟨by decide, by decide, ⟨0, 0, by decide, by decide⟩, ⟨3, -1, by decide, by decide⟩,
        ⟨3, -2, by decide, by decide⟩⟩
    · exact ⟨by decide, by decide, ⟨3, -1, by decide, by decide⟩, ⟨3, 0, by decide, by decide⟩,
        ⟨1, 0, by decide, by decide⟩⟩
  · intro w hw
    simp only [fullResult, List.mem_cons, List.mem_singleton, List.not_mem_nil, or_false] at hw
    rcases hw with rfl | rfl
    · exact ⟨⟨0, 0, by decide, by decide⟩, ⟨1, -1, by decide, by decide⟩,
        ⟨7, -3, by decide, by decide⟩⟩
    · exact ⟨⟨3, -1, by decide, by decide⟩, ⟨2, 0, by decide, by decide⟩,
        ⟨7, -3, by decide, by decide⟩⟩

unseal Rat.add Rat.mul Rat.sub Rat.inv in
/-- The sample result with nothing but a text is a value a Go program can hold. -/
theorem bareResult_isGoResult : IsGoResult bareResult :=
  ⟨⟨0, 0, by decide, by decide⟩, ⟨0, 0, by decide, by decide⟩,
    fun _ hs => absurd hs (List.not_mem_nil _), fun _ hw => absurd hw (List.not_mem_nil _)⟩

/-- C15 on the two sample results: the one with two segments (one without
speaker), two words and two speakers, and the one whose lists are empty, whose
document has the four scalar members only. -/
theorem FromJSON_ToJSON_roundtrip_witness :
    FromJSON (ToJSON fullResult) = Except.ok fullResult ∧
    FromJSON (ToJSON bareResult) = Except.ok bareResult ∧
    ToJSON bareResult = JSON.object [("text", JSON.string "hello"), ("language", JSON.string ""),
      ("duration", JSON.number 0), ("confidence_score", JSON.number 0)] :=
  ⟨(FromJSON_ToJSON_roundtrip fullResult fullResult_isGoResult).1,
    (FromJSON_ToJSON_roundtrip bareResult bareResult_isGoResult).1, rfl⟩

/-- Conversion of an integer of fewer than 54 bits to `float64` is exact. -/
theorem intToFloat_of_small (n : Int) (h : n.natAbs < 2 ^ 53) : intToFloat n = (n : ℚ) := by
  unfold intToFloat roundBinary
  simp only [Rat.num_intCast, Rat.den_intCast, roundFloat64_small _ h]
  rw [Rat.mkRat_eq_div]
  by_cases hn : (n : ℚ) < 0
  · rw [if_pos hn]
    have hn' : n < 0 := by exact_mod_cast hn
    have e : ((n.natAbs : ℕ) : ℤ) = -n := by omega
    rw [e]
    push_cast
    ring
  · rw [if_neg hn]
    have hn' : 0 ≤ n := by
      have := not_lt.mp hn
      exact_mod_cast this
    have e : ((n.natAbs : ℕ) : ℤ) = n := by omega
    rw [e]
    push_cast
    ring

/-! ## AdapterContract: the Whisper adaptor -/

/-- C21: the claim fails on its own instance.  The Whisper adaptor reports "nl"
among its languages and "json" among its output formats, yet `ValidateConfig`
refuses a task in "nl" with output "json" as an unsupported language, for every
configuration: the method is the embedded `BaseAdaptor`'s, which asks its own
`GetSupportedLanguages`, and `NewWhisperAdaptor` leaves `SupportedLanguages`
unset, so the fifteen codes of `constant.SupportedLanguages` apply.  `SubmitTask`
returns the same error without calling the back-end. -/
theorem WhisperAdaptor_ValidateConfig_ignores_own_languages (config : AdaptorConfig)
    (http : WhisperRequest → WhisperCall) :
    containsExact (NewWhisperAdaptor config).GetSupportedLanguages dutchTask.Language = true ∧
    containsExact (NewWhisperAdaptor config).GetSupportedOutputFormats dutchTask.OutputFormat
      = true ∧
    (NewWhisperAdaptor config).ValidateConfig dutchTask =
      some (NewTranscriptionError ErrorCodeUnsupportedLanguage "不支持的语言") ∧
    (NewWhisperAdaptor config).SubmitTask http dutchTask =
      (dutchTask, some (NewTranscriptionError ErrorCodeUnsupportedLanguage "不支持的语言")) := by
  have hv : (NewWhisperAdaptor config).ValidateConfig dutchTask =
      some (NewTranscriptionError ErrorCodeUnsupportedLanguage "不支持的语言") := by
    simp only [WhisperAdaptor.ValidateConfig, NewWhisperAdaptor, BaseAdaptor.ValidateConfig,
      BaseAdaptor.GetSupportedLanguages, List.length_nil, if_true]
    rfl
  refine ⟨by rfl, by rfl, hv, ?_⟩
  simp only [WhisperAdaptor.SubmitTask, hv]

/-- C23: Whisper `GetResult` returns an error exactly when the task is not
completed or its result text is empty, and the error code is then
TASK_NOT_FOUND; otherwise the result carries the task's result text, detected
language, confidence (0 when absent) and duration converted to `float64` (0
when absent; the conversion is exact up to `2 ^ 53` seconds), and no segment,
word or speaker.  The function returns nothing but the result: the task is only
read. -/
theorem WhisperAdaptor_GetResult_spec (w : WhisperAdaptor) (task : TranscriptionTask) :
    ((∃ e, w.GetResult task = Except.error e) ↔
      (task.Status ≠ TaskStatusCompleted ∨ task.ResultText = "")) ∧
    (∀ e, w.GetResult task = Except.error e → e.Code = "TASK_NOT_FOUND") ∧
    (∀ r, w.GetResult task = Except.ok r →
      r.Text = task.ResultText ∧ r.Language = task.DetectedLanguage ∧
      r.ConfidenceScore = task.ConfidenceScore.getD 0 ∧
      r.Duration = (task.Duration.map intToFloat).getD 0 ∧
      (∀ d : Int, task.Duration = some d → d.natAbs < 2 ^ 53 → r.Duration = (d : ℚ))) := by
  unfold WhisperAdaptor.GetResult
  by_cases h1 : task.Status ≠ TaskStatusCompleted
  · rw [if_pos h1]
    refine ⟨⟨fun _ => Or.inl h1, fun _ => ⟨_, rfl⟩⟩, ?_, ?_⟩
    · intro e he
      cases he
      rfl
    · intro r hr
      cases hr
  · rw [if_neg h1]
    by_cases h2 : task.ResultText = ""
    · rw [if_pos h2]
      refine ⟨⟨fun _ => Or.inr h2, fun _ => ⟨_, rfl⟩⟩, ?_, ?_⟩
      · intro e he
        cases he
        rfl
      · intro r hr
        cases hr
    · rw [if_neg h2]
      refine ⟨⟨?_, ?_⟩, ?_, ?_⟩
      · rintro ⟨e, he⟩
        cases he
      · rintro (h | h)
        · exact absurd h h1
        · exact absurd h h2
      · intro e he
        cases he
      · intro r hr
        cases hr
        refine ⟨rfl, rfl, ?_, ?_, ?_⟩
        · cases task.ConfidenceScore <;> rfl
        · cases task.Duration <;> rfl
        · intro d hd hsmall
          simp only [hd]
          exact intToFloat_of_small d hsmall

/-- C29: a result that Whisper `GetResult` returns has no segments, no words and
no speakers, so its SRT rendering is the task's result text and its VTT rendering
is the header followed by that text. -/
theorem WhisperAdaptor_GetResult_renderings (w : WhisperAdaptor) (task : TranscriptionTask)
    (r : TranscriptionResult) (h : w.GetResult task = Except.ok r) :
    r.Segments = [] ∧ r.Words = [] ∧ r.Speakers = [] ∧
    ToSRT r = task.ResultText ∧ ToVTT r = "WEBVTT\n\n" ++ task.ResultText := by
  unfold WhisperAdaptor.GetResult at h
  by_cases h1 : task.Status ≠ TaskStatusCompleted
  · rw [if_pos h1] at h
    cases h
  · rw [if_neg h1] at h
    by_cases h2 : task.ResultText = ""
    · rw [if_pos h2] at h
      cases h
    · rw [if_neg h2] at h
      cases h
      exact ⟨rfl, rfl, rfl, rfl, rfl⟩

unseal Rat.add Rat.mul Rat.sub Rat.inv in
set_option maxRecDepth 100000 in
/-- C29 on the task the Whisper `SubmitTask` leaves for the sample answer (one
segment from 0 to 1.5 seconds): the result read back has no segment, and its
renderings are "hello world" and the header followed by "hello world". -/
theorem WhisperAdaptor_GetResult_renderings_witness :
    (NewWhisperAdaptor sampleConfig).GetResult taskAfterWhisperSubmit
      = Except.ok { Text := "hello world", Language := "en", Duration := 12,
                    ConfidenceScore := roundQuotient (mkRat 39 40),
                    Segments := [], Words := [], Speakers := [] } ∧
    ToSRT { Text := "hello world", Language := "en", Duration := 12,
            ConfidenceScore := roundQuotient (mkRat 39 40),
            Segments := [], Words := [], Speakers := [] } = "hello world" ∧
    ToVTT { Text := "hello world", Language := "en", Duration := 12,
            ConfidenceScore := roundQuotient (mkRat 39 40),
            Segments := [], Words := [], Speakers := [] } = "WEBVTT\n\nhello world" :=
  have h : (NewWhisperAdaptor sampleConfig).GetResult taskAfterWhisperSubmit
      = Except.ok { Text := "hello world", Language := "en", Duration := 12,
                    ConfidenceScore := roundQuotient (mkRat 39 40),
                    Segments := [], Words := [], Speakers := [] } := by rfl
  ⟨h, (WhisperAdaptor_GetResult_renderings _ _ _ h).2.2.2.1,
    (WhisperAdaptor_GetResult_renderings _ _ _ h).2.2.2.2⟩

/-- C24, refuted as stated: a task that is already cancelled is terminal, yet
Whisper `CancelTask` returns no error for it and rewrites its error message
(empty before, "任务已取消" after). -/
theorem CancelTask_accepts_cancelled :
    (sampleTask "cancelled" 20).Status = TaskStatusCancelled ∧
    (sampleTask "cancelled" 20).ErrorMessage = "" ∧
    ((NewWhisperAdaptor sampleConfig).CancelTask (sampleTask "cancelled" 20)).2 = none ∧
    ((NewWhisperAdaptor sampleConfig).CancelTask (sampleTask "cancelled" 20)).1.Status
      = TaskStatusCancelled ∧
    ((NewWhisperAdaptor sampleConfig).CancelTask (sampleTask "cancelled" 20)).1.ErrorMessage
      = "任务已取消" :=
  ⟨rfl, rfl, rfl, rfl, rfl⟩

/-- C24, as the code has it: Whisper `CancelTask` returns an error exactly for a
task that is completed or failed; the error code is TASK_NOT_FOUND and the task
is left as it was.  For every other task, a cancelled one included, it returns
no error, and the task differs from the given one in the status, now cancelled,
and the error message, now "任务已取消", only. -/
theorem WhisperAdaptor_CancelTask_spec (w : WhisperAdaptor) (task : TranscriptionTask) :
    (((w.CancelTask task).2 ≠ none) ↔
      (task.Status = TaskStatusCompleted ∨ task.Status = TaskStatusFailed)) ∧
    (∀ e, (w.CancelTask task).2 = some e →
      e.Code = "TASK_NOT_FOUND" ∧ (w.CancelTask task).1 = task) ∧
    ((w.CancelTask task).2 = none →
      (w.CancelTask task).1 =
        { task with Status := TaskStatusCancelled, ErrorMessage := "任务已取消" }) := by
  unfold WhisperAdaptor.CancelTask
  by_cases h : task.Status = TaskStatusCompleted ∨ task.Status = TaskStatusFailed
  · rw [if_pos h]
    refine ⟨⟨fun _ => h, fun _ => by simp⟩, ?_, ?_⟩
    · intro e he
      simp only [Option.some.injEq] at he
      subst he
      exact ⟨rfl, rfl⟩
    · intro hn
      simp at hn
  · rw [if_neg h]
    refine ⟨⟨fun hn => absurd rfl hn, fun hc => absurd hc h⟩, ?_, ?_⟩
    · intro e he
      simp at he
    · intro _
      rfl

/-- C25: Whisper `QueryTaskStatus` never returns an error.  With a configured
time-out whose nanosecond count fits 64 bits, it changes the task exactly when
the status is processing and the time elapsed since creation is strictly more
than the time-out; the task then differs from the given one in the status, now
failed, the error message "任务超时" and the error code TIMEOUT, only.  In every
other case the task is returned as it was. -/
theorem WhisperAdaptor_QueryTaskStatus_spec (w : WhisperAdaptor) (elapsed : Int)
    (task : TranscriptionTask)
    (hlo : -(2 ^ 63) ≤ w.base.Config.Timeout * timeSecond)
    (hhi : w.base.Config.Timeout * timeSecond < 2 ^ 63) :
    (w.QueryTaskStatus elapsed task).2 = none ∧
    ((task.Status = TaskStatusProcessing ∧ w.base.Config.Timeout * timeSecond < elapsed) →
      (w.QueryTaskStatus elapsed task).1 =
        { task with Status := TaskStatusFailed, ErrorMessage := "任务超时",
                    ErrorCode := "TIMEOUT" }) ∧
    (¬ (task.Status = TaskStatusProcessing ∧ w.base.Config.Timeout * timeSecond < elapsed) →
      (w.QueryTaskStatus elapsed task).1 = task) := by
  have hw : wrapInt64 (w.base.Config.Timeout * timeSecond) = w.base.Config.Timeout * timeSecond :=
    wrapInt64_of_range _ hlo hhi
  unfold WhisperAdaptor.QueryTaskStatus
  rw [hw]
  by_cases h1 : task.Status = TaskStatusProcessing
  · by_cases h2 : elapsed > w.base.Config.Timeout * timeSecond
    · rw [if_pos h1, if_pos h2]
      exact ⟨rfl, fun _ => rfl, fun hn => absurd ⟨h1, h2⟩ hn⟩
    · rw [if_pos h1, if_neg h2]
      exact ⟨rfl, fun hc => absurd hc.2 h2, fun _ => rfl⟩
  · rw [if_neg h1]
    exact ⟨rfl, fun hc => absurd hc.1 h1, fun _ => rfl⟩

/-- C25 with the default time-out of 300 seconds: a processing task is left
alone after exactly 300 seconds and is failed with TIMEOUT one nanosecond later;
a pending task is left alone however long it has waited. -/
theorem WhisperAdaptor_QueryTaskStatus_spec_witness :
    ((NewWhisperAdaptor sampleConfig).QueryTaskStatus 300000000000
      (sampleTask "processing" 20)).1 = sampleTask "processing" 20 ∧
    ((NewWhisperAdaptor sampleConfig).QueryTaskStatus 300000000001
      (sampleTask "processing" 20)).1.Status = "failed" ∧
    ((NewWhisperAdaptor sampleConfig).QueryTaskStatus 300000000001
      (sampleTask "processing" 20)).1.ErrorCode = "TIMEOUT" ∧
    ((NewWhisperAdaptor sampleConfig).QueryTaskStatus 900000000000
      (sampleTask "pending" 0)).1 = sampleTask "pending" 0 :=
  ⟨(WhisperAdaptor_QueryTaskStatus_spec (NewWhisperAdaptor sampleConfig) 300000000000
      (sampleTask "processing" 20) (by decide) (by decide)).2.2 (by decide),
    congrArg (fun t => t.Status)
      ((WhisperAdaptor_QueryTaskStatus_spec (NewWhisperAdaptor sampleConfig) 300000000001
        (sampleTask "processing" 20) (by decide) (by decide)).2.1 (by decide)),
    congrArg (fun t => t.ErrorCode)
      ((WhisperAdaptor_QueryTaskStatus_spec (NewWhisperAdaptor sampleConfig) 300000000001
        (sampleTask "processing" 20) (by decide) (by decide)).2.1 (by decide)),
    (WhisperAdaptor_QueryTaskStatus_spec (NewWhisperAdaptor sampleConfig) 900000000000
      (sampleTask "pending" 0) (by decide) (by decide)).2.2 (by decide)⟩

/-! ## AdapterRegistry -/

/-- C22: `CreateAdaptor` fails exactly when the factory holds no creator for the
engine type, and the error then carries the code CONFIG_ERROR; after
`RegisterAdaptor(t, c)` the factory creates `c(config)` for `t`, a second
registration for `t` replaces the first, every other type is served as before,
and a new factory serves none. -/
theorem AdaptorFactory_spec {α : Type} (f : AdaptorFactory α) (t other : Int)
    (c first : AdaptorConfig → α) (config : AdaptorConfig) :
    ((∃ e, f.CreateAdaptor t config = Except.error e) ↔ f.adaptors t = none) ∧
    ((∃ e, f.CreateAdaptor t config = Except.error e ∧ e.Code = "CONFIG_ERROR") ↔
      f.adaptors t = none) ∧
    (f.RegisterAdaptor t c).CreateAdaptor t config = Except.ok (c config) ∧
    ((f.RegisterAdaptor t first).RegisterAdaptor t c).CreateAdaptor t config
      = Except.ok (c config) ∧
    (f.RegisterAdaptor t c).CreateAdaptor other config
      = (if other = t then Except.ok (c config) else f.CreateAdaptor other config) ∧
    (∃ e, (NewAdaptorFactory α).CreateAdaptor t config = Except.error e ∧
      e.Code = "CONFIG_ERROR") := by
  refine ⟨?_, ?_, ?_, ?_, ?_, ?_⟩
  · unfold AdaptorFactory.CreateAdaptor
    cases h : f.adaptors t with
    | none => exact ⟨fun _ => rfl, fun _ => ⟨_, rfl⟩⟩
    | some creator =>
      refine ⟨?_, fun hc => by cases hc⟩
      rintro ⟨e, he⟩
      cases he
  · unfold AdaptorFactory.CreateAdaptor
    cases h : f.adaptors t with
    | none => exact ⟨fun _ => rfl, fun _ => ⟨_, rfl, rfl⟩⟩
    | some creator =>
      refine ⟨?_, fun hc => by cases hc⟩
      rintro ⟨e, he, _⟩
      cases he
  · simp [AdaptorFactory.CreateAdaptor, AdaptorFactory.RegisterAdaptor]
  · simp [AdaptorFactory.CreateAdaptor, AdaptorFactory.RegisterAdaptor]
  · by_cases h : other = t
    · subst h
      simp [AdaptorFactory.CreateAdaptor, AdaptorFactory.RegisterAdaptor]
    · simp [AdaptorFactory.CreateAdaptor, AdaptorFactory.RegisterAdaptor, h]
  · exact ⟨_, rfl, rfl⟩

/-- C30, refuted as stated: engine type 2 is accepted by the administrative
handler, a channel of that type is what the engine selector returns for "en" and
"mp3", and the global factory has no creator for it: `CreateAdaptor` fails with
CONFIG_ERROR and `GetTranscriptionAdaptor` with "创建适配器失败". -/
theorem engine_type_without_adaptor :
    engineTypeAccepted 2 = true ∧
    selectTranscriptionEngine (Except.ok [sampleChannelAli]) "en" "mp3"
      = Except.ok sampleChannelAli ∧
    GlobalAdaptorFactory.CreateAdaptor sampleChannelAli.EngineType sampleConfig
      = Except.error (NewTranscriptionError "CONFIG_ERROR" "不支持的转录引擎类型") ∧
    GetTranscriptionAdaptor GlobalAdaptorFactory (Except.ok sampleChannelAli)
      = Except.error "创建适配器失败: 不支持的转录引擎类型" :=
  ⟨rfl, rfl, rfl, rfl⟩

/-- C30, as the code has it: the administrative handler accepts the engine types
1 to 9, the keys of `EngineNames`; the global factory, once the packages are
initialised, creates a Whisper adaptor for type 1 and fails with CONFIG_ERROR
for every other type, so a channel yields an adaptor exactly when its engine type
is 1. -/
theorem GlobalAdaptorFactory_spec (t : Int) (config : AdaptorConfig) (channel : Channel) :
    (engineTypeAccepted t = true ↔ (1 ≤ t ∧ t ≤ 9)) ∧
    GlobalAdaptorFactory.CreateAdaptor t config =
      (if t = 1 then Except.ok (NewWhisperAdaptor config)
       else Except.error (NewTranscriptionError "CONFIG_ERROR" "不支持的转录引擎类型")) ∧
    ((∃ adaptor, GetTranscriptionAdaptor GlobalAdaptorFactory (Except.ok channel)
        = Except.ok adaptor) ↔ channel.EngineType = 1) := by
  have hcreate : ∀ (t : Int) (config : AdaptorConfig),
      GlobalAdaptorFactory.CreateAdaptor t config =
      (if t = 1 then Except.ok (NewWhisperAdaptor config)
       else Except.error (NewTranscriptionError "CONFIG_ERROR" "不支持的转录引擎类型")) := by
    intro t config
    by_cases h : t = 1
    · subst h
      rfl
    · simp [GlobalAdaptorFactory, AdaptorFactory.CreateAdaptor, AdaptorFactory.RegisterAdaptor,
        NewAdaptorFactory, EngineTypeWhisper, h, ErrorCodeConfigError]
  refine ⟨?_, hcreate t config, ?_⟩
  · constructor
    · intro h
      by_contra hc
      have hne : t ≠ 1 ∧ t ≠ 2 ∧ t ≠ 3 ∧ t ≠ 4 ∧ t ≠ 5 ∧ t ≠ 6 ∧ t ≠ 7 ∧ t ≠ 8 ∧ t ≠ 9 := by
        omega
      obtain ⟨h1, h2, h3, h4, h5, h6, h7, h8, h9⟩ := hne
      have b1 : (t == 1) = false := beq_eq_false_iff_ne.mpr h1
      have b2 : (t == 2) = false := beq_eq_false_iff_ne.mpr h2
      have b3 : (t == 3) = false := beq_eq_false_iff_ne.mpr h3
      have b4 : (t == 4) = false := beq_eq_false_iff_ne.mpr h4
      have b5 : (t == 5) = false := beq_eq_false_iff_ne.mpr h5
      have b6 : (t == 6) = false := beq_eq_false_iff_ne.mpr h6
      have b7 : (t == 7) = false := beq_eq_false_iff_ne.mpr h7
      have b8 : (t == 8) = false := beq_eq_false_iff_ne.mpr h8
      have b9 : (t == 9) = false := beq_eq_false_iff_ne.mpr h9
      simp [engineTypeAccepted, EngineNames, List.lookup, EngineTypeWhisper, EngineTypeAliCloud,
        EngineTypeTencent, EngineTypeBaidu, EngineTypeXunfei, EngineTypeAzure, EngineTypeAWS,
        EngineTypeGoogle, EngineTypeLocal, b1, b2, b3, b4, b5, b6, b7, b8, b9] at h
    · rintro ⟨hlo, hhi⟩
      have hcases : t = 1 ∨ t = 2 ∨ t = 3 ∨ t = 4 ∨ t = 5 ∨ t = 6 ∨ t = 7 ∨ t = 8 ∨ t = 9 := by
        omega
      rcases hcases with h | h | h | h | h | h | h | h | h <;> subst h <;> rfl
  · unfold GetTranscriptionAdaptor
    simp only [hcreate]
    by_cases h : channel.EngineType = 1
    · simp only [h, if_true]
      exact ⟨fun _ => trivial, fun _ => ⟨_, rfl⟩⟩
    · simp only [if_neg h]
      refine ⟨?_, fun hc => absurd hc h⟩
      rintro ⟨a, ha⟩
      cases ha

/-! ## QuotaLedger: sign and monotonicity of the estimate -/

/-- C26: an explicit duration of -120 seconds, which the upload handler passes on
as parsed, is estimated at -100 in "en" and at -120 in "fr": the minutes are
computed from the duration as given.  Without explicit duration the estimate is
at least one minute, whatever the file size. -/
theorem estimateTranscriptionCost_negative_duration :
    estimateTranscriptionCost 5 (some (-120)) "en" = -100 ∧
    estimateTranscriptionCost 5 (some (-120)) "fr" = -120 ∧
    estimateTranscriptionCost 5 (some (-120)) "en" < 0 ∧
    estimateTranscriptionCost 0 none "en" = 100 := by
  decide

/-! ## Rounding to `float64`: order -/

/-- Shape of the rounding of a number of at least 54 bits: with `s` the shift,
`q` the kept bits and `r` the dropped ones, the result is `q` or `q + 1` times
`2 ^ s`, by the nearer and, on a tie, by the even one. -/
theorem roundFloat64_cases (n : Nat) (h : 2 ^ 53 ≤ n) :
    ∃ s q r : Nat, 1 ≤ s ∧ n = q * 2 ^ s + r ∧ r < 2 ^ s ∧ 2 ^ 52 ≤ q ∧ q < 2 ^ 53 ∧
      ((2 * r < 2 ^ s ∧ roundFloat64 n = q * 2 ^ s) ∨
       (2 ^ s < 2 * r ∧ roundFloat64 n = (q + 1) * 2 ^ s) ∨
       (2 * r = 2 ^ s ∧ q % 2 = 0 ∧ roundFloat64 n = q * 2 ^ s) ∨
       (2 * r = 2 ^ s ∧ q % 2 = 1 ∧ roundFloat64 n = (q + 1) * 2 ^ s)) := by
  obtain ⟨s, hs, hs1, hlo, hhi⟩ := f64Shift_bracket n h
  have hP : 0 < 2 ^ s := Nat.pow_pos (by decide)
  have hdm : n = n / 2 ^ s * 2 ^ s + n % 2 ^ s := by
    have := Nat.div_add_mod n (2 ^ s)
    rw [Nat.mul_comm] at this
    exact this.symm
  have hr : n % 2 ^ s < 2 ^ s := Nat.mod_lt _ hP
  have hq1 : 2 ^ 52 ≤ n / 2 ^ s := by
    rw [Nat.le_div_iff_mul_le hP]
    have : (2 : Nat) ^ (s + 52) = 2 ^ 52 * 2 ^ s := by ring
    omega
  have hq2 : n / 2 ^ s < 2 ^ 53 := by
    rw [Nat.div_lt_iff_lt_mul hP]
    have : (2 : Nat) ^ (s + 53) = 2 ^ 53 * 2 ^ s := by ring
    omega
  refine ⟨s, n / 2 ^ s, n % 2 ^ s, hs1, hdm, hr, hq1, hq2, ?_⟩
  unfold roundFloat64
  simp only [hs]
  by_cases c1 : 2 * (n % 2 ^ s) < 2 ^ s
  · left
    exact ⟨c1, by rw [if_pos c1]⟩
  · by_cases c2 : 2 ^ s < 2 * (n % 2 ^ s)
    · right; left
      exact ⟨c2, by rw [if_neg c1, if_pos c2]⟩
    · have c3 : 2 * (n % 2 ^ s) = 2 ^ s := by omega
      by_cases c4 : n / 2 ^ s % 2 = 0
      · right; right; left
        exact ⟨c3, c4, by rw [if_neg c1, if_neg c2, if_pos c4]⟩
      · right; right; right
        exact ⟨c3, by omega, by rw [if_neg c1, if_neg c2, if_neg c4]⟩

/-- Bounds of the rounding of a number of at least 54 bits. -/
theorem roundFloat64_bounds (n : Nat) (h : 2 ^ 53 ≤ n) :
    ∃ s : Nat, 2 ^ (s + 52) ≤ n ∧ n < 2 ^ (s + 53) ∧ 2 ^ (s + 52) ≤ roundFloat64 n ∧
      roundFloat64 n ≤ 2 ^ (s + 53) := by
  obtain ⟨s, q, r, _, hn, hr, hq1, hq2, hc⟩ := roundFloat64_cases n h
  have e52 : (2 : Nat) ^ (s + 52) = 2 ^ 52 * 2 ^ s := by ring
  have e53 : (2 : Nat) ^ (s + 53) = 2 ^ 53 * 2 ^ s := by ring
  have hP : 0 < 2 ^ s := Nat.pow_pos (by decide)
  have h1 : 2 ^ 52 * 2 ^ s ≤ q * 2 ^ s := Nat.mul_le_mul_right _ hq1
  have h2 : (q + 1) * 2 ^ s ≤ 2 ^ 53 * 2 ^ s := Nat.mul_le_mul_right _ (by omega)
  have h3 : (q + 1) * 2 ^ s = q * 2 ^ s + 2 ^ s := by ring
  refine ⟨s, by omega, by omega, ?_, ?_⟩
  · rcases hc with ⟨_, e⟩ | ⟨_, e⟩ | ⟨_, _, e⟩ | ⟨_, _, e⟩ <;> rw [e] <;> omega
  · rcases hc with ⟨_, e⟩ | ⟨_, e⟩ | ⟨_, _, e⟩ | ⟨_, _, e⟩ <;> rw [e] <;> omega

/-- Rounding to `float64` keeps the order. -/
theorem roundFloat64_mono (a b : Nat) (h : a ≤ b) : roundFloat64 a ≤ roundFloat64 b := by
  by_cases hb : b < 2 ^ 53
  · rw [roundFloat64_small a (by omega), roundFloat64_small b hb]
    exact h
  by_cases ha : a < 2 ^ 53
  · obtain ⟨s, hlo, _, hrlo, _⟩ := roundFloat64_bounds b (by omega)
    rw [roundFloat64_small a ha]
    have : 2 ^ 53 ≤ 2 ^ (s + 52) ∨ s = 0 := by
      rcases Nat.eq_zero_or_pos s with h0 | hpos
      · exact Or.inr h0
      · exact Or.inl (Nat.pow_le_pow_right (by decide) (by omega))
    rcases this with h1 | h0
    · omega
    · subst h0
      -- a shift of zero: `b` is below `2 ^ 53`
      omega
  obtain ⟨sa, qa, ra, _, hna, hra, hqa1, hqa2, hca⟩ := roundFloat64_cases a (by omega)
  obtain ⟨sb, qb, rb, _, hnb, hrb, hqb1, hqb2, hcb⟩ := roundFloat64_cases b (by omega)
  have hPa : 0 < 2 ^ sa := Nat.pow_pos (by decide)
  have hPb : 0 < 2 ^ sb := Nat.pow_pos (by decide)
  have ea : (qa + 1) * 2 ^ sa = qa * 2 ^ sa + 2 ^ sa := by ring
  have eb : (qb + 1) * 2 ^ sb = qb * 2 ^ sb + 2 ^ sb := by ring
  have hRa : roundFloat64 a ≤ (qa + 1) * 2 ^ sa := by
    rcases hca with ⟨_, e⟩ | ⟨_, e⟩ | ⟨_, _, e⟩ | ⟨_, _, e⟩ <;> rw [e] <;> omega
  have hRb : qb * 2 ^ sb ≤ roundFloat64 b := by
    rcases hcb with ⟨_, e⟩ | ⟨_, e⟩ | ⟨_, _, e⟩ | ⟨_, _, e⟩ <;> rw [e] <;> omega
  rcases Nat.lt_trichotomy sa sb with hlt | heq | hgt
  · -- a smaller shift: a power of two lies between the two results
    have h1 : (qa + 1) * 2 ^ sa ≤ 2 ^ 53 * 2 ^ sa := Nat.mul_le_mul_right _ (by omega)
    have h2 : 2 ^ 53 * 2 ^ sa ≤ 2 ^ 52 * 2 ^ sb := by
      have e1 : (2 : Nat) ^ 53 * 2 ^ sa = 2 ^ (sa + 53) := by ring
      have e2 : (2 : Nat) ^ 52 * 2 ^ sb = 2 ^ (sb + 52) := by ring
      rw [e1, e2]
      exact Nat.pow_le_pow_right (by decide) (by omega)
    have h3 : 2 ^ 52 * 2 ^ sb ≤ qb * 2 ^ sb := Nat.mul_le_mul_right _ hqb1
    omega
  · subst heq
    have hq : qa ≤ qb := by
      by_contra hc
      have h1 : (qb + 1) * 2 ^ sa ≤ qa * 2 ^ sa := Nat.mul_le_mul_right _ (by omega)
      omega
    rcases Nat.lt_or_ge qa qb with hlt | hge
    · have h1 : (qa + 1) * 2 ^ sa ≤ qb * 2 ^ sa := Nat.mul_le_mul_right _ (by omega)
      omega
    · have hqq : qa = qb := by omega
      subst hqq
      have hr : ra ≤ rb := by omega
      rcases hca with ⟨ca, e1⟩ | ⟨ca, e1⟩ | ⟨ca, pa, e1⟩ | ⟨ca, pa, e1⟩ <;>
        rcases hcb with ⟨cb, e2⟩ | ⟨cb, e2⟩ | ⟨cb, pb, e2⟩ | ⟨cb, pb, e2⟩ <;>
        rw [e1, e2] <;> omega
  · -- a larger shift is impossible for the smaller number
    have h1 : 2 ^ 52 * 2 ^ sa ≤ qa * 2 ^ sa := Nat.mul_le_mul_right _ hqa1
    have h2 : (qb + 1) * 2 ^ sb ≤ 2 ^ 53 * 2 ^ sb := Nat.mul_le_mul_right _ (by omega)
    have h3 : 2 ^ 53 * 2 ^ sb ≤ 2 ^ 52 * 2 ^ sa := by
      have e1 : (2 : Nat) ^ 53 * 2 ^ sb = 2 ^ (sb + 53) := by ring
      have e2 : (2 : Nat) ^ 52 * 2 ^ sa = 2 ^ (sa + 52) := by ring
      rw [e1, e2]
      exact Nat.pow_le_pow_right (by decide) (by omega)
    omega

/-- Rounding to 53 significant bits lowers a number by at most the fraction
`2 ^ -53` of itself. -/
theorem roundFloat64_ge (n : Nat) : n * (2 ^ 53 - 1) ≤ roundFloat64 n * 2 ^ 53 := by
  by_cases hsmall : n < 2 ^ 53
  · rw [roundFloat64_small n hsmall]
    exact Nat.mul_le_mul_left _ (by decide)
  obtain ⟨s, q, r, _, hn, hr, hq1, hq2, hc⟩ := roundFloat64_cases n (by omega)
  have hP : 0 < 2 ^ s := Nat.pow_pos (by decide)
  have hup : n ≤ roundFloat64 n ∨ (2 * r ≤ 2 ^ s ∧ roundFloat64 n = q * 2 ^ s) := by
    have eb : (q + 1) * 2 ^ s = q * 2 ^ s + 2 ^ s := by ring
    rcases hc with ⟨c, e⟩ | ⟨c, e⟩ | ⟨c, _, e⟩ | ⟨c, _, e⟩
    · exact Or.inr ⟨by omega, e⟩
    · left; rw [e]; omega
    · exact Or.inr ⟨by omega, e⟩
    · left; rw [e]; omega
  rcases hup with h | ⟨hr2, e⟩
  · calc n * (2 ^ 53 - 1) ≤ n * 2 ^ 53 := Nat.mul_le_mul_left _ (by decide)
      _ ≤ roundFloat64 n * 2 ^ 53 := Nat.mul_le_mul_right _ h
  · rw [e]
    have h1 : 2 ^ 52 * 2 ^ s ≤ q * 2 ^ s := Nat.mul_le_mul_right _ hq1
    -- `r * 2 ^ 53 ≤ 2 ^ 52 * 2 ^ s ≤ q * 2 ^ s`
    have h2 : r * 2 ^ 53 ≤ 2 ^ 52 * 2 ^ s := by
      have : r * 2 ^ 53 = 2 ^ 52 * (2 * r) := by ring
      rw [this]
      exact Nat.mul_le_mul_left _ hr2
    have h3 : n * (2 ^ 53 - 1) + n = n * 2 ^ 53 := by
      have : (2 : Nat) ^ 53 - 1 + 1 = 2 ^ 53 := by decide
      calc n * (2 ^ 53 - 1) + n = n * (2 ^ 53 - 1 + 1) := by ring
        _ = n * 2 ^ 53 := by rw [this]
    have h4 : n * 2 ^ 53 = q * 2 ^ s * 2 ^ 53 + r * 2 ^ 53 := by rw [hn]; ring
    omega

/-- Magnitude of `int(float64(cost) * 1.2)` as long as it fits the `int64`
type. -/
theorem mulOnePointTwo_of_fit (cost : Int)
    (h : roundFloat64 (roundFloat64 cost.natAbs * float64OnePointTwo) / 2 ^ 52 < 2 ^ 63) :
    mulOnePointTwo cost =
      if cost < 0 then
        -((roundFloat64 (roundFloat64 cost.natAbs * float64OnePointTwo) / 2 ^ 52 : Nat) : Int)
      else ((roundFloat64 (roundFloat64 cost.natAbs * float64OnePointTwo) / 2 ^ 52 : Nat) : Int)
    := by
  unfold mulOnePointTwo
  simp only
  rw [if_neg (by omega)]

/-- The magnitude of the product by `1.2` keeps the order of the costs. -/
theorem productMagnitude_mono (a b : Nat) (h : a ≤ b) :
    roundFloat64 (roundFloat64 a * float64OnePointTwo) / 2 ^ 52
      ≤ roundFloat64 (roundFloat64 b * float64OnePointTwo) / 2 ^ 52 :=
  Nat.div_le_div_right
    (roundFloat64_mono _ _ (Nat.mul_le_mul_right _ (roundFloat64_mono a b h)))

/-- Up to a cost of `2 ^ 62` the product by `1.2` fits the `int64` type. -/
theorem productMagnitude_fit (a : Nat) (h : a ≤ 2 ^ 62) :
    roundFloat64 (roundFloat64 a * float64OnePointTwo) / 2 ^ 52 < 2 ^ 63 := by
  have h1 := productMagnitude_mono a (2 ^ 62) h
  have h2 : roundFloat64 (roundFloat64 (2 ^ 62) * float64OnePointTwo) / 2 ^ 52 < 2 ^ 63 := by
    decide
  omega

/-- The magnitude of the product by `1.2` is at least the cost. -/
theorem productMagnitude_ge (a : Nat) :
    a ≤ roundFloat64 (roundFloat64 a * float64OnePointTwo) / 2 ^ 52 := by
  rw [Nat.le_div_iff_mul_le (by decide : 0 < 2 ^ 52)]
  have h1 := roundFloat64_ge a
  have h2 := roundFloat64_ge (roundFloat64 a * float64OnePointTwo)
  have hF : 2 ^ 158 ≤ float64OnePointTwo * ((2 ^ 53 - 1) * (2 ^ 53 - 1)) := by decide
  -- a * 2 ^ 158 ≤ p * 2 ^ 106
  have h3 : a * 2 ^ 158 ≤ a * (float64OnePointTwo * ((2 ^ 53 - 1) * (2 ^ 53 - 1))) :=
    Nat.mul_le_mul_left _ hF
  have h4 : a * (float64OnePointTwo * ((2 ^ 53 - 1) * (2 ^ 53 - 1)))
      = (a * (2 ^ 53 - 1)) * (float64OnePointTwo * (2 ^ 53 - 1)) := by ring
  have h5 : (a * (2 ^ 53 - 1)) * (float64OnePointTwo * (2 ^ 53 - 1))
      ≤ (roundFloat64 a * 2 ^ 53) * (float64OnePointTwo * (2 ^ 53 - 1)) :=
    Nat.mul_le_mul_right _ h1
  have h6 : (roundFloat64 a * 2 ^ 53) * (float64OnePointTwo * (2 ^ 53 - 1))
      = (roundFloat64 a * float64OnePointTwo * (2 ^ 53 - 1)) * 2 ^ 53 := by ring
  have h7 : (roundFloat64 a * float64OnePointTwo * (2 ^ 53 - 1)) * 2 ^ 53
      ≤ (roundFloat64 (roundFloat64 a * float64OnePointTwo) * 2 ^ 53) * 2 ^ 53 :=
    Nat.mul_le_mul_right _ h2
  have h8 : a * 2 ^ 158 ≤ roundFloat64 (roundFloat64 a * float64OnePointTwo) * 2 ^ 106 := by
    calc a * 2 ^ 158 ≤ a * (float64OnePointTwo * ((2 ^ 53 - 1) * (2 ^ 53 - 1))) := h3
      _ = (a * (2 ^ 53 - 1)) * (float64OnePointTwo * (2 ^ 53 - 1)) := h4
      _ ≤ (roundFloat64 a * 2 ^ 53) * (float64OnePointTwo * (2 ^ 53 - 1)) := h5
      _ = (roundFloat64 a * float64OnePointTwo * (2 ^ 53 - 1)) * 2 ^ 53 := h6
      _ ≤ (roundFloat64 (roundFloat64 a * float64OnePointTwo) * 2 ^ 53) * 2 ^ 53 := h7
      _ = roundFloat64 (roundFloat64 a * float64OnePointTwo) * 2 ^ 106 := by ring
  have h9 : a * 2 ^ 158 = (a * 2 ^ 52) * 2 ^ 106 := by ring
  rw [h9] at h8
  exact Nat.le_of_mul_le_mul_right h8 (by decide)

/-- `int(float64(cost) * 1.2)` keeps the order of costs of magnitude up to
`2 ^ 62`. -/
theorem mulOnePointTwo_mono (c1 c2 : Int) (h : c1 ≤ c2) (h1 : c1.natAbs ≤ 2 ^ 62)
    (h2 : c2.natAbs ≤ 2 ^ 62) : mulOnePointTwo c1 ≤ mulOnePointTwo c2 := by
  rw [mulOnePointTwo_of_fit c1 (productMagnitude_fit _ h1),
    mulOnePointTwo_of_fit c2 (productMagnitude_fit _ h2)]
  by_cases n1 : c1 < 0
  · by_cases n2 : c2 < 0
    · rw [if_pos n1, if_pos n2]
      have := productMagnitude_mono c2.natAbs c1.natAbs (by omega)
      omega
    · rw [if_pos n1, if_neg n2]
      omega
  · have n2 : ¬ c2 < 0 := by omega
    rw [if_neg n1, if_neg n2]
    have := productMagnitude_mono c1.natAbs c2.natAbs (by omega)
    omega

/-- `int(float64(cost) * 1.2)` is at least the cost, for a cost from 0 up to
`2 ^ 62`. -/
theorem mulOnePointTwo_ge (c : Int) (h0 : 0 ≤ c) (h1 : c.natAbs ≤ 2 ^ 62) :
    c ≤ mulOnePointTwo c := by
  rw [mulOnePointTwo_of_fit c (productMagnitude_fit _ h1), if_neg (by omega)]
  have := productMagnitude_ge c.natAbs
  omega

/-- Cost of an explicit duration of magnitude below `2 ^ 61` seconds: no 64-bit
word wraps, the minutes are the quotient of `d + 59` by 60 rounded toward zero,
and the cost before the surcharge stays within `2 ^ 62`. -/
theorem cost_of_duration (fileSize d : Int) (language : String)
    (h0 : -(2 ^ 61) < d) (h1 : d < 2 ^ 61) :
    (Int.tdiv (d + 59) 60 * 100).natAbs ≤ 2 ^ 62 ∧
    estimateTranscriptionCost fileSize (some d) language =
      if language = "zh" ∨ language = "en" then Int.tdiv (d + 59) 60 * 100
      else mulOnePointTwo (Int.tdiv (d + 59) 60 * 100) := by
  have hw1 : wrapInt64 (d + 59) = d + 59 := wrapInt64_of_range _ (by omega) (by omega)
  have hbound : -38430716820228234 < Int.tdiv (d + 59) 60 ∧
      Int.tdiv (d + 59) 60 < 38430716820228234 := by
    rcases Int.le_total 0 (d + 59) with hp | hn
    · rw [Int.tdiv_eq_ediv hp (by decide)]
      omega
    · have e : d + 59 = -(-(d + 59)) := by ring
      rw [e, Int.neg_tdiv, Int.tdiv_eq_ediv (by omega) (by decide)]
      omega
  have hw2 : wrapInt64 (Int.tdiv (d + 59) 60 * 100) = Int.tdiv (d + 59) 60 * 100 :=
    wrapInt64_of_range _ (by omega) (by omega)
  refine ⟨by omega, ?_⟩
  unfold estimateTranscriptionCost
  simp only [hw1, hw2]
  by_cases hl : language = "zh" ∨ language = "en"
  · rw [if_pos hl, if_neg]
    rw [language_test]
    exact fun hc => hc hl
  · rw [if_neg hl, if_pos ((language_test language).mpr hl)]

/-- The quotient by 60 rounded toward zero does not decrease with the dividend. -/
theorem tdiv_sixty_mono (a b : Int) (h : a ≤ b) : Int.tdiv a 60 ≤ Int.tdiv b 60 := by
  rcases Int.le_total 0 a with ha | ha
  · rw [Int.tdiv_eq_ediv ha (by decide), Int.tdiv_eq_ediv (by omega) (by decide)]
    omega
  · have ea : a = -(-a) := by ring
    rw [ea, Int.neg_tdiv, Int.tdiv_eq_ediv (by omega) (by decide)]
    rcases Int.le_total 0 b with hb | hb
    · rw [Int.tdiv_eq_ediv hb (by decide)]
      omega
    · have eb : b = -(-b) := by ring
      rw [eb, Int.neg_tdiv, Int.tdiv_eq_ediv (by omega) (by decide)]
      omega

/-- C27, refuted as stated: a duration of 9223372036854775700 seconds costs less
in "en" than a duration of 0, the sum `d + 59` and the product by 100 having
wrapped; and a duration of 5534023222112865424 seconds costs less in "fr" than in
"en", the product by `1.2` being beyond the `int64` range. -/
theorem estimateTranscriptionCost_order_lost :
    estimateTranscriptionCost 5 (some 0) "en" = 0 ∧
    estimateTranscriptionCost 5 (some 9223372036854775700) "en" = -3074457345618258716 ∧
    estimateTranscriptionCost 5 (some 5534023222112865424) "en" = 9223372036854775800 ∧
    estimateTranscriptionCost 5 (some 5534023222112865424) "fr" = -9223372036854775808 := by
  decide

/-- C27, as the code has it: the estimate is monotone as long as no 64-bit word
wraps.  For a fixed language and explicit durations between `-2 ^ 61` and
`2 ^ 61` seconds, a longer duration never costs less; with unknown duration, a
larger file never costs less, over the whole `int64` range of sizes; and for a
duration from 0 up to `2 ^ 61` the cost in any language is at least the cost in
"zh" and in "en". -/
theorem estimateTranscriptionCost_monotone (language : String) (fileSize : Int)
    (d1 d2 s1 s2 : Int) :
    (-(2 ^ 61) < d1 → d1 ≤ d2 → d2 < 2 ^ 61 →
      estimateTranscriptionCost fileSize (some d1) language
        ≤ estimateTranscriptionCost fileSize (some d2) language) ∧
    (-(2 ^ 63) ≤ s1 → s1 ≤ s2 → s2 < 2 ^ 63 →
      estimateTranscriptionCost s1 none language
        ≤ estimateTranscriptionCost s2 none language) ∧
    (0 ≤ d2 → d2 < 2 ^ 61 →
      estimateTranscriptionCost fileSize (some d2) "zh"
        ≤ estimateTranscriptionCost fileSize (some d2) language ∧
      estimateTranscriptionCost fileSize (some d2) "en"
        ≤ estimateTranscriptionCost fileSize (some d2) language) := by
  refine ⟨?_, ?_, ?_⟩
  · intro h1 h12 h2
    obtain ⟨b1, e1⟩ := cost_of_duration fileSize d1 language h1 (by omega)
    obtain ⟨b2, e2⟩ := cost_of_duration fileSize d2 language (by omega) h2
    rw [e1, e2]
    have hm := tdiv_sixty_mono (d1 + 59) (d2 + 59) (by omega)
    by_cases hl : language = "zh" ∨ language = "en"
    · simp only [if_pos hl]
      omega
    · simp only [if_neg hl]
      exact mulOnePointTwo_mono _ _ (by omega) b1 b2
  · intro h1 h12 h2
    -- the durations estimated from the sizes
    have hdur : ∀ s : Int, -(2 ^ 63) ≤ s → s < 2 ^ 63 →
        ∃ e : Int, 60 ≤ e ∧ e < 2 ^ 50 ∧
          (e = 60 ∨ e = Int.tdiv s (1024 * 1024)) ∧ Int.tdiv s (1024 * 1024) ≤ e ∧
          (if Int.tdiv s (1024 * 1024) < 60 then 60 else Int.tdiv s (1024 * 1024)) = e := by
      intro s hs1 hs2
      have hb : Int.tdiv s (1024 * 1024) < 2 ^ 50 := by
        rcases Int.le_total 0 s with hp | hn
        · rw [Int.tdiv_eq_ediv hp (by decide)]
          omega
        · have e : s = -(-s) := by ring
          rw [e, Int.neg_tdiv, Int.tdiv_eq_ediv (by omega) (by decide)]
          omega
      by_cases hc : Int.tdiv s (1024 * 1024) < 60
      · exact ⟨60, by decide, by decide, Or.inl rfl, by omega, by rw [if_pos hc]⟩
      · exact ⟨_, by omega, hb, Or.inr rfl, le_refl _, by rw [if_neg hc]⟩
    have hmono : Int.tdiv s1 (1024 * 1024) ≤ Int.tdiv s2 (1024 * 1024) := by
      rcases Int.le_total 0 s1 with ha | ha
      · rw [Int.tdiv_eq_ediv ha (by decide), Int.tdiv_eq_ediv (by omega) (by decide)]
        omega
      · have ea : s1 = -(-s1) := by ring
        rw [ea, Int.neg_tdiv, Int.tdiv_eq_ediv (by omega) (by decide)]
        rcases Int.le_total 0 s2 with hb | hb
        · rw [Int.tdiv_eq_ediv hb (by decide)]
          omega
        · have eb : s2 = -(-s2) := by ring
          rw [eb, Int.neg_tdiv, Int.tdiv_eq_ediv (by omega) (by decide)]
          omega
    obtain ⟨e1, he1lo, he1hi, he1, _, hd1⟩ := hdur s1 h1 (by omega)
    obtain ⟨e2, he2lo, he2hi, _, he2, hd2⟩ := hdur s2 (by omega) h2
    have hle : e1 ≤ e2 := by
      rcases he1 with h | h
      · omega
      · omega
    rw [cost_of_estimated_duration s1 e1 none language hd1 (by omega) he1hi,
      cost_of_estimated_duration s2 e2 none language hd2 (by omega) he2hi]
    by_cases hl : language = "zh" ∨ language = "en"
    · simp only [if_pos hl]
      omega
    · simp only [if_neg hl]
      omega
  · intro h0 h2
    obtain ⟨b, e⟩ := cost_of_duration fileSize d2 language (by omega) h2
    obtain ⟨_, ezh⟩ := cost_of_duration fileSize d2 "zh" (by omega) h2
    obtain ⟨_, een⟩ := cost_of_duration fileSize d2 "en" (by omega) h2
    rw [e, ezh, een]
    simp only [true_or, or_true, if_true]
    have hnn : 0 ≤ Int.tdiv (d2 + 59) 60 * 100 := by
      rw [Int.tdiv_eq_ediv (by omega) (by decide)]
      omega
    by_cases hl : language = "zh" ∨ language = "en"
    · simp only [if_pos hl]
      exact ⟨le_refl _, le_refl _⟩
    · simp only [if_neg hl]
      exact ⟨mulOnePointTwo_ge _ hnn b, mulOnePointTwo_ge _ hnn b⟩

/-- C27 on concrete inputs: 30 and 90 seconds in "fr" cost 120 and 240; files of
1 MiB and of 200 MiB without duration cost 100 and 400 in "en"; 90 seconds cost
200 in "zh" and in "en" and 240 in "fr". -/
theorem estimateTranscriptionCost_monotone_witness :
    estimateTranscriptionCost 5 (some 30) "fr" ≤ estimateTranscriptionCost 5 (some 90) "fr" ∧
    estimateTranscriptionCost 5 (some 30) "fr" = 120 ∧
    estimateTranscriptionCost 5 (some 90) "fr" = 240 ∧
    estimateTranscriptionCost 1048576 none "en"
      ≤ estimateTranscriptionCost 209715200 none "en" ∧
    estimateTranscriptionCost 1048576 none "en" = 100 ∧
    estimateTranscriptionCost 209715200 none "en" = 400 ∧
    estimateTranscriptionCost 5 (some 90) "zh" ≤ estimateTranscriptionCost 5 (some 90) "fr" ∧
    estimateTranscriptionCost 5 (some 90) "en" ≤ estimateTranscriptionCost 5 (some 90) "fr" :=
  ⟨(estimateTranscriptionCost_monotone "fr" 5 30 90 0 0).1 (by decide) (by decide) (by decide),
    by decide, by decide,
    (estimateTranscriptionCost_monotone "en" 5 0 0 1048576 209715200).2.1 (by decide)
      (by decide) (by decide),
    by decide, by decide,
    ((estimateTranscriptionCost_monotone "fr" 5 0 90 0 0).2.2 (by decide) (by decide)).1,
    ((estimateTranscriptionCost_monotone "fr" 5 0 90 0 0).2.2 (by decide) (by decide)).2⟩

/-! ## QuotaLedger: repeated cancel -/

/-- C28: the owner cancels the sample task (quota cost 100, debited once, balance
400) and repeats the request.  The first cancel credits 100 and leaves the
balance at 500; the second finds the task cancelled, which the status test of the
handler lets through, answers success again and credits another 100: the balance
is 600 and the ledger holds one debit and two credits. -/
theorem cancel_twice_refunds_twice :
    storedStatus storeInFlight 1 7 = some TaskStatusProcessing ∧
    storeInFlight.quota 7 = 400 ∧
    runCancelOnce.2 = CancelResponse.cancelled ∧
    storedStatus runCancelOnce.1 1 7 = some TaskStatusCancelled ∧
    runCancelOnce.1.quota 7 = 500 ∧
    runCancelTwice.2 = CancelResponse.cancelled ∧
    storedStatus runCancelTwice.1 1 7 = some TaskStatusCancelled ∧
    runCancelTwice.1.quota 7 = 600 ∧
    runCancelTwice.1.ledger =
      [QuotaCall.decrease 7 100, QuotaCall.increase 7 100, QuotaCall.increase 7 100] ∧
    totalDebited 7 runCancelTwice.1.ledger = 100 ∧
    totalRefunded 7 runCancelTwice.1.ledger = 200 :=
  ⟨rfl, rfl, rfl, rfl, rfl, rfl, rfl, rfl, rfl, rfl, rfl⟩

end Veloera
